import Mathlib

/-!
# Survey session engine

A shallow embedding of the two survey components of the repository,
`src/components/SentimentForm.jsx` and `src/components/HRFeedback.jsx`.

React state is an explicit record; every handler, effect and promise continuation of the
source is a function from the state it runs in to the state it leaves behind.
`localStorage` is a field of the record.  Pending `setTimeout` callbacks are kept in the
record as a list and run by `fireTimeout`.

JavaScript values are modelled as far as the components use them:

* a scalar is `null`, a boolean, an integer number or a string; `undefined` is `none`;
* a JSON document is a scalar, an array of scalars or an object of scalars
  (nesting depth at most one, integer numbers, no lone surrogates).  For a JSON text
  outside this fragment the model of `JSON.parse` has no value; `isJsonText` recognises
  the full JSON grammar, and the statements about stored texts are made for texts that
  are not JSON texts or that the model parses;
* numbers are mathematical integers (exact for magnitudes below 2^53);
* the enumeration order of object keys is taken to be insertion order. JavaScript lists
  integer-like keys first, in ascending order; the statements of this development are
  about property reads and sets of keys, or relative to the order of `Object.keys`.
-/

namespace SurveyEngine

/-! ## JavaScript scalars and strings -/

/-- JSON scalars. The value `undefined` is represented by `none : Option JsPrim`. -/
inductive JsPrim
  | null
  | bool (b : Bool)
  | num (n : Int)
  | str (s : String)
deriving DecidableEq

/-- JSON documents of nesting depth at most one. -/
inductive JsVal
  | prim (p : JsPrim)
  | arr (xs : List JsPrim)
  | obj (kvs : List (String × JsPrim))
deriving DecidableEq

/-- ToBoolean of a value that may be `undefined`. -/
def truthy : Option JsPrim → Bool
  | none => false
  | some .null => false
  | some (.bool b) => b
  | some (.num n) => n != 0
  | some (.str s) => s != ""

/-- ToBoolean of a string that may be `null` (`localStorage.getItem`, props). -/
def truthyStr : Option String → Bool
  | none => false
  | some s => s != ""

/-- WhiteSpace and LineTerminator code points: what `trim` strips and `parseInt` skips. -/
def isJsWhiteSpace (c : Char) : Bool :=
  let n := c.toNat
  n == 0x09 || n == 0x0A || n == 0x0B || n == 0x0C || n == 0x0D || n == 0x20 || n == 0xA0 ||
  n == 0x1680 || (decide (0x2000 ≤ n) && decide (n ≤ 0x200A)) || n == 0x2028 || n == 0x2029 ||
  n == 0x202F || n == 0x205F || n == 0x3000 || n == 0xFEFF

/-- Model of `String.prototype.trim`. -/
def jsTrim (s : String) : String :=
  String.mk ((s.data.dropWhile isJsWhiteSpace).reverse.dropWhile isJsWhiteSpace).reverse

/-- The rejection test of the source,
`!a || (typeof a === 'string' && a.trim() === '')`. -/
def unanswered (a : Option JsPrim) : Bool :=
  !truthy a ||
    (match a with
     | some (.str s) => jsTrim s == ""
     | _ => false)

/-- The counting test of the source,
`a && (typeof a !== 'string' || a.trim() !== '')`. -/
def answered (a : Option JsPrim) : Bool :=
  truthy a &&
    (match a with
     | some (.str s) => jsTrim s != ""
     | _ => true)

/-! ## Numbers and their decimal text -/

/-- Decimal digit character of a number below ten. -/
def digitChar (d : Nat) : Char := Char.ofNat (48 + d)

/-- Decimal digits of `n`, most significant first; the first argument bounds the recursion. -/
def decDigits : Nat → Nat → List Char
  | 0, _ => []
  | f + 1, n => if n < 10 then [digitChar n] else decDigits f (n / 10) ++ [digitChar (n % 10)]

/-- Model of `String(n)` for a non-negative integer. -/
def natToString (n : Nat) : String := String.mk (decDigits (n + 1) n)

/-- Model of `String(n)` for an integer. -/
def numToString : Int → String
  | .ofNat m => natToString m
  | .negSucc m => String.mk (Char.ofNat 45 :: (natToString (m + 1)).data)

/-- Value of a run of decimal digit characters. -/
def digitsValue (ds : List Char) : Nat :=
  ds.foldl (fun a c => 10 * a + (c.toNat - 48)) 0

/-- The longest run of decimal digits at the head of the text: its value, if the run is
not empty. -/
def leadingDigits (cs : List Char) : Option Nat :=
  let ds := cs.takeWhile Char.isDigit
  if ds.isEmpty then none else some (digitsValue ds)

/-- Model of `parseInt(s, 10)`; `none` is `NaN`. -/
def parseInt (s : String) : Option Int :=
  match s.data.dropWhile isJsWhiteSpace with
  | [] => none
  | c :: cs =>
    if c.toNat = 45 then (leadingDigits cs).map (fun n => -(n : Int))
    else if c.toNat = 43 then (leadingDigits cs).map (fun n => (n : Int))
    else (leadingDigits (c :: cs)).map (fun n => (n : Int))

end SurveyEngine

namespace SurveyEngine

/-! ## Objects -/

/-- Assignment `o[k] = v` on the own properties of an object: an existing key keeps its
place, a new key goes last. -/
def setProp {α : Type} (kvs : List (String × α)) (k : String) (v : α) : List (String × α) :=
  match kvs with
  | [] => [(k, v)]
  | (k', v') :: rest => if k' = k then (k, v) :: rest else (k', v') :: setProp rest k v

/-- Own enumerable properties of a value, as seen by a spread, by `Object.keys` and by a
property read with a key that is a number text: the members of an object, the indexed
elements of an array, the indexed characters of a string, nothing for the other scalars. -/
def ownProps : JsVal → List (String × JsPrim)
  | .obj kvs => kvs
  | .arr xs => xs.enum.map (fun ix => (natToString ix.1, ix.2))
  | .prim (.str s) => s.data.enum.map (fun ic => (natToString ic.1, JsPrim.str (String.mk [ic.2])))
  | .prim _ => []

/-- Property read `v[k]`; `none` is `undefined`. -/
def getProp (v : JsVal) (k : String) : Option JsPrim := (ownProps v).lookup k

/-- Model of `Object.keys(v)`. -/
def objectKeys (v : JsVal) : List String := (ownProps v).map Prod.fst

/-! ## JSON text -/

/-- Lower-case hexadecimal digit. -/
def hexDigit (d : Nat) : Char := if d < 10 then Char.ofNat (48 + d) else Char.ofNat (87 + d)

/-- The JSON escape of one code point, as `JSON.stringify` writes it. -/
def escapeChar (c : Char) : List Char :=
  let n := c.toNat
  if n = 34 then [Char.ofNat 92, Char.ofNat 34]
  else if n = 92 then [Char.ofNat 92, Char.ofNat 92]
  else if n = 8 then [Char.ofNat 92, 'b']
  else if n = 12 then [Char.ofNat 92, 'f']
  else if n = 10 then [Char.ofNat 92, 'n']
  else if n = 13 then [Char.ofNat 92, 'r']
  else if n = 9 then [Char.ofNat 92, 't']
  else if n < 32 then [Char.ofNat 92, 'u', '0', '0', hexDigit (n / 16), hexDigit (n % 16)]
  else [c]

/-- A string between double quotes with its characters escaped. -/
def quoteJson (s : String) : List Char :=
  Char.ofNat 34 :: ((s.data.map escapeChar).flatten ++ [Char.ofNat 34])

/-- JSON text of a scalar. -/
def stringifyPrim : JsPrim → List Char
  | .null => ['n', 'u', 'l', 'l']
  | .bool true => ['t', 'r', 'u', 'e']
  | .bool false => ['f', 'a', 'l', 's', 'e']
  | .num n => (numToString n).data
  | .str s => quoteJson s

/-- Texts separated by commas. -/
def joinComma : List (List Char) → List Char
  | [] => []
  | [x] => x
  | x :: y :: rest => x ++ (',' :: joinComma (y :: rest))

/-- JSON text of an object member. -/
def stringifyMember (kv : String × JsPrim) : List Char :=
  quoteJson kv.1 ++ (':' :: stringifyPrim kv.2)

/-- Model of `JSON.stringify`. -/
def JSON.stringify : JsVal → String
  | .prim p => String.mk (stringifyPrim p)
  | .arr xs => String.mk ('[' :: (joinComma (xs.map stringifyPrim) ++ [']']))
  | .obj kvs =>
    String.mk (Char.ofNat 123 :: (joinComma (kvs.map stringifyMember) ++ [Char.ofNat 125]))

/-- JSON white space. -/
def isJsonWs (c : Char) : Bool :=
  c.toNat == 32 || c.toNat == 9 || c.toNat == 10 || c.toNat == 13

/-- Drop leading JSON white space. -/
def skipWs (cs : List Char) : List Char := cs.dropWhile isJsonWs

/-- Value of a hexadecimal digit. -/
def hexVal (c : Char) : Option Nat :=
  let n := c.toNat
  if 48 ≤ n ∧ n ≤ 57 then some (n - 48)
  else if 97 ≤ n ∧ n ≤ 102 then some (n - 87)
  else if 65 ≤ n ∧ n ≤ 70 then some (n - 55)
  else none

/-- The character named by a one-letter escape. -/
def unescape (e : Char) : Option Char :=
  let n := e.toNat
  if n = 34 then some (Char.ofNat 34)
  else if n = 92 then some (Char.ofNat 92)
  else if n = 47 then some (Char.ofNat 47)
  else if n = 98 then some (Char.ofNat 8)
  else if n = 102 then some (Char.ofNat 12)
  else if n = 110 then some (Char.ofNat 10)
  else if n = 114 then some (Char.ofNat 13)
  else if n = 116 then some (Char.ofNat 9)
  else none

/-- The character named by four hexadecimal digits; a surrogate is outside the fragment. -/
def unicodeEscape (a b c d : Char) : Option Char :=
  match hexVal a, hexVal b, hexVal c, hexVal d with
  | some x, some y, some z, some w =>
    let n := 4096 * x + 256 * y + 16 * z + w
    if 0xD800 ≤ n ∧ n ≤ 0xDFFF then none else some (Char.ofNat n)
  | _, _, _, _ => none

/-- Read what follows the backslash of an escape: the character it names and the text
after it. -/
def readEscape : List Char → Option (Char × List Char)
  | [] => none
  | e :: rest =>
    if e.toNat = 117 then
      match rest with
      | h1 :: h2 :: h3 :: h4 :: rest3 => (unicodeEscape h1 h2 h3 h4).map (fun ch => (ch, rest3))
      | _ => none
    else (unescape e).map (fun ch => (ch, rest))

/-- Read a JSON string after its opening quote: the characters up to the closing quote and
the text after it. The first argument bounds the recursion; the length of the text is
enough. -/
def parseStrBody : Nat → List Char → Option (List Char × List Char)
  | 0, _ => none
  | _ + 1, [] => none
  | f + 1, c :: rest =>
    if c.toNat = 34 then some ([], rest)
    else if c.toNat = 92 then
      match readEscape rest with
      | none => none
      | some (ch, rest2) => (parseStrBody f rest2).map (fun sr => (ch :: sr.1, sr.2))
    else if c.toNat < 32 then none
    else (parseStrBody f rest).map (fun sr => (c :: sr.1, sr.2))

/-- Read a JSON integer. A leading zero before another digit is a syntax error; a
fraction or an exponent is outside the fragment. -/
def parseNumber (cs : List Char) : Option (JsPrim × List Char) :=
  let neg : Bool := cs.head?.map Char.toNat == some 45
  let body := if neg then cs.drop 1 else cs
  let ds := body.takeWhile Char.isDigit
  let rest := body.dropWhile Char.isDigit
  if ds.isEmpty then none
  else if decide (1 < ds.length) && (ds.head?.map Char.toNat == some 48) then none
  else if (rest.head?.map Char.toNat == some 46) || (rest.head?.map Char.toNat == some 101)
      || (rest.head?.map Char.toNat == some 69) then none
  else some (.num (if neg then -(digitsValue ds : Int) else (digitsValue ds : Int)), rest)

/-- Drop a literal from the head of the text. -/
def dropLit : List Char → List Char → Option (List Char)
  | [], cs => some cs
  | _ :: _, [] => none
  | l :: ls, c :: cs => if l = c then dropLit ls cs else none

/-- Read a JSON scalar. -/
def parsePrim (cs : List Char) : Option (JsPrim × List Char) :=
  match cs with
  | [] => none
  | c :: r =>
    if c.toNat = 34 then
      (parseStrBody r.length r).map (fun sr => (JsPrim.str (String.mk sr.1), sr.2))
    else if c.toNat = 110 then (dropLit ['u', 'l', 'l'] r).map (fun r2 => (JsPrim.null, r2))
    else if c.toNat = 116 then (dropLit ['r', 'u', 'e'] r).map (fun r2 => (JsPrim.bool true, r2))
    else if c.toNat = 102 then
      (dropLit ['a', 'l', 's', 'e'] r).map (fun r2 => (JsPrim.bool false, r2))
    else parseNumber cs

/-- Read array elements up to the closing bracket; the first argument bounds the
recursion. -/
def parseElems : Nat → List Char → Option (List JsPrim × List Char)
  | 0, _ => none
  | f + 1, cs =>
    match parsePrim (skipWs cs) with
    | none => none
    | some (v, r) =>
      match skipWs r with
      | [] => none
      | c :: r2 =>
        if c.toNat = 44 then (parseElems f r2).map (fun vr => (v :: vr.1, vr.2))
        else if c.toNat = 93 then some ([v], r2)
        else none

/-- Read one object member `"key" : scalar`. -/
def parseMember (cs : List Char) : Option ((String × JsPrim) × List Char) :=
  match skipWs cs with
  | [] => none
  | q :: r =>
    if q.toNat = 34 then
      match parseStrBody r.length r with
      | none => none
      | some (k, r1) =>
        match skipWs r1 with
        | [] => none
        | c :: r2 =>
          if c.toNat = 58 then
            (parsePrim (skipWs r2)).map (fun vr => ((String.mk k, vr.1), vr.2))
          else none
    else none

/-- Read object members up to the closing brace; the first argument bounds the
recursion. -/
def parseMembers : Nat → List Char → Option (List (String × JsPrim) × List Char)
  | 0, _ => none
  | f + 1, cs =>
    match parseMember cs with
    | none => none
    | some (kv, r) =>
      match skipWs r with
      | [] => none
      | c :: r2 =>
        if c.toNat = 44 then (parseMembers f r2).map (fun mr => (kv :: mr.1, mr.2))
        else if c.toNat = 125 then some ([kv], r2)
        else none

/-- Read one JSON document from the head of the text. -/
def parseDocument (cs : List Char) : Option (JsVal × List Char) :=
  match skipWs cs with
  | [] => none
  | c :: r =>
    if c.toNat = 91 then
      match skipWs r with
      | [] => none
      | d :: r2 =>
        if d.toNat = 93 then some (.arr [], r2)
        else (parseElems (r.length + 1) r).map (fun vr => (JsVal.arr vr.1, vr.2))
    else if c.toNat = 123 then
      match skipWs r with
      | [] => none
      | d :: r2 =>
        if d.toNat = 125 then some (.obj [], r2)
        else (parseMembers (r.length + 1) r).map
          (fun mr => (JsVal.obj (mr.1.foldl (fun o kv => setProp o kv.1 kv.2) []), mr.2))
    else (parsePrim (c :: r)).map (fun pr => (JsVal.prim pr.1, pr.2))

/-- Model of `JSON.parse` on the modelled fragment: `some v` is the value parsed. A
repeated key of an object keeps its first place and its last value. The result is `none`
for a text that is not a JSON text, where `JSON.parse` throws a `SyntaxError`, and also
for a JSON text outside the fragment, whose value is not modelled; `isJsonText` tells the
two apart. -/
def JSON.parse (s : String) : Option JsVal :=
  match parseDocument s.data with
  | none => none
  | some (v, rest) => if (skipWs rest).isEmpty then some v else none

/-! ## The JSON grammar -/

/-- Skip what follows the backslash of an escape in a JSON string: one of the eight
one-letter escapes, or `u` and four hexadecimal digits (any four, surrogates included). -/
def skipEscape : List Char → Option (List Char)
  | [] => none
  | e :: rest =>
    if e.toNat = 117 then
      match rest with
      | h1 :: h2 :: h3 :: h4 :: rest3 =>
        if (hexVal h1).isSome && (hexVal h2).isSome && (hexVal h3).isSome && (hexVal h4).isSome
        then some rest3 else none
      | _ => none
    else if (unescape e).isSome then some rest else none

/-- Skip a JSON string after its opening quote: the text after the closing quote. The
first argument bounds the recursion; the length of the text is enough. -/
def skipStrBody : Nat → List Char → Option (List Char)
  | 0, _ => none
  | _ + 1, [] => none
  | f + 1, c :: rest =>
    if c.toNat = 34 then some rest
    else if c.toNat = 92 then
      match skipEscape rest with
      | none => none
      | some rest2 => skipStrBody f rest2
    else if c.toNat < 32 then none
    else skipStrBody f rest

/-- Skip a run of at least one decimal digit. -/
def skipDigits (cs : List Char) : Option (List Char) :=
  if (cs.takeWhile Char.isDigit).isEmpty then none else some (cs.dropWhile Char.isDigit)

/-- Skip an optional fraction: a point and at least one digit. -/
def skipFraction (cs : List Char) : Option (List Char) :=
  if cs.head?.map Char.toNat == some 46 then skipDigits (cs.drop 1) else some cs

/-- Skip an optional exponent: `e` or `E`, an optional sign and at least one digit. -/
def skipExponent (cs : List Char) : Option (List Char) :=
  if (cs.head?.map Char.toNat == some 101) || (cs.head?.map Char.toNat == some 69) then
    let r := cs.drop 1
    if (r.head?.map Char.toNat == some 43) || (r.head?.map Char.toNat == some 45)
    then skipDigits (r.drop 1) else skipDigits r
  else some cs

/-- Skip a JSON number: an optional minus, an integer part without a leading zero before
another digit, an optional fraction, an optional exponent. -/
def skipNumber (cs : List Char) : Option (List Char) :=
  let neg : Bool := cs.head?.map Char.toNat == some 45
  let body := if neg then cs.drop 1 else cs
  let ds := body.takeWhile Char.isDigit
  let rest := body.dropWhile Char.isDigit
  if ds.isEmpty then none
  else if decide (1 < ds.length) && (ds.head?.map Char.toNat == some 48) then none
  else (skipFraction rest).bind skipExponent

/-- What the recogniser is reading: a value, the elements of an array after its opening
bracket, or the members of an object after its opening brace. -/
inductive JsonPart
  | value
  | elements
  | members
deriving DecidableEq

/-- Skip a part of a JSON text: the text after it, `none` if the text does not start with
such a part. The first argument bounds the recursion; twice the length of the text plus
two is enough, since every second step consumes a character. -/
def skipJson : Nat → JsonPart → List Char → Option (List Char)
  | 0, _, _ => none
  | f + 1, .value, cs =>
    match cs with
    | [] => none
    | c :: r =>
      if c.toNat = 34 then skipStrBody r.length r
      else if c.toNat = 91 then
        match skipWs r with
        | [] => none
        | d :: r2 => if d.toNat = 93 then some r2 else skipJson f .elements r
      else if c.toNat = 123 then
        match skipWs r with
        | [] => none
        | d :: r2 => if d.toNat = 125 then some r2 else skipJson f .members r
      else if c.toNat = 110 then dropLit ['u', 'l', 'l'] r
      else if c.toNat = 116 then dropLit ['r', 'u', 'e'] r
      else if c.toNat = 102 then dropLit ['a', 'l', 's', 'e'] r
      else skipNumber cs
  | f + 1, .elements, cs =>
    match skipJson f .value (skipWs cs) with
    | none => none
    | some r =>
      match skipWs r with
      | [] => none
      | c :: r2 =>
        if c.toNat = 44 then skipJson f .elements r2
        else if c.toNat = 93 then some r2
        else none
  | f + 1, .members, cs =>
    match skipWs cs with
    | [] => none
    | q :: r =>
      if q.toNat = 34 then
        match skipStrBody r.length r with
        | none => none
        | some r1 =>
          match skipWs r1 with
          | [] => none
          | c :: r2 =>
            if c.toNat = 58 then
              match skipJson f .value (skipWs r2) with
              | none => none
              | some r3 =>
                match skipWs r3 with
                | [] => none
                | c2 :: r4 =>
                  if c2.toNat = 44 then skipJson f .members r4
                  else if c2.toNat = 125 then some r4
                  else none
            else none
      else none

/-- Whether a text is a JSON text: white space, one value, white space. This is the full
grammar of `JSON.parse` (nested arrays and objects, fractions, exponents, every escape);
a text for which it is false makes `JSON.parse` throw a `SyntaxError`. -/
def isJsonText (s : String) : Bool :=
  match skipJson (2 * s.data.length + 2) .value (skipWs s.data) with
  | none => false
  | some rest => (skipWs rest).isEmpty

/-- The text after a number: not a digit, a point or an exponent mark. -/
def NumEnd (rest : List Char) : Prop :=
  rest.head?.map Char.isDigit ≠ some true ∧ rest.head?.map Char.toNat ≠ some 46 ∧
  rest.head?.map Char.toNat ≠ some 101 ∧ rest.head?.map Char.toNat ≠ some 69

/-- The keys of an object are pairwise different; nothing is asked of other values. Every
value that `JSON.parse` returns and every value built by a spread has this property. -/
def UniqueKeys : JsVal → Prop
  | .obj kvs => (kvs.map Prod.fst).Nodup
  | _ => True

end SurveyEngine

namespace SurveyEngine

/-! ## localStorage -/

/-- The browser store: the entries of `localStorage`. -/
abbrev Store := List (String × String)

/-- Model of `localStorage.getItem`; `none` is `null`. -/
def getItem (st : Store) (k : String) : Option String := st.lookup k

/-- Model of `localStorage.removeItem`. -/
def removeItem (st : Store) (k : String) : Store := st.filter (fun e => e.1 != k)

/-- Model of `localStorage.setItem`. -/
def setItem (st : Store) (k v : String) : Store := (k, v) :: removeItem st k

/-! ## SentimentForm: props, keys and state -/

/-- Props of `SentimentForm` and the month read from the clock at render. -/
structure SFProps where
  /-- The prop `token`. -/
  token : Option String
  /-- The prop `employeeId` (default `null`). -/
  employeeId : Option String
  /-- The value of `new Date().getMonth()`, 0..11. -/
  monthIndex : Nat
deriving DecidableEq

/-- The expression `employeeId || 'default'`. -/
def idOrDefault (employeeId : Option String) : String :=
  if truthyStr employeeId then employeeId.getD "" else "default"

/-- The key of the answers entry. -/
def storageKey (p : SFProps) : String := "sentiment_form_data_" ++ idOrDefault p.employeeId

/-- The key of the progress entry. -/
def progressStorageKey (p : SFProps) : String :=
  "sentiment_form_progress_" ++ idOrDefault p.employeeId

/-- The key of the visited entry. -/
def visitedStorageKey (p : SFProps) : String :=
  "sentiment_form_visited_" ++ idOrDefault p.employeeId

/-- The form id `(monthIndex % 4) + 1`. -/
def formId (monthIndex : Nat) : Nat := monthIndex % 4 + 1

/-- The key of the local submitted flag. -/
def submissionStorageKey (p : SFProps) : String :=
  "sentiment_form_submitted_" ++ idOrDefault p.employeeId ++ "_" ++
    natToString (formId p.monthIndex)

/-- A question of the catalog, with the fields the engine reads. -/
structure Question where
  /-- The numeric id of the question. -/
  form_question_id : Int
  /-- The type of the question; `'text'` selects the free-text field. -/
  question_type : String
deriving DecidableEq

/-- Callbacks registered with `setTimeout`. -/
inductive Timeout
  /-- Callback `setShowTimeError(false); setMsg(null)`. -/
  | clearTimeError
  /-- Callback `setMsg(null)`. -/
  | clearMsg
  /-- Callback `setCurrentQuestionIndex(n); localStorage.setItem(progressStorageKey, String(n));
  setIsAnimating(false)`. -/
  | setIndex (n : Nat)
  /-- Callback `setMsg('Responses saved successfully!')`. -/
  | successMsg
deriving DecidableEq

/-- The state of a mounted `SentimentForm`: its `useState` cells, the store, the pending
timeouts and whether the countdown interval is running. -/
structure SFState where
  questions : List Question
  answers : JsVal
  loading : Bool
  msg : Option String
  currentQuestionIndex : Nat
  isAnimating : Bool
  isCompleted : Bool
  showSuccessAnimation : Bool
  timeRemaining : Nat
  showTimeError : Bool
  /-- The set `visitedQuestions`, in insertion order, without repetition. -/
  visitedQuestions : List JsPrim
  hasSubmitted : Bool
  /-- The entries of `localStorage`. -/
  store : Store
  /-- Callbacks registered with `setTimeout` that have not run yet. -/
  timeouts : List Timeout
  /-- Whether the `setInterval` countdown of the arrival effect is running. -/
  countdownRunning : Bool
deriving DecidableEq

/-- The initial `useState` values over a given store. -/
def SFState.init (store : Store) : SFState where
  questions := []
  answers := .obj []
  loading := false
  msg := none
  currentQuestionIndex := 0
  isAnimating := false
  isCompleted := false
  showSuccessAnimation := false
  timeRemaining := 3
  showTimeError := false
  visitedQuestions := [.num 0]
  hasSubmitted := false
  store := store
  timeouts := []
  countdownRunning := false

/-- Model of `visitedQuestions.has(currentQuestionIndex)`. -/
def hasVisited (s : SFState) : Bool :=
  decide (JsPrim.num (s.currentQuestionIndex : Int) ∈ s.visitedQuestions)

/-- The dwell test of the handlers,
`!visitedQuestions.has(currentQuestionIndex) && timeRemaining > 0`. -/
def dwellGateActive (s : SFState) : Bool := !hasVisited s && decide (s.timeRemaining > 0)

/-- The binding `currentQuestion` as a handler sees it. The constant is declared after the
two early returns of the render (`loading`, `hasSubmitted`); in a render that returned
early it is never initialised (`none`) and reading it throws a `ReferenceError`. Otherwise
it holds `questions[currentQuestionIndex]`, which may be `undefined`. -/
def currentQuestionBinding (s : SFState) : Option (Option Question) :=
  if s.loading || s.hasSubmitted then none else some (s.questions[s.currentQuestionIndex]?)

/-- The property key of `answers[currentQuestion?.form_question_id]`. -/
def answerKey (cq : Option Question) : String :=
  match cq with
  | some q => numToString q.form_question_id
  | none => "undefined"

/-- The count `totalAnswered` of `handleSubmit`: the keys of `answers` whose value passes
the counting test. -/
def totalAnswered (answers : JsVal) : Nat :=
  ((objectKeys answers).filter (fun key => answered (getProp answers key))).length

/-- One entry of the submitted `answers` array. -/
inductive AnswerEntry
  /-- Entry `{ form_question_id: key, answer_text: answers[key] }`. -/
  | text (form_question_id : String) (answer_text : Option JsPrim)
  /-- Entry `{ form_question_id: key, answer_choice: answers[key] }`. -/
  | choice (form_question_id : String) (answer_choice : Option JsPrim)
deriving DecidableEq

/-- The field `form_question_id` of an entry. -/
def AnswerEntry.key : AnswerEntry → String
  | .text k _ => k
  | .choice k _ => k

/-- The array `payload` of `handleSubmit`. -/
def buildPayload (questions : List Question) (answers : JsVal) : List AnswerEntry :=
  (objectKeys answers).filterMap (fun key =>
    match questions.find? (fun x => decide (some x.form_question_id = parseInt key)) with
    | none => none
    | some q =>
      if q.question_type = "text" then some (.text key (getProp answers key))
      else some (.choice key (getProp answers key)))

/-- The body of the POST request to `/sentiment/response`. -/
structure SubmitRequest where
  employee_id : Option String
  form_id : Nat
  answers : List AnswerEntry
deriving DecidableEq

end SurveyEngine

namespace SurveyEngine

/-! ## SentimentForm: handlers -/

/-- Handler `handleChange(qid, value)`: `newAnswers = { ...answers, [qid]: value }`, stored in
the state and written to the answers entry. -/
def handleChange (p : SFProps) (s : SFState) (qid : Int) (value : JsPrim) : SFState :=
  let newAnswers := JsVal.obj (setProp (ownProps s.answers) (numToString qid) value)
  { s with answers := newAnswers
           store := setItem s.store (storageKey p) (JSON.stringify newAnswers) }

/-- The rejection of a handler by the dwell test. -/
def rejectDwell (s : SFState) (text : String) : SFState :=
  { s with showTimeError := true, msg := some text, timeouts := s.timeouts ++ [.clearTimeError] }

/-- Handler `goToNextQuestion`. -/
def goToNextQuestion (s : SFState) : SFState :=
  if dwellGateActive s then
    rejectDwell s "Please take a moment to read the question carefully before proceeding."
  else
    match currentQuestionBinding s with
    | none => s -- ReferenceError: currentQuestion is not initialised
    | some cq =>
      if s.answers = .prim .null then s -- TypeError: property read on null
      else if unanswered (getProp s.answers (answerKey cq)) then
        { s with msg := some "Please provide an answer before proceeding to the next question."
                 timeouts := s.timeouts ++ [.clearMsg] }
      else if (s.currentQuestionIndex : Int) < (s.questions.length : Int) - 1 then
        { s with isAnimating := true
                 timeouts := s.timeouts ++ [.setIndex (s.currentQuestionIndex + 1)] }
      else s

/-- Handler `goToPreviousQuestion`. -/
def goToPreviousQuestion (s : SFState) : SFState :=
  if s.currentQuestionIndex > 0 then
    { s with isAnimating := true
             timeouts := s.timeouts ++ [.setIndex (s.currentQuestionIndex - 1)] }
  else s

/-- Handler `goToQuestion(index)`. -/
def goToQuestion (s : SFState) (index : Int) : SFState :=
  if dwellGateActive s then
    rejectDwell s "Please take a moment to read the question carefully before proceeding."
  else if index ≥ 0 ∧ index < (s.questions.length : Int) ∧ index ≠ (s.currentQuestionIndex : Int) then
    { s with isAnimating := true, timeouts := s.timeouts ++ [.setIndex index.toNat] }
  else s

/-- The synchronous part of `handleSubmit`, up to the `fetch`: the state it leaves and
the request body it transmits, if any. -/
def handleSubmit (p : SFProps) (s : SFState) : SFState × Option SubmitRequest :=
  if dwellGateActive s then
    (rejectDwell s "Please take a moment to read the question carefully before submitting.", none)
  else
    match currentQuestionBinding s with
    | none => (s, none) -- ReferenceError: currentQuestion is not initialised
    | some cq =>
      if s.answers = .prim .null then (s, none) -- TypeError: property read on null
      else if unanswered (getProp s.answers (answerKey cq)) then
        ({ s with msg := some "Please provide an answer to the current question before submitting."
                  timeouts := s.timeouts ++ [.clearMsg] }, none)
      else if totalAnswered s.answers < 25 then
        ({ s with showTimeError := true
                  msg := some ("Please answer all 25 questions before submitting. You have answered "
                    ++ natToString (totalAnswered s.answers) ++ "/25 questions.")
                  timeouts := s.timeouts ++ [.clearTimeError] }, none)
      else
        ({ s with loading := true },
          some { employee_id := p.employeeId
                 form_id := formId p.monthIndex
                 answers := buildPayload s.questions s.answers })

/-- How the POST of `handleSubmit` ends: the `fetch` or `res.json()` throws, or a body
`data` arrives of which `data.success` (as a boolean) and `data.message` are read. -/
inductive SubmitOutcome
  | threw
  | data (success : Bool) (message : Option String)
deriving DecidableEq

/-- The continuation of `handleSubmit` after the `await`. -/
def handleSubmitResolved (p : SFProps) (s : SFState) (o : SubmitOutcome) : SFState :=
  match o with
  | .data true _ =>
    { s with
        store := removeItem (removeItem (removeItem
          (setItem s.store (submissionStorageKey p) "true")
          (storageKey p)) (progressStorageKey p)) (visitedStorageKey p)
        hasSubmitted := true
        isCompleted := true
        showSuccessAnimation := true
        timeouts := s.timeouts ++ [.successMsg]
        loading := false }
  | .data false message =>
    { s with msg := some (if truthyStr message then message.getD "" else "Save failed")
             loading := false }
  | .threw => { s with msg := some "Network error", loading := false }

/-- Run a `setTimeout` callback. -/
def runTimeout (p : SFProps) (s : SFState) : Timeout → SFState
  | .clearTimeError => { s with showTimeError := false, msg := none }
  | .clearMsg => { s with msg := none }
  | .setIndex n =>
    { s with currentQuestionIndex := n
             store := setItem s.store (progressStorageKey p) (natToString n)
             isAnimating := false }
  | .successMsg => { s with msg := some "Responses saved successfully!" }

/-- The pending callback number `i` fires. -/
def fireTimeout (p : SFProps) (s : SFState) (i : Nat) : SFState :=
  match s.timeouts[i]? with
  | none => s
  | some t => runTimeout p { s with timeouts := s.timeouts.eraseIdx i } t

/-! ## SentimentForm: effects -/

/-- Model of `Set.prototype.add`: a new element goes last, a present one changes nothing. -/
def setAdd (xs : List JsPrim) (x : JsPrim) : List JsPrim := if x ∈ xs then xs else xs ++ [x]

/-- Model of `new Set(v)`; `none` is the `TypeError` for a value that is not iterable. -/
def newSet : JsVal → Option (List JsPrim)
  | .arr xs => some (xs.foldl setAdd [])
  | .prim (.str t) => some ((t.data.map (fun c => JsPrim.str (String.mk [c]))).foldl setAdd [])
  | .prim .null => some []
  | .prim _ => none
  | .obj _ => none

/-- The arrival effect (dependencies `currentQuestionIndex`, `visitedStorageKey`). The
cleanup of its previous run has cleared the previous interval. -/
def arrivalEffect (p : SFProps) (s : SFState) : SFState :=
  if !hasVisited s then
    let newVisited := setAdd s.visitedQuestions (JsPrim.num (s.currentQuestionIndex : Int))
    { s with visitedQuestions := newVisited
             store := setItem s.store (visitedStorageKey p) (JSON.stringify (.arr newVisited))
             timeRemaining := 3
             showTimeError := false
             countdownRunning := true }
  else
    { s with timeRemaining := 0, showTimeError := false, countdownRunning := false }

/-- The statements of one run of the arrival effect. -/
inductive ArrivalStmt
  /-- The cleanup of the previous run, `clearInterval(timer)`. -/
  | clearInterval
  /-- Statement `setVisitedQuestions(newVisited)` (source line 110). -/
  | setVisitedQuestions (newVisited : List JsPrim)
  /-- Statement `localStorage.setItem(visitedStorageKey, JSON.stringify([...newVisited]))`
  (source line 111). -/
  | storeVisited (text : String)
  /-- Statement `setTimeRemaining(n)` (source lines 114 and 131). -/
  | setTimeRemaining (n : Nat)
  /-- Statement `setShowTimeError(false)` (source lines 115 and 132). -/
  | setShowTimeError (b : Bool)
  /-- Statement `setInterval(...)` (source line 117). -/
  | setInterval
deriving DecidableEq

/-- Run one statement of the arrival effect. -/
def runArrivalStmt (p : SFProps) (s : SFState) : ArrivalStmt → SFState
  | .clearInterval => { s with countdownRunning := false }
  | .setVisitedQuestions newVisited => { s with visitedQuestions := newVisited }
  | .storeVisited text => { s with store := setItem s.store (visitedStorageKey p) text }
  | .setTimeRemaining n => { s with timeRemaining := n }
  | .setShowTimeError b => { s with showTimeError := b }
  | .setInterval => { s with countdownRunning := true }

/-- The statements of the arrival effect in the order of the source (lines 103-133),
after the cleanup of its previous run; `newVisited` is computed from the state the effect
starts in. -/
def arrivalStmts (s : SFState) : List ArrivalStmt :=
  if !hasVisited s then
    let newVisited := setAdd s.visitedQuestions (JsPrim.num (s.currentQuestionIndex : Int))
    [.clearInterval, .setVisitedQuestions newVisited,
     .storeVisited (JSON.stringify (.arr newVisited)),
     .setTimeRemaining 3, .setShowTimeError false, .setInterval]
  else [.clearInterval, .setTimeRemaining 0, .setShowTimeError false]

/-- One firing of the countdown interval,
`setTimeRemaining(prev => prev <= 1 ? (clearInterval(timer), 0) : prev - 1)`. -/
def tick (s : SFState) : SFState :=
  if s.countdownRunning then
    if s.timeRemaining ≤ 1 then { s with timeRemaining := 0, countdownRunning := false }
    else { s with timeRemaining := s.timeRemaining - 1 }
  else s

/-- Load of the answers entry (source lines 72-79). -/
def loadAnswers (p : SFProps) (savedAnswers : Option String) (s : SFState) : SFState :=
  if truthyStr savedAnswers then
    match JSON.parse (savedAnswers.getD "") with
    | some v => { s with answers := v }
    | none => { s with store := removeItem s.store (storageKey p) }
  else s

/-- Load of the progress entry (source lines 81-90); `parseInt` does not throw. -/
def loadProgress (savedProgress : Option String) (s : SFState) : SFState :=
  if truthyStr savedProgress then
    match parseInt (savedProgress.getD "") with
    | some progress => if progress ≥ 0 then { s with currentQuestionIndex := progress.toNat } else s
    | none => s
  else s

/-- Load of the visited entry (source lines 92-99). -/
def loadVisited (p : SFProps) (savedVisited : Option String) (s : SFState) : SFState :=
  if truthyStr savedVisited then
    match (JSON.parse (savedVisited.getD "")).bind newSet with
    | some visited => { s with visitedQuestions := visited }
    | none => { s with store := removeItem s.store (visitedStorageKey p) }
  else s

/-- The synchronous part of the bootstrap effect: the three entries are read, then
loaded one after the other. It runs whether or not a status request was started. -/
def loadSaved (p : SFProps) (s : SFState) : SFState :=
  let savedAnswers := getItem s.store (storageKey p)
  let savedProgress := getItem s.store (progressStorageKey p)
  let savedVisited := getItem s.store (visitedStorageKey p)
  loadVisited p savedVisited (loadProgress savedProgress (loadAnswers p savedAnswers s))

/-- An exception thrown by a call inside the load. -/
inductive JsError
  /-- The error `SyntaxError` of `JSON.parse`. -/
  | syntaxError
  /-- The error `TypeError` of `new Set` on a value that is not iterable. -/
  | typeError
deriving DecidableEq

/-- The call `JSON.parse(text)` with its exception. -/
def JSON.parseE (text : String) : Except JsError JsVal :=
  match JSON.parse text with
  | some v => .ok v
  | none => .error .syntaxError

/-- The call `new Set(v)` with its exception. -/
def newSetE (v : JsVal) : Except JsError (List JsPrim) :=
  match newSet v with
  | some xs => .ok xs
  | none => .error .typeError

/-- The statement `try body catch (_e) handler`: an exception of the body is caught and
the handler, which does not throw here, runs on the state before the body. -/
def tryCatch (body : Except JsError SFState) (handler : SFState) : Except JsError SFState :=
  match body with
  | .ok t => .ok t
  | .error _ => .ok handler

/-- Load of the answers entry (source lines 72-79) with the exceptions of its calls. -/
def loadAnswersE (p : SFProps) (savedAnswers : Option String) (s : SFState) :
    Except JsError SFState :=
  if truthyStr savedAnswers then
    tryCatch ((JSON.parseE (savedAnswers.getD "")).map (fun v => { s with answers := v }))
      { s with store := removeItem s.store (storageKey p) }
  else .ok s

/-- Load of the progress entry (source lines 81-90) with its `try`: `parseInt` and the
comparison do not throw, so the handler is never reached. -/
def loadProgressE (p : SFProps) (savedProgress : Option String) (s : SFState) :
    Except JsError SFState :=
  if truthyStr savedProgress then
    tryCatch
      (.ok (match parseInt (savedProgress.getD "") with
        | some progress =>
          if progress ≥ 0 then { s with currentQuestionIndex := progress.toNat } else s
        | none => s))
      { s with store := removeItem s.store (progressStorageKey p) }
  else .ok s

/-- Load of the visited entry (source lines 92-99) with the exceptions of its calls. -/
def loadVisitedE (p : SFProps) (savedVisited : Option String) (s : SFState) :
    Except JsError SFState :=
  if truthyStr savedVisited then
    tryCatch
      (((JSON.parseE (savedVisited.getD "")).bind newSetE).map
        (fun visited => { s with visitedQuestions := visited }))
      { s with store := removeItem s.store (visitedStorageKey p) }
  else .ok s

/-- The synchronous part of the bootstrap effect with the exceptions of its calls: an
exception that leaves one of the three `if` statements ends the effect. -/
def loadSavedE (p : SFProps) (s : SFState) : Except JsError SFState :=
  let savedAnswers := getItem s.store (storageKey p)
  let savedProgress := getItem s.store (progressStorageKey p)
  let savedVisited := getItem s.store (visitedStorageKey p)
  (loadAnswersE p savedAnswers s).bind (fun s1 =>
    (loadProgressE p savedProgress s1).bind (fun s2 => loadVisitedE p savedVisited s2))

/-- The body `data` of the status response, with the truth values of its two fields. -/
structure StatusData where
  success : Bool
  isFilled : Bool
deriving DecidableEq

/-- How the status request ends: the `fetch` or `resp.json()` throws, the response is not
OK, or it is OK with a body (`none` for a body that is `null`). -/
inductive StatusOutcome
  | threw
  | notOk
  | ok (data : Option StatusData)
deriving DecidableEq

/-- The fallback after the `try` of the status check: the local submitted flag. -/
def localFallback (p : SFProps) (s : SFState) : SFState :=
  if getItem s.store (submissionStorageKey p) = some "true" then { s with hasSubmitted := true }
  else s

/-- The test `data && data.success && data.isFilled`. -/
def reportsFilled : Option StatusData → Bool
  | none => false
  | some d => d.success && d.isFilled

/-- The asynchronous part of the bootstrap effect, run when the status request has ended.
Without a token no request is made and nothing happens. -/
def statusCheck (p : SFProps) (s : SFState) (o : StatusOutcome) : SFState :=
  if !truthyStr p.token then s
  else
    match o with
    | .ok data =>
      if reportsFilled data then
        { s with hasSubmitted := true
                 store := setItem s.store (submissionStorageKey p) "true" }
      else
        localFallback p
          { s with store := removeItem s.store (submissionStorageKey p), hasSubmitted := false }
    | .notOk => localFallback p s
    | .threw => localFallback p s

/-- How the catalog request ends: it fails with an error message (rejected `fetch`, a
response that is not OK, a body that is not JSON), or a body arrives. -/
inductive CatalogOutcome
  | failed (errorMessage : String)
  | data (success : Bool) (questions : List Question) (message : Option String)
deriving DecidableEq

/-- Start of the catalog effect: `if (!formId || !token) return; setLoading(true);
setMsg(null)`. -/
def catalogFetchStart (p : SFProps) (s : SFState) : SFState :=
  if formId p.monthIndex = 0 ∨ !truthyStr p.token then s
  else { s with loading := true, msg := none }

/-- The continuation of the catalog effect. -/
def catalogFetchResolved (s : SFState) (o : CatalogOutcome) : SFState :=
  match o with
  | .data true questions _ =>
    { s with questions := questions
             msg := if questions.length = 0 then some "No questions found for this form" else s.msg
             loading := false }
  | .data false _ message =>
    { s with msg := some (if truthyStr message then message.getD "" else "Failed to load questions")
             loading := false }
  | .failed errorMessage => { s with msg := some ("Network error: " ++ errorMessage), loading := false }

/-- The mount of the component over a store: the first render has the initial state, then
the effects run in source order. The bootstrap effect loads the saved session; the arrival
effect of the first render sees index 0 in the initial visited set and clears the
countdown; the catalog effect starts its request. In the next render the arrival effect
runs again if the restored index is not 0 (its dependency has changed). -/
def mount (p : SFProps) (store : Store) : SFState :=
  let loaded := loadSaved p (SFState.init store)
  let cleared := { loaded with timeRemaining := 0, showTimeError := false, countdownRunning := false }
  let started := catalogFetchStart p cleared
  if started.currentQuestionIndex = 0 then started else arrivalEffect p started

/-- What the load makes of the stored answers text on a fresh component. -/
def decodeAnswers (saved : Option String) : JsVal :=
  if truthyStr saved then (JSON.parse (saved.getD "")).getD (.obj []) else .obj []

/-- What the load makes of the stored progress text on a fresh component. -/
def decodeProgress (saved : Option String) : Nat :=
  if truthyStr saved then
    match parseInt (saved.getD "") with
    | some progress => if progress ≥ 0 then progress.toNat else 0
    | none => 0
  else 0

/-- What the load makes of the stored visited text on a fresh component. -/
def decodeVisited (saved : Option String) : List JsPrim :=
  if truthyStr saved then ((JSON.parse (saved.getD "")).bind newSet).getD [.num 0] else [.num 0]

/-- The steps of a running session that the persisted session follows: the handlers, the
pending timeouts, the arrival effect, the countdown, the end of the catalog and status
requests, and an attempt to submit up to its request. The end of a submission is not one
of them. -/
inductive SessionStep (p : SFProps) : SFState → SFState → Prop
  | change (s : SFState) (qid : Int) (value : JsPrim) : SessionStep p s (handleChange p s qid value)
  | next (s : SFState) : SessionStep p s (goToNextQuestion s)
  | previous (s : SFState) : SessionStep p s (goToPreviousQuestion s)
  | jump (s : SFState) (index : Int) : SessionStep p s (goToQuestion s index)
  | timeout (s : SFState) (i : Nat) : SessionStep p s (fireTimeout p s i)
  | arrival (s : SFState) : SessionStep p s (arrivalEffect p s)
  | tick (s : SFState) : SessionStep p s (tick s)
  | catalog (s : SFState) (o : CatalogOutcome) : SessionStep p s (catalogFetchResolved s o)
  | status (s : SFState) (o : StatusOutcome) : SessionStep p s (statusCheck p s o)
  | submit (s : SFState) : SessionStep p s (handleSubmit p s).1

/-- The states of a session mounted over a store and run by any number of steps. -/
inductive SessionReach (p : SFProps) (store : Store) : SFState → Prop
  | mount : SessionReach p store (mount p store)
  | step (s t : SFState) : SessionReach p store s → SessionStep p s t → SessionReach p store t

/-- The persisted session agrees with the component state: the answers have unique keys,
the visited set has no repetition, and the three entries of the store decode to the
answers, the index and the visited set of the state. -/
def InSync (p : SFProps) (s : SFState) : Prop :=
  UniqueKeys s.answers ∧ s.visitedQuestions.Nodup ∧
  decodeAnswers (getItem s.store (storageKey p)) = s.answers ∧
  decodeProgress (getItem s.store (progressStorageKey p)) = s.currentQuestionIndex ∧
  decodeVisited (getItem s.store (visitedStorageKey p)) = s.visitedQuestions

/-- The index and every pending move lie inside the catalog. -/
def Bounded (s : SFState) : Prop :=
  s.currentQuestionIndex < s.questions.length ∧
  ∀ n, Timeout.setIndex n ∈ s.timeouts → n < s.questions.length

/-- The states reached from a state by steps of the session that keep the loaded
catalog, and by the end of a submission. -/
inductive CatalogReach (p : SFProps) (s0 : SFState) : SFState → Prop
  | start : CatalogReach p s0 s0
  | step (s t : SFState) : CatalogReach p s0 s → SessionStep p s t →
      t.questions = s.questions → CatalogReach p s0 t
  | submitted (s : SFState) (o : SubmitOutcome) : CatalogReach p s0 s →
      CatalogReach p s0 (handleSubmitResolved p s o)

/-- The first half of the arrival effect on a first visit (source lines 108-112): the
index is added to the visited set and the set is written to the store. -/
def markVisited (p : SFProps) (s : SFState) : SFState :=
  let newVisited := setAdd s.visitedQuestions (JsPrim.num (s.currentQuestionIndex : Int))
  { s with visitedQuestions := newVisited
           store := setItem s.store (visitedStorageKey p) (JSON.stringify (.arr newVisited)) }

/-- The second half of the arrival effect on a first visit (source lines 114-126): the
countdown is set to 3 and its interval is started. -/
def startCountdown (s : SFState) : SFState :=
  { s with timeRemaining := 3, showTimeError := false, countdownRunning := true }

/-! ## SentimentForm: render -/

/-- Which branch of the render a state takes. -/
inductive SFView
  /-- The view `Loading...`. -/
  | loading
  /-- The view "Thank you for your time!" of `if (hasSubmitted)`. -/
  | alreadySubmitted
  /-- The render throws a `TypeError`: `answers` is `null` and the answered count reads it. -/
  | typeError
  /-- The completion screen of `isCompleted ? ...`, which reads the undeclared `confetti`. -/
  | completionScreen
  /-- The question form. -/
  | form
deriving DecidableEq

/-- The branch of the render. -/
def view (s : SFState) : SFView :=
  if s.loading then .loading
  else if s.hasSubmitted then .alreadySubmitted
  else if s.answers = .prim .null ∧ s.questions ≠ [] then .typeError
  else if s.isCompleted then .completionScreen
  else .form

/-- The controls of the question form. -/
inductive Control
  /-- The text area or a radio input of the current question (the options of a choice
  question are not modelled: the control counts as offered). -/
  | answer
  /-- The button Previous. -/
  | previous
  /-- The dot of question `i`. -/
  | dot (i : Nat)
  /-- The button Next. -/
  | next
  /-- The button Submit Survey. -/
  | submit
deriving DecidableEq

/-- The `disabled` expression of the Next and Submit buttons. -/
def forwardDisabled (s : SFState) : Bool :=
  unanswered (getProp s.answers (answerKey (s.questions[s.currentQuestionIndex]?)))
    || decide (s.timeRemaining > 0)

/-- Whether the render offers a control and it is not disabled. The controls are rendered
inside `currentQuestion && (...)` of the question form only. -/
def offered (s : SFState) (c : Control) : Bool :=
  match view s, s.questions[s.currentQuestionIndex]? with
  | .form, some _ =>
    (match c with
     | .answer => true
     | .previous => s.currentQuestionIndex != 0
     | .dot i => decide (i < min s.questions.length 10)
     | .submit =>
       decide ((s.currentQuestionIndex : Int) = (s.questions.length : Int) - 1) && !forwardDisabled s
     | .next =>
       !decide ((s.currentQuestionIndex : Int) = (s.questions.length : Int) - 1) && !forwardDisabled s)
  | _, _ => false

/-- A click on the Next button, `<button onClick=goToNextQuestion disabled=...>`: the
handler runs if the button is rendered and not disabled, otherwise nothing happens. -/
def clickNext (s : SFState) : SFState :=
  if offered s .next then goToNextQuestion s else s

/-- A click on the Submit button, `<button onClick=handleSubmit disabled=...>`: the
handler runs if the button is rendered and not disabled, otherwise nothing happens. -/
def clickSubmit (p : SFProps) (s : SFState) : SFState × Option SubmitRequest :=
  if offered s .submit then handleSubmit p s else (s, none)

/-- The count `answeredCount` of the render (source lines 444-448): the questions of the
catalog whose answer passes the counting test. (On `answers = null` the render throws
before the count is used; the count is then 0 here.) -/
def answeredCount (s : SFState) : Nat :=
  (s.questions.filter
    (fun q => answered (getProp s.answers (numToString q.form_question_id)))).length

/-- The text of the message box of the question form: `msg && <div>msg</div>`, and
otherwise the text of `questions.length === 0 && !loading && !msg`. -/
def formNotice (s : SFState) : Option String :=
  if truthyStr s.msg then s.msg
  else if s.questions.length = 0 ∧ s.loading = false then
    some "No questions loaded. Please check your connection or contact support."
  else none

/-- The steps of a session other than the bootstrap effect with its status check: the
handlers, the pending timeouts, the arrival effect, the countdown, the catalog request
from its start to its end, and a submission from its start to its end. -/
inductive ActionStep (p : SFProps) : SFState → SFState → Prop
  | change (s : SFState) (qid : Int) (value : JsPrim) : ActionStep p s (handleChange p s qid value)
  | next (s : SFState) : ActionStep p s (goToNextQuestion s)
  | previous (s : SFState) : ActionStep p s (goToPreviousQuestion s)
  | jump (s : SFState) (index : Int) : ActionStep p s (goToQuestion s index)
  | timeout (s : SFState) (i : Nat) : ActionStep p s (fireTimeout p s i)
  | arrival (s : SFState) : ActionStep p s (arrivalEffect p s)
  | tick (s : SFState) : ActionStep p s (tick s)
  | catalogStart (s : SFState) : ActionStep p s (catalogFetchStart p s)
  | catalog (s : SFState) (o : CatalogOutcome) : ActionStep p s (catalogFetchResolved s o)
  | submit (s : SFState) : ActionStep p s (handleSubmit p s).1
  | submitted (s : SFState) (o : SubmitOutcome) : ActionStep p s (handleSubmitResolved p s o)

/-- The states reached from a state by any number of such steps. -/
inductive ActionReach (p : SFProps) (s0 : SFState) : SFState → Prop
  | start : ActionReach p s0 s0
  | step (s t : SFState) : ActionReach p s0 s → ActionStep p s t → ActionReach p s0 t

end SurveyEngine

namespace SurveyEngine

/-! ## HRFeedback -/

namespace HR

/-- A question of the HR feedback catalog, with the fields the engine reads. -/
structure Question where
  question_id : Int
  /-- One of `'text'`, `'amount'`, `'rating'`, `'choice'`. -/
  question_type : String
deriving DecidableEq

/-- The state of a mounted `HRFeedback`. The values of `responses` are the strings of
the input events. -/
structure State where
  questions : List Question
  currentIndex : Nat
  responses : List (String × String)
  loading : Bool
  error : String
  hasSubmitted : Bool
  /-- The cell `submitResult`: `success` and `message`. -/
  submitResult : Option (Bool × String)
deriving DecidableEq

/-- The initial `useState` values. -/
def State.init : State where
  questions := []
  currentIndex := 0
  responses := []
  loading := true
  error := ""
  hasSubmitted := false
  submitResult := none

/-- One entry of `payload.responses`; `none` is `null`. -/
structure ResponseEntry where
  question_id : Int
  option_id : Option String
  response_text : Option String
deriving DecidableEq

/-- A request sent by the component. -/
inductive Request
  /-- Request `GET /hr/feedback/responses`, the status check. -/
  | status
  /-- Request `GET /hr/feedback/questions`, the catalog. -/
  | questions
  /-- Request `POST /hr/feedback/responses` with its payload. -/
  | submit (responses : List ResponseEntry)
deriving DecidableEq

/-- How the status request ends: something throws (the `fetch`, `json()`, or reading a
field of a `null` body), the response is not OK, or it is OK and `statusData.hasSubmitted`
has the given truth value. -/
inductive StatusOutcome
  | threw
  | notOk
  | ok (hasSubmitted : Bool)
deriving DecidableEq

/-- How the catalog request ends; `questions = none` is a body without `questions`. -/
inductive CatalogOutcome
  | threw (errorMessage : String)
  | notOk (status : Nat)
  | ok (questions : Option (List Question))
deriving DecidableEq

/-- The flag `already` of `init`. -/
def already : StatusOutcome → Bool
  | .ok b => b
  | .notOk => false
  | .threw => false

/-- The function `init` of the mount effect, run to its end: the state it leaves and the
requests it has sent, in order. The catalog outcome is consumed only if the catalog is
requested. -/
def init (s : State) (so : StatusOutcome) (co : CatalogOutcome) : State × List Request :=
  let s1 := { s with loading := true }
  if already so then
    ({ s1 with hasSubmitted := true, loading := false }, [.status])
  else
    match co with
    | .ok qs => ({ s1 with questions := qs.getD [], loading := false }, [.status, .questions])
    | .notOk status =>
      ({ s1 with error := "Failed to load feedback form (status " ++ natToString status ++ ")"
                 loading := false }, [.status, .questions])
    | .threw m =>
      ({ s1 with error := "Failed to load feedback form: " ++ m, loading := false },
        [.status, .questions])

/-- Handler `handleChange(questionId, value)`. -/
def handleChange (s : State) (questionId : Int) (value : String) : State :=
  { s with responses := setProp s.responses (numToString questionId) value }

/-- The payload entry of one question. -/
def responseEntry (responses : List (String × String)) (q : Question) : ResponseEntry :=
  let respVal := responses.lookup (numToString q.question_id)
  if q.question_type = "text" ∨ q.question_type = "amount" then
    { question_id := q.question_id, option_id := none
      response_text := some (if truthyStr respVal then respVal.getD "" else "") }
  else
    { question_id := q.question_id
      option_id := if truthyStr respVal then respVal else none
      response_text := none }

/-- The synchronous part of `handleSubmit`: it changes no state and posts the payload. -/
def handleSubmit (s : State) : State × Option Request :=
  (s, some (.submit (s.questions.map (responseEntry s.responses))))

/-- The continuation of `handleSubmit`: the POST threw, or a body arrived with `resp.ok`
and `data.message`. -/
def handleSubmitResolved (s : State) (o : Option (Bool × Option String)) : State :=
  match o with
  | none => { s with submitResult := some (false, "Submission error") }
  | some (true, m) => { s with submitResult := some (true, if truthyStr m then m.getD "" else "Submitted") }
  | some (false, m) =>
    { s with submitResult := some (false, if truthyStr m then m.getD "" else "Submission failed") }

/-- Which branch of the render a state takes. -/
inductive View
  | loading
  | error
  | alreadySubmitted
  | form
deriving DecidableEq

/-- The branch of the render. -/
def view (s : State) : View :=
  if s.loading then .loading
  else if s.error != "" then .error
  else if s.hasSubmitted then .alreadySubmitted
  else .form

/-- The constant `allAnswered` of the render. -/
def allAnswered (s : State) : Bool :=
  decide (s.questions.length > 0) && s.questions.all (fun q =>
    let val := s.responses.lookup (numToString q.question_id)
    if q.question_type = "text" ∨ q.question_type = "amount" then
      truthyStr val && jsTrim (val.getD "") != ""
    else
      val.isSome && val != some "")

/-- Whether the render offers the submit button (`currentIndex === total - 1`) and it is
not disabled (`!allAnswered`). -/
def submitOffered (s : State) : Bool :=
  decide (view s = .form) && decide ((s.currentIndex : Int) = (s.questions.length : Int) - 1)
    && allAnswered s

/-- The Next button, `setCurrentIndex(i => i + 1)`. -/
def next (s : State) : State := { s with currentIndex := s.currentIndex + 1 }

/-- Whether the render offers the Previous button (`currentIndex > 0`). -/
def previousOffered (s : State) : Bool :=
  decide (view s = .form) && decide (s.currentIndex > 0)

/-- Whether the render offers the Next button (`currentIndex < total - 1`); the button has
no `disabled` attribute. -/
def nextOffered (s : State) : Bool :=
  decide (view s = .form) && decide ((s.currentIndex : Int) < (s.questions.length : Int) - 1)

/-- Whether the render offers an input for the current question: `current` is
`questions[currentIndex]` or an empty object, and an input is rendered for the four known
types. -/
def inputOffered (s : State) : Bool :=
  decide (view s = .form) &&
    (match s.questions[s.currentIndex]? with
     | some q => decide (q.question_type = "text" ∨ q.question_type = "amount" ∨
         q.question_type = "rating" ∨ q.question_type = "choice")
     | none => false)

/-- The messages the render displays, apart from the heading, the line
`Question i of total` and the text of the current question. -/
def notices (s : State) : List String :=
  match view s with
  | .loading => ["Loading..."]
  | .error => [s.error]
  | .alreadySubmitted => ["You have already submitted feedback. Thank you!"]
  | .form =>
    (match s.submitResult with
     | some r => [r.2]
     | none => []) ++
    (if allAnswered s = false ∧ (s.currentIndex : Int) = (s.questions.length : Int) - 1
     then ["Please answer all questions before submitting."] else [])

/-- The reading of "satisfying response" in the specification: for a text or amount
question a string value that is not blank, for a rating or choice question a value that is
present and not empty. -/
def specSatisfying (responses : List (String × String)) (q : Question) : Bool :=
  match responses.lookup (numToString q.question_id) with
  | none => false
  | some v =>
    if q.question_type = "text" ∨ q.question_type = "amount" then jsTrim v != "" else v != ""

end HR

end SurveyEngine

namespace SurveyEngine

/-! ## Concrete sessions -/

/-- Props of a signed-in employee in January. -/
def demoProps : SFProps := { token := some "t", employeeId := some "e1", monthIndex := 0 }

/-- A catalog of one text question, answered, with the respondent on it after the
countdown. -/
def oneQuestionState : SFState :=
  { SFState.init [] with
    questions := [{ form_question_id := 1, question_type := "text" }]
    answers := .obj [("1", .str "fine")]
    timeRemaining := 0 }

/-- A catalog of 25 choice questions with ids 1..25, all answered, the respondent on the
last one after the countdown. -/
def full25State : SFState :=
  { SFState.init [] with
    questions := (List.range 25).map
      (fun i => { form_question_id := (i : Int) + 1, question_type := "choice" })
    answers := .obj ((List.range 25).map (fun i => (natToString (i + 1), JsPrim.str "3")))
    currentQuestionIndex := 24
    visitedQuestions := (List.range 25).map (fun i => JsPrim.num (i : Int))
    timeRemaining := 0 }

/-- The same session at the moment the respondent arrives at the last question for the
first time, before the arrival effect has run. -/
def lastArrivalState : SFState :=
  { full25State with visitedQuestions := (List.range 24).map (fun i => JsPrim.num (i : Int)) }

/-- A catalog of three text questions; the respondent arrives at the second one for the
first time and its answer is already present. -/
def arrivingState : SFState :=
  { SFState.init [] with
    questions := [{ form_question_id := 1, question_type := "text" },
                  { form_question_id := 2, question_type := "text" },
                  { form_question_id := 3, question_type := "text" }]
    answers := .obj [("1", .str "a"), ("2", .str "b")]
    currentQuestionIndex := 1
    timeRemaining := 0 }

/-- An HR feedback form of one text question, answered. -/
def hrAnsweredState : HR.State :=
  { HR.State.init with
    questions := [{ question_id := 1, question_type := "text" }]
    responses := [("1", "ok")]
    loading := false }

/-- A store holding the saved answers of `demoProps`: question 1 answered. -/
def savedStore : Store :=
  [(storageKey demoProps, JSON.stringify (.obj [("1", .str "fine")]))]

/-- A sealed session: the one-question catalog after a successful submission. -/
def sealedState : SFState := { oneQuestionState with hasSubmitted := true }

/-- A sealed session on the second of three questions. -/
def sealedMiddleState : SFState := { arrivingState with hasSubmitted := true }

/-- A catalog of three text questions with ids 1, 2, 3. -/
def threeQuestions : List Question :=
  [{ form_question_id := 1, question_type := "text" },
   { form_question_id := 2, question_type := "text" },
   { form_question_id := 3, question_type := "text" }]

/-- A fresh session (empty store) whose catalog has arrived and whose first question, and
only that one, has been answered. -/
def firstAnsweredState : SFState :=
  handleChange demoProps
    (catalogFetchResolved (mount demoProps []) (.data true threeQuestions none)) 1 (.str "a")

/-- The same session after Next has been pressed, its timeout has fired and the arrival
effect of the second question has run. -/
def secondArrivedState : SFState :=
  arrivalEffect demoProps (fireTimeout demoProps (goToNextQuestion firstAnsweredState) 0)

/-- The session of `arrivingState` after the arrival effect and the three ticks of its
countdown: the respondent is on the second of three questions and may move on. -/
def arrivingStateReady : SFState := tick (tick (tick (arrivalEffect demoProps arrivingState)))

/-- A catalog of three text questions; the respondent arrives at the second one for the
first time and has not answered it. -/
def unansweredMiddleState : SFState :=
  { SFState.init [] with
    questions := threeQuestions
    answers := .obj [("1", .str "a")]
    currentQuestionIndex := 1
    timeRemaining := 0 }

/-- The session of `unansweredMiddleState` after the arrival effect and the three ticks of
its countdown: the respondent is on the second question, which has no answer. -/
def unansweredReadyState : SFState :=
  tick (tick (tick (arrivalEffect demoProps unansweredMiddleState)))

/-- A store whose progress entry holds the index 7. -/
def progressSevenStore : Store := [(progressStorageKey demoProps, "7")]

/-- The session mounted over `progressSevenStore` once the catalog of three questions has
arrived. -/
def restoredSevenState : SFState :=
  catalogFetchResolved (mount demoProps progressSevenStore) (.data true threeQuestions none)

/-- A store whose answers entry is the JSON text of a number and whose visited entry is
the JSON text of `null`: both are accepted by `JSON.parse`, neither is an answers map or a
list of indices. -/
def looseStore : Store :=
  [(storageKey demoProps, "5"), (visitedStorageKey demoProps, "null")]

/-- A store whose answers entry is not JSON, whose progress entry is not a number and whose
visited entry is the JSON text of a number, which `new Set` rejects. -/
def corruptStore : Store :=
  [(storageKey demoProps, "oops"), (progressStorageKey demoProps, "abc"),
   (visitedStorageKey demoProps, "7")]

/-- The props of a respondent without an `employeeId`. -/
def anonymousProps : SFProps := { token := some "t", employeeId := none, monthIndex := 0 }

/-- The props of a respondent whose `employeeId` is the text `default`. -/
def defaultNamedProps : SFProps :=
  { token := some "t", employeeId := some "default", monthIndex := 0 }

/-- The props of a second respondent. -/
def otherProps : SFProps := { token := some "t", employeeId := some "e2", monthIndex := 0 }

/-- The props of the respondent of `demoProps` in February (form id 2). -/
def februaryProps : SFProps := { demoProps with monthIndex := 1 }

/-- The props of the respondent of `demoProps` in May (form id 1 again). -/
def mayProps : SFProps := { demoProps with monthIndex := 4 }

/-- A session with one answer, on the first of three questions. -/
def answeringState : SFState :=
  { SFState.init [] with
    questions := threeQuestions
    answers := .obj [("1", .str "a"), ("2", .str "b")]
    timeRemaining := 0 }

/-- A catalog of three text questions; the respondent is on the first one, has typed a
single space as its answer, and no countdown is running. -/
def blankAnswerState : SFState :=
  { SFState.init [] with
    questions := threeQuestions
    answers := .obj [("1", .str " ")]
    timeRemaining := 0 }

/-- A fresh session (empty store) whose catalog request has succeeded with no question. -/
def emptyCatalogState : SFState :=
  catalogFetchResolved (mount demoProps []) (.data true [] none)

/-- A catalog of 26 questions with ids 1..26, a text question followed by 25 choice
questions. The answer of the first question has been typed and erased; the other 25 are
answered; the respondent is on the last question, after its countdown. -/
def blankFirstState : SFState :=
  { SFState.init [] with
    questions := { form_question_id := 1, question_type := "text" } ::
      (List.range 25).map (fun i => { form_question_id := (i : Int) + 2, question_type := "choice" })
    answers := .obj (("1", JsPrim.str "") ::
      (List.range 25).map (fun i => (natToString (i + 2), JsPrim.str "3")))
    currentQuestionIndex := 25
    visitedQuestions := (List.range 26).map (fun i => JsPrim.num (i : Int))
    timeRemaining := 0 }

/-- An HR catalog of a text, a rating and an amount question. -/
def hrThreeQuestions : List HR.Question :=
  [{ question_id := 1, question_type := "text" },
   { question_id := 2, question_type := "rating" },
   { question_id := 3, question_type := "amount" }]

/-- An HR feedback form over `hrThreeQuestions`, all answered, on the last question. -/
def hrFullState : HR.State :=
  { HR.State.init with
    questions := hrThreeQuestions
    currentIndex := 2
    responses := [("1", "good"), ("2", "4"), ("3", "55")]
    loading := false }

/-- An HR feedback form over `hrThreeQuestions` on its first question, nothing answered. -/
def hrUnansweredState : HR.State :=
  { HR.State.init with questions := hrThreeQuestions, loading := false }

/-- An HR feedback form over `hrThreeQuestions`, only the first question answered, on
the last question. -/
def hrPartialState : HR.State :=
  { HR.State.init with
    questions := hrThreeQuestions
    currentIndex := 2
    responses := [("1", "good")]
    loading := false }

/-- An HR feedback form whose catalog request has succeeded with no question. -/
def hrEmptyCatalogState : HR.State :=
  (HR.init HR.State.init (.ok false) (.ok (some []))).1

/-- A store whose answers entry is the JSON text `null`. -/
def nullAnswersStore : Store := [(storageKey demoProps, "null")]

/-- A store whose progress entry holds the index 0 and whose visited entry holds the set
of the index 1 only. -/
def restoredZeroStore : Store :=
  [(progressStorageKey demoProps, "0"), (visitedStorageKey demoProps, "[1]")]

/-- A catalog of three text questions, the first two answered; the respondent arrives at
the last one for the first time. -/
def lastOfThreeArrival : SFState :=
  { SFState.init [] with
    questions := threeQuestions
    answers := .obj [("1", .str "a"), ("2", .str "b")]
    currentQuestionIndex := 2
    visitedQuestions := [.num 0, .num 1]
    timeRemaining := 0 }

/-- The same session after the arrival effect has run and the respondent has answered
the last question: all three questions are answered and the countdown stands at 3. -/
def lastOfThreeAnswered : SFState :=
  handleChange demoProps (arrivalEffect demoProps lastOfThreeArrival) 3 (.str "c")

end SurveyEngine

namespace SurveyEngine

/-! ## Decimal text of numbers -/

theorem digitChar_toNat (d : Nat) (h : d < 10) : (digitChar d).toNat = 48 + d := by
  interval_cases d <;> rfl

theorem digitChar_isDigit (d : Nat) (h : d < 10) : (digitChar d).isDigit = true := by
  interval_cases d <;> rfl

theorem digitChar_not_ws (d : Nat) (h : d < 10) : isJsWhiteSpace (digitChar d) = false := by
  interval_cases d <;> rfl

theorem digitsValue_append (xs : List Char) (c : Char) :
    digitsValue (xs ++ [c]) = 10 * digitsValue xs + (c.toNat - 48) := by
  simp [digitsValue, List.foldl_append]

theorem decDigits_all_digits : ∀ (f n : Nat), ∀ c ∈ decDigits f n, c.isDigit = true := by
  intro f
  induction f with
  | zero => intro n c hc; simp [decDigits] at hc
  | succ f ih =>
    intro n c hc
    unfold decDigits at hc
    split at hc
    · simp at hc; subst hc; exact digitChar_isDigit n (by assumption)
    · simp at hc
      rcases hc with hc | hc
      · exact ih _ c hc
      · subst hc; exact digitChar_isDigit _ (Nat.mod_lt _ (by decide))

theorem decDigits_ne_nil : ∀ (f n : Nat), decDigits (f + 1) n ≠ [] := by
  intro f n
  unfold decDigits
  split <;> simp

theorem digitsValue_decDigits : ∀ (f n : Nat), n < f → digitsValue (decDigits f n) = n := by
  intro f
  induction f with
  | zero => intro n h; omega
  | succ f ih =>
    intro n h
    unfold decDigits
    split
    · rename_i hlt
      simp [digitsValue, digitChar_toNat n hlt]
    · rename_i hge
      rw [digitsValue_append, ih (n / 10) (by omega), digitChar_toNat _ (Nat.mod_lt _ (by decide))]
      omega

theorem takeWhile_append_of_all {α : Type} (q : α → Bool) (xs ys : List α)
    (hx : ∀ x ∈ xs, q x = true) (hy : ys.head?.map q ≠ some true) :
    (xs ++ ys).takeWhile q = xs := by
  induction xs with
  | nil =>
    cases ys with
    | nil => rfl
    | cons y ys =>
      simp at hy
      simp [List.takeWhile, hy]
  | cons x xs ih =>
    have hx1 : q x = true := hx x (by simp)
    simp [List.takeWhile, hx1]
    exact ih (fun y hy => hx y (by simp [hy]))

theorem dropWhile_append_of_all {α : Type} (q : α → Bool) (xs ys : List α)
    (hx : ∀ x ∈ xs, q x = true) (hy : ys.head?.map q ≠ some true) :
    (xs ++ ys).dropWhile q = ys := by
  induction xs with
  | nil =>
    cases ys with
    | nil => rfl
    | cons y ys =>
      simp at hy
      simp [List.dropWhile, hy]
  | cons x xs ih =>
    have hx1 : q x = true := hx x (by simp)
    simp [List.dropWhile, hx1]
    exact ih (fun y hy => hx y (by simp [hy]))

theorem leadingDigits_natToString (n : Nat) (rest : List Char)
    (hrest : rest.head?.map Char.isDigit ≠ some true) :
    leadingDigits ((natToString n).data ++ rest) = some n := by
  unfold leadingDigits natToString
  simp only
  rw [takeWhile_append_of_all _ _ _ (decDigits_all_digits _ _) hrest]
  have hne := decDigits_ne_nil n n
  cases h : decDigits (n + 1) n with
  | nil => exact absurd h hne
  | cons c cs =>
    have hv := digitsValue_decDigits (n + 1) n (Nat.lt_succ_self n)
    rw [h] at hv
    simp [hv]

theorem decDigits_head_not_ws (f n : Nat) :
    ∀ c ∈ (decDigits f n).head?, isJsWhiteSpace c = false := by
  intro c hc
  have hmem : c ∈ decDigits f n := List.mem_of_mem_head? hc
  have hd := decDigits_all_digits f n c hmem
  simp [Char.isDigit] at hd
  simp [isJsWhiteSpace, Char.toNat]
  have h1 := hd.1
  have h2 := hd.2
  have : 48 ≤ c.val.toNat := by exact_mod_cast h1
  have : c.val.toNat ≤ 57 := by exact_mod_cast h2
  omega

theorem leadingDigits_decDigits (n : Nat) : leadingDigits (decDigits (n + 1) n) = some n := by
  have h := leadingDigits_natToString n [] (by simp)
  simpa [natToString] using h

theorem parseInt_natToString (n : Nat) : parseInt (natToString n) = some (n : Int) := by
  unfold parseInt natToString
  simp only
  have hne := decDigits_ne_nil n n
  cases h : decDigits (n + 1) n with
  | nil => exact absurd h hne
  | cons c cs =>
    have hws : isJsWhiteSpace c = false :=
      decDigits_head_not_ws (n + 1) n c (by simp [h])
    have hd : c.isDigit = true := decDigits_all_digits (n + 1) n c (by simp [h])
    have hc : 48 ≤ c.toNat := by
      simp [Char.isDigit] at hd
      have h1 := hd.1
      simp [Char.toNat]
      exact_mod_cast h1
    have h45 : ¬ c.toNat = 45 := by omega
    have h43 : ¬ c.toNat = 43 := by omega
    simp only [List.dropWhile, hws, h45, h43, if_false]
    rw [← h, leadingDigits_decDigits]
    rfl

theorem parseInt_numToString (n : Int) : parseInt (numToString n) = some n := by
  cases n with
  | ofNat m => exact parseInt_natToString m
  | negSucc m =>
    unfold parseInt numToString
    have hws : isJsWhiteSpace (Char.ofNat 45) = false := by decide
    have h45 : (Char.ofNat 45).toNat = 45 := by decide
    simp only [List.dropWhile, hws, h45, if_true]
    have := leadingDigits_decDigits (m + 1)
    simp only [natToString]
    rw [this]
    simp [Int.negSucc_eq]

theorem numToString_injective : Function.Injective numToString := by
  intro a b h
  have ha := parseInt_numToString a
  rw [h, parseInt_numToString b] at ha
  exact (Option.some.inj ha).symm

theorem natToString_injective : Function.Injective natToString := by
  intro a b h
  have ha := parseInt_natToString a
  rw [h, parseInt_natToString b] at ha
  exact_mod_cast (Option.some.inj ha).symm

end SurveyEngine

namespace SurveyEngine

/-! ## The store and its keys -/

theorem getItem_removeItem (st : Store) (k k' : String) :
    getItem (removeItem st k) k' = if k' = k then none else getItem st k' := by
  induction st with
  | nil => simp [getItem, removeItem]
  | cons e rest ih =>
    obtain ⟨a, b⟩ := e
    simp only [getItem, removeItem] at ih ⊢
    by_cases ha : a = k
    · subst ha
      by_cases hk : k' = a
      · subst hk
        simpa [List.filter_cons] using ih
      · have hb : (k' == a) = false := by simpa using hk
        simp only [List.filter_cons, bne_self_eq_false, Bool.false_eq_true, if_false,
          List.lookup_cons, hb]
        exact ih
    · have hne : (a != k) = true := by simpa using ha
      simp only [List.filter_cons, hne, if_true, List.lookup_cons]
      by_cases hk : k' = a
      · subst hk
        simp [ha]
      · have hb : (k' == a) = false := by simpa using hk
        simp only [hb]
        exact ih

theorem getItem_setItem (st : Store) (k v k' : String) :
    getItem (setItem st k v) k' = if k' = k then some v else getItem st k' := by
  by_cases hk : k' = k
  · subst hk
    simp [getItem, setItem]
  · have hb : (k' == k) = false := by simpa using hk
    have := getItem_removeItem st k k'
    simp only [getItem] at this
    simp [getItem, setItem, List.lookup_cons, hb, this, hk]

theorem append_ne_of_take_ne (n : Nat) (a b x y : List Char)
    (ha : n ≤ a.length) (hb : n ≤ b.length) (h : a.take n ≠ b.take n) : a ++ x ≠ b ++ y := by
  intro he
  apply h
  have h1 := congrArg (List.take n) he
  rwa [List.take_append_of_le_length ha, List.take_append_of_le_length hb] at h1

theorem string_append_ne (n : Nat) (a b x y : String)
    (ha : n ≤ a.data.length) (hb : n ≤ b.data.length) (h : a.data.take n ≠ b.data.take n) :
    a ++ x ≠ b ++ y := by
  intro he
  have hd := congrArg String.data he
  simp only [String.data_append] at hd
  exact append_ne_of_take_ne n _ _ _ _ ha hb h hd

/-- The four keys of one respondent are pairwise different. -/
theorem keys_distinct (p : SFProps) :
    storageKey p ≠ progressStorageKey p ∧ storageKey p ≠ visitedStorageKey p ∧
    progressStorageKey p ≠ visitedStorageKey p ∧
    submissionStorageKey p ≠ storageKey p ∧ submissionStorageKey p ≠ progressStorageKey p ∧
    submissionStorageKey p ≠ visitedStorageKey p := by
  refine ⟨?_, ?_, ?_, ?_, ?_, ?_⟩
  · exact string_append_ne 16 _ _ _ _ (by decide) (by decide) (by decide)
  · exact string_append_ne 16 _ _ _ _ (by decide) (by decide) (by decide)
  · exact string_append_ne 16 _ _ _ _ (by decide) (by decide) (by decide)
  · unfold submissionStorageKey storageKey
    rw [String.append_assoc, String.append_assoc]
    exact string_append_ne 16 _ _ _ _ (by decide) (by decide) (by decide)
  · unfold submissionStorageKey progressStorageKey
    rw [String.append_assoc, String.append_assoc]
    exact string_append_ne 16 _ _ _ _ (by decide) (by decide) (by decide)
  · unfold submissionStorageKey visitedStorageKey
    rw [String.append_assoc, String.append_assoc]
    exact string_append_ne 16 _ _ _ _ (by decide) (by decide) (by decide)

end SurveyEngine

namespace SurveyEngine

/-! ## JSON: reading back what was written -/

theorem char_eq_of_toNat (c : Char) (n : Nat) (h : c.toNat = n) : Char.ofNat n = c := by
  subst h
  exact Char.ofNat_toNat c

theorem parseStrBody_cons_plain (f : Nat) (c : Char) (tail : List Char)
    (h1 : c.toNat ≠ 34) (h2 : c.toNat ≠ 92) (h3 : ¬ c.toNat < 32) :
    parseStrBody (f + 1) (c :: tail) =
      (parseStrBody f tail).map (fun sr => (c :: sr.1, sr.2)) := by
  simp [parseStrBody, h1, h2, h3]

theorem parseStrBody_short (f : Nat) (e ch : Char) (tail : List Char)
    (h1 : e.toNat ≠ 117) (h2 : unescape e = some ch) :
    parseStrBody (f + 1) (Char.ofNat 92 :: e :: tail) =
      (parseStrBody f tail).map (fun sr => (ch :: sr.1, sr.2)) := by
  have a1 : (Char.ofNat 92).toNat ≠ 34 := by decide
  have a2 : (Char.ofNat 92).toNat = 92 := by decide
  simp [parseStrBody, readEscape, a1, a2, h1, h2]

theorem parseStrBody_unicode (f : Nat) (a b c d ch : Char) (tail : List Char)
    (h : unicodeEscape a b c d = some ch) :
    parseStrBody (f + 1) (Char.ofNat 92 :: 'u' :: a :: b :: c :: d :: tail) =
      (parseStrBody f tail).map (fun sr => (ch :: sr.1, sr.2)) := by
  have a1 : (Char.ofNat 92).toNat ≠ 34 := by decide
  have a2 : (Char.ofNat 92).toNat = 92 := by decide
  have a3 : ('u' : Char).toNat = 117 := by decide
  simp [parseStrBody, readEscape, a1, a2, a3, h]

theorem unicodeEscape_control (n : Nat) (h : n < 32) :
    unicodeEscape '0' '0' (hexDigit (n / 16)) (hexDigit (n % 16)) = some (Char.ofNat n) := by
  interval_cases n <;> decide

theorem parseStrBody_escapeChar (f : Nat) (c : Char) (tail : List Char) :
    parseStrBody (f + 1) (escapeChar c ++ tail) =
      (parseStrBody f tail).map (fun sr => (c :: sr.1, sr.2)) := by
  unfold escapeChar
  simp only
  by_cases h34 : c.toNat = 34
  · rw [if_pos h34, ← char_eq_of_toNat c 34 h34]
    exact parseStrBody_short f _ _ tail (by decide) (by decide)
  rw [if_neg h34]
  by_cases h92 : c.toNat = 92
  · rw [if_pos h92, ← char_eq_of_toNat c 92 h92]
    exact parseStrBody_short f _ _ tail (by decide) (by decide)
  rw [if_neg h92]
  by_cases h8 : c.toNat = 8
  · rw [if_pos h8, ← char_eq_of_toNat c 8 h8]
    exact parseStrBody_short f _ _ tail (by decide) (by decide)
  rw [if_neg h8]
  by_cases h12 : c.toNat = 12
  · rw [if_pos h12, ← char_eq_of_toNat c 12 h12]
    exact parseStrBody_short f _ _ tail (by decide) (by decide)
  rw [if_neg h12]
  by_cases h10 : c.toNat = 10
  · rw [if_pos h10, ← char_eq_of_toNat c 10 h10]
    exact parseStrBody_short f _ _ tail (by decide) (by decide)
  rw [if_neg h10]
  by_cases h13 : c.toNat = 13
  · rw [if_pos h13, ← char_eq_of_toNat c 13 h13]
    exact parseStrBody_short f _ _ tail (by decide) (by decide)
  rw [if_neg h13]
  by_cases h9 : c.toNat = 9
  · rw [if_pos h9, ← char_eq_of_toNat c 9 h9]
    exact parseStrBody_short f _ _ tail (by decide) (by decide)
  rw [if_neg h9]
  by_cases h32 : c.toNat < 32
  · rw [if_pos h32]
    have hu := unicodeEscape_control c.toNat h32
    rw [Char.ofNat_toNat] at hu
    exact parseStrBody_unicode f _ _ _ _ c tail hu
  · rw [if_neg h32]
    exact parseStrBody_cons_plain f c tail h34 h92 h32

theorem parseStrBody_quoted (cs rest : List Char) :
    ∀ f, cs.length < f →
      parseStrBody f ((cs.map escapeChar).flatten ++ Char.ofNat 34 :: rest) = some (cs, rest) := by
  induction cs with
  | nil =>
    intro f hf
    obtain ⟨g, rfl⟩ : ∃ g, f = g + 1 := ⟨f - 1, by simp at hf; omega⟩
    have : (Char.ofNat 34).toNat = 34 := by decide
    simp [parseStrBody, this]
  | cons c cs ih =>
    intro f hf
    obtain ⟨g, rfl⟩ : ∃ g, f = g + 1 := ⟨f - 1, by simp at hf; omega⟩
    simp only [List.map_cons, List.flatten_cons, List.append_assoc]
    rw [parseStrBody_escapeChar, ih g (by simp at hf; omega)]
    rfl

theorem escapeChar_length_pos (c : Char) : 0 < (escapeChar c).length := by
  unfold escapeChar
  simp only
  repeat' split
  all_goals simp

theorem length_le_escaped (cs : List Char) : cs.length ≤ ((cs.map escapeChar).flatten).length := by
  induction cs with
  | nil => simp
  | cons c cs ih =>
    simp only [List.map_cons, List.flatten_cons, List.length_append, List.length_cons]
    have := escapeChar_length_pos c
    omega

theorem decDigits_head_ne_zero : ∀ (f n : Nat), n < f → 0 < n →
    (decDigits f n).head?.map Char.toNat ≠ some 48 := by
  intro f
  induction f with
  | zero => intro n h; omega
  | succ f ih =>
    intro n h hpos
    unfold decDigits
    split
    · rename_i hlt
      simp [digitChar_toNat n hlt]
      omega
    · rename_i hge
      have hne := ih (n / 10) (by omega) (by omega)
      cases hd : decDigits f (n / 10) with
      | nil =>
        have : n / 10 < f := by omega
        obtain ⟨g, rfl⟩ : ∃ g, f = g + 1 := ⟨f - 1, by omega⟩
        exact absurd hd (decDigits_ne_nil g (n / 10))
      | cons c cs =>
        rw [hd] at hne
        simpa using hne

theorem decDigits_length_one (f n : Nat) (h : n < 10) : (decDigits (f + 1) n).length = 1 := by
  simp [decDigits, h]

theorem natToString_no_leading_zero (n : Nat) :
    (decide (1 < (decDigits (n + 1) n).length) &&
      ((decDigits (n + 1) n).head?.map Char.toNat == some 48)) = false := by
  by_cases h : n < 10
  · simp [decDigits_length_one n n h]
  · have := decDigits_head_ne_zero (n + 1) n (by omega) (by omega)
    simp [this]

theorem parseNumber_digits (n : Nat) (rest : List Char) (h : NumEnd rest) :
    parseNumber (decDigits (n + 1) n ++ rest) = some (.num (n : Int), rest) := by
  obtain ⟨h1, h2, h3, h4⟩ := h
  have hne := decDigits_ne_nil n n
  have hall := decDigits_all_digits (n + 1) n
  have hneg : ((decDigits (n + 1) n ++ rest).head?.map Char.toNat == some 45) = false := by
    cases hd : decDigits (n + 1) n with
    | nil => exact absurd hd hne
    | cons c cs =>
      have hc := hall c (by simp [hd])
      simp only [List.cons_append]
      simp [Char.isDigit] at hc
      have := hc.1
      have h48 : 48 ≤ c.toNat := by simp [Char.toNat]; exact_mod_cast this
      simp
      omega
  unfold parseNumber
  simp only [hneg]
  simp only [Bool.false_eq_true, if_false]
  rw [takeWhile_append_of_all _ _ _ hall h1, dropWhile_append_of_all _ _ _ hall h1]
  have hemp : (decDigits (n + 1) n).isEmpty = false := by
    cases hd : decDigits (n + 1) n with
    | nil => exact absurd hd hne
    | cons c cs => rfl
  simp only [hemp, natToString_no_leading_zero n, Bool.false_eq_true, if_false]
  have e1 : (rest.head?.map Char.toNat == some 46) = false := by simpa using h2
  have e2 : (rest.head?.map Char.toNat == some 101) = false := by simpa using h3
  have e3 : (rest.head?.map Char.toNat == some 69) = false := by simpa using h4
  simp only [e1, e2, e3, Bool.or_self, Bool.false_eq_true, if_false]
  rw [digitsValue_decDigits _ _ (Nat.lt_succ_self n)]

theorem parseNumber_numToString (n : Int) (rest : List Char) (h : NumEnd rest) :
    parseNumber ((numToString n).data ++ rest) = some (.num n, rest) := by
  cases n with
  | ofNat m => exact parseNumber_digits m rest h
  | negSucc m =>
    obtain ⟨h1, h2, h3, h4⟩ := h
    have hall := decDigits_all_digits (m + 1 + 1) (m + 1)
    have hne := decDigits_ne_nil (m + 1) (m + 1)
    have a45 : (some (Char.ofNat 45).toNat == some 45) = true := by decide
    unfold parseNumber numToString natToString
    simp only [List.cons_append, List.head?_cons, Option.map_some', a45, if_true,
      List.drop_succ_cons, List.drop_zero]
    rw [takeWhile_append_of_all _ _ _ hall h1, dropWhile_append_of_all _ _ _ hall h1]
    have hemp : (decDigits (m + 1 + 1) (m + 1)).isEmpty = false := by
      cases hd : decDigits (m + 1 + 1) (m + 1) with
      | nil => exact absurd hd hne
      | cons c cs => rfl
    simp only [hemp, natToString_no_leading_zero (m + 1), Bool.false_eq_true, if_false]
    have e1 : (rest.head?.map Char.toNat == some 46) = false := by simpa using h2
    have e2 : (rest.head?.map Char.toNat == some 101) = false := by simpa using h3
    have e3 : (rest.head?.map Char.toNat == some 69) = false := by simpa using h4
    simp only [e1, e2, e3, Bool.or_self, Bool.false_eq_true, if_false]
    rw [digitsValue_decDigits _ _ (Nat.lt_succ_self (m + 1))]
    simp [Int.negSucc_eq]

theorem numToString_head (n : Int) :
    ∃ c tl, (numToString n).data = c :: tl ∧ (c.toNat = 45 ∨ (48 ≤ c.toNat ∧ c.toNat ≤ 57)) := by
  cases n with
  | ofNat m =>
    have hne := decDigits_ne_nil m m
    have hall := decDigits_all_digits (m + 1) m
    cases hd : decDigits (m + 1) m with
    | nil => exact absurd hd hne
    | cons c cs =>
      refine ⟨c, cs, by simp [numToString, natToString, hd], Or.inr ?_⟩
      have hc := hall c (by simp [hd])
      simp [Char.isDigit] at hc
      have h1 := hc.1
      have h2 := hc.2
      constructor
      · simp [Char.toNat]; exact_mod_cast h1
      · simp [Char.toNat]; exact_mod_cast h2
  | negSucc m =>
    exact ⟨Char.ofNat 45, _, rfl, Or.inl (by decide)⟩

/-- The first character of the text of a scalar: `n`, `t`, `f`, a double quote, a minus
sign or a digit. -/
theorem stringifyPrim_head (p : JsPrim) :
    ∃ c tl, stringifyPrim p = c :: tl ∧
      (c.toNat = 110 ∨ c.toNat = 116 ∨ c.toNat = 102 ∨ c.toNat = 34 ∨ c.toNat = 45 ∨
        (48 ≤ c.toNat ∧ c.toNat ≤ 57)) := by
  cases p with
  | null => exact ⟨'n', _, rfl, Or.inl (by decide)⟩
  | bool b =>
    cases b with
    | true => exact ⟨'t', _, rfl, Or.inr (Or.inl (by decide))⟩
    | false => exact ⟨'f', _, rfl, Or.inr (Or.inr (Or.inl (by decide)))⟩
  | num n =>
    obtain ⟨c, tl, h, hc⟩ := numToString_head n
    exact ⟨c, tl, h, Or.inr (Or.inr (Or.inr (Or.inr hc)))⟩
  | str s => exact ⟨Char.ofNat 34, _, rfl, Or.inr (Or.inr (Or.inr (Or.inl (by decide))))⟩

theorem skipWs_cons (c : Char) (tl : List Char) (h : isJsonWs c = false) :
    skipWs (c :: tl) = c :: tl := by
  simp [skipWs, List.dropWhile, h]

theorem isJsonWs_false_of (c : Char)
    (h : c.toNat ≠ 32 ∧ c.toNat ≠ 9 ∧ c.toNat ≠ 10 ∧ c.toNat ≠ 13) : isJsonWs c = false := by
  simp [isJsonWs, h.1, h.2.1, h.2.2.1, h.2.2.2]

theorem skipWs_stringifyPrim (p : JsPrim) (rest : List Char) :
    skipWs (stringifyPrim p ++ rest) = stringifyPrim p ++ rest := by
  obtain ⟨c, tl, h, hc⟩ := stringifyPrim_head p
  rw [h, List.cons_append]
  apply skipWs_cons
  apply isJsonWs_false_of
  omega

theorem parsePrim_stringifyPrim (p : JsPrim) (rest : List Char) (h : NumEnd rest) :
    parsePrim (stringifyPrim p ++ rest) = some (p, rest) := by
  cases p with
  | null =>
    have a1 : ('n' : Char).toNat ≠ 34 := by decide
    have a2 : ('n' : Char).toNat = 110 := by decide
    simp [stringifyPrim, parsePrim, dropLit, a1, a2]
  | bool b =>
    cases b with
    | true =>
      have a1 : ('t' : Char).toNat ≠ 34 := by decide
      have a2 : ('t' : Char).toNat ≠ 110 := by decide
      have a3 : ('t' : Char).toNat = 116 := by decide
      simp [stringifyPrim, parsePrim, dropLit, a1, a2, a3]
    | false =>
      have a1 : ('f' : Char).toNat ≠ 34 := by decide
      have a2 : ('f' : Char).toNat ≠ 110 := by decide
      have a3 : ('f' : Char).toNat ≠ 116 := by decide
      have a4 : ('f' : Char).toNat = 102 := by decide
      simp [stringifyPrim, parsePrim, dropLit, a1, a2, a3, a4]
  | num n =>
    obtain ⟨c, tl, hd, hc⟩ := numToString_head n
    have hnum := parseNumber_numToString n rest h
    simp only [stringifyPrim]
    rw [hd] at hnum ⊢
    simp only [List.cons_append] at hnum ⊢
    have a1 : ¬ c.toNat = 34 := by omega
    have a2 : ¬ c.toNat = 110 := by omega
    have a3 : ¬ c.toNat = 116 := by omega
    have a4 : ¬ c.toNat = 102 := by omega
    simp only [parsePrim, a1, a2, a3, a4, if_false]
    exact hnum
  | str s =>
    have a1 : (Char.ofNat 34).toNat = 34 := by decide
    simp only [stringifyPrim, quoteJson, List.cons_append, parsePrim, a1, if_true,
      List.append_assoc, List.singleton_append, List.nil_append]
    rw [parseStrBody_quoted s.data rest _ (by
      have := length_le_escaped s.data
      rw [List.length_append, List.length_cons]
      omega)]
    rfl

theorem numEnd_nil : NumEnd [] := by
  simp [NumEnd]

theorem numEnd_cons (c : Char) (rest : List Char)
    (h : c.toNat = 44 ∨ c.toNat = 93 ∨ c.toNat = 125) : NumEnd (c :: rest) := by
  have hd : c.isDigit = false := by
    have : ¬ (48 ≤ c.toNat ∧ c.toNat ≤ 57) := by omega
    simp only [Char.isDigit, Bool.and_eq_false_iff, decide_eq_false_iff_not]
    by_contra hc
    apply this
    simp only [not_or, not_not] at hc
    exact ⟨by simpa [Char.toNat, UInt32.le_def] using hc.1,
      by simpa [Char.toNat, UInt32.le_def] using hc.2⟩
  refine ⟨by simp [hd], ?_, ?_, ?_⟩ <;> simp <;> omega

theorem joinComma_cons_cons (x y : List Char) (rest : List (List Char)) :
    joinComma (x :: y :: rest) = x ++ (',' :: joinComma (y :: rest)) := rfl

theorem length_le_joinComma (l : List (List Char)) (h : ∀ x ∈ l, x ≠ []) :
    l.length ≤ (joinComma l).length := by
  induction l with
  | nil => simp [joinComma]
  | cons x rest ih =>
    have hx : 0 < x.length := List.length_pos.mpr (h x (by simp))
    cases rest with
    | nil => simp [joinComma]; omega
    | cons y rest =>
      rw [joinComma_cons_cons]
      have := ih (fun z hz => h z (by simp [hz]))
      simp only [List.length_append, List.length_cons] at this ⊢
      omega

theorem stringifyPrim_ne_nil (p : JsPrim) : stringifyPrim p ≠ [] := by
  obtain ⟨c, tl, h, _⟩ := stringifyPrim_head p
  simp [h]

theorem parseElems_join (xs : List JsPrim) :
    ∀ (x : JsPrim) (f : Nat) (rest : List Char), xs.length < f →
      parseElems f (joinComma ((x :: xs).map stringifyPrim) ++ Char.ofNat 93 :: rest)
        = some (x :: xs, rest) := by
  have c93 : (Char.ofNat 93).toNat = 93 := by decide
  have c44 : (',' : Char).toNat = 44 := by decide
  induction xs with
  | nil =>
    intro x f rest hf
    obtain ⟨g, rfl⟩ : ∃ g, f = g + 1 := ⟨f - 1, by omega⟩
    simp only [List.map_cons, List.map_nil, joinComma]
    simp only [parseElems, skipWs_stringifyPrim,
      parsePrim_stringifyPrim x _ (numEnd_cons _ rest (Or.inr (Or.inl c93)))]
    rw [skipWs_cons _ _ (isJsonWs_false_of _ (by omega))]
    simp [c93]
  | cons y ys ih =>
    intro x f rest hf
    obtain ⟨g, rfl⟩ : ∃ g, f = g + 1 := ⟨f - 1, by omega⟩
    have hg : ys.length < g := by simp at hf; omega
    simp only [List.map_cons, joinComma_cons_cons, List.append_assoc, List.cons_append]
    simp only [parseElems, skipWs_stringifyPrim,
      parsePrim_stringifyPrim x _ (numEnd_cons _ _ (Or.inl c44))]
    rw [skipWs_cons _ _ (isJsonWs_false_of _ (by omega))]
    have := ih y g rest hg
    simp only [List.map_cons] at this
    simp [c44, this]

theorem parseMember_stringifyMember (kv : String × JsPrim) (rest : List Char) (h : NumEnd rest) :
    parseMember (stringifyMember kv ++ rest) = some (kv, rest) := by
  obtain ⟨k, v⟩ := kv
  have a1 : (Char.ofNat 34).toNat = 34 := by decide
  have a2 : (':' : Char).toNat = 58 := by decide
  simp only [stringifyMember, quoteJson, List.cons_append, List.append_assoc,
    List.singleton_append, List.nil_append, parseMember]
  rw [skipWs_cons _ _ (isJsonWs_false_of _ (by omega))]
  simp only [a1, if_true]
  rw [parseStrBody_quoted k.data _ _ (by
    have := length_le_escaped k.data
    rw [List.length_append, List.length_cons]
    omega)]
  simp only
  rw [skipWs_cons _ _ (isJsonWs_false_of _ (by omega))]
  simp only [a2, if_true, skipWs_stringifyPrim, parsePrim_stringifyPrim v rest h]
  rfl

theorem stringifyMember_head (kv : String × JsPrim) :
    ∃ tl, stringifyMember kv = Char.ofNat 34 :: tl := by
  exact ⟨_, rfl⟩

theorem parseMembers_join (kvs : List (String × JsPrim)) :
    ∀ (kv : String × JsPrim) (f : Nat) (rest : List Char), kvs.length < f →
      parseMembers f (joinComma ((kv :: kvs).map stringifyMember) ++ Char.ofNat 125 :: rest)
        = some (kv :: kvs, rest) := by
  have c125 : (Char.ofNat 125).toNat = 125 := by decide
  have c44 : (',' : Char).toNat = 44 := by decide
  induction kvs with
  | nil =>
    intro kv f rest hf
    obtain ⟨g, rfl⟩ : ∃ g, f = g + 1 := ⟨f - 1, by omega⟩
    simp only [List.map_cons, List.map_nil, joinComma]
    simp only [parseMembers,
      parseMember_stringifyMember kv _ (numEnd_cons _ rest (Or.inr (Or.inr c125)))]
    rw [skipWs_cons _ _ (isJsonWs_false_of _ (by omega))]
    simp [c125]
  | cons y ys ih =>
    intro kv f rest hf
    obtain ⟨g, rfl⟩ : ∃ g, f = g + 1 := ⟨f - 1, by omega⟩
    have hg : ys.length < g := by simp at hf; omega
    simp only [List.map_cons, joinComma_cons_cons, List.append_assoc, List.cons_append]
    simp only [parseMembers, parseMember_stringifyMember kv _ (numEnd_cons _ _ (Or.inl c44))]
    rw [skipWs_cons _ _ (isJsonWs_false_of _ (by omega))]
    have := ih y g rest hg
    simp only [List.map_cons] at this
    simp [c44, this]

theorem setProp_of_not_mem {α : Type} (kvs : List (String × α)) (k : String) (v : α)
    (h : k ∉ kvs.map Prod.fst) : setProp kvs k v = kvs ++ [(k, v)] := by
  induction kvs with
  | nil => rfl
  | cons kv rest ih =>
    obtain ⟨k', v'⟩ := kv
    simp only [List.map_cons, List.mem_cons, not_or] at h
    have hne : ¬ k' = k := fun e => h.1 e.symm
    simp [setProp, hne, ih h.2]

theorem foldl_setProp_nodup {α : Type} (l : List (String × α)) :
    ∀ acc : List (String × α), ((acc ++ l).map Prod.fst).Nodup →
      l.foldl (fun o kv => setProp o kv.1 kv.2) acc = acc ++ l := by
  induction l with
  | nil => intro acc _; simp
  | cons kv rest ih =>
    intro acc h
    have hk : kv.1 ∉ acc.map Prod.fst := by
      simp only [List.map_append, List.map_cons] at h
      have := (List.nodup_append.mp h).2.2
      intro hm
      exact this hm (by simp)
    simp only [List.foldl_cons, setProp_of_not_mem acc kv.1 kv.2 hk]
    rw [ih (acc ++ [(kv.1, kv.2)]) (by simpa using h)]
    simp

theorem joinComma_cons_eq (x : List Char) (l : List (List Char)) :
    ∃ t, joinComma (x :: l) = x ++ t := by
  cases l with
  | nil => exact ⟨[], by simp [joinComma]⟩
  | cons y rest => exact ⟨_, joinComma_cons_cons x y rest⟩

theorem parseDocument_prim (p : JsPrim) :
    parseDocument (stringifyPrim p) = some (.prim p, []) := by
  obtain ⟨c, tl, hd, hc⟩ := stringifyPrim_head p
  have hp := parsePrim_stringifyPrim p [] numEnd_nil
  have hs := skipWs_stringifyPrim p []
  simp only [List.append_nil] at hp hs
  unfold parseDocument
  rw [hs]
  rw [hd] at hp ⊢
  have a1 : ¬ c.toNat = 91 := by omega
  have a2 : ¬ c.toNat = 123 := by omega
  simp only [a1, a2, if_false, hp]
  rfl

theorem parseDocument_arr (x : JsPrim) (xs : List JsPrim) :
    parseDocument (Char.ofNat 91 :: (joinComma ((x :: xs).map stringifyPrim) ++ [Char.ofNat 93]))
      = some (.arr (x :: xs), []) := by
  have c91 : (Char.ofNat 91).toNat = 91 := by decide
  obtain ⟨c, tl, hd, hc⟩ := stringifyPrim_head x
  obtain ⟨t, ht⟩ := joinComma_cons_eq (stringifyPrim x) (xs.map stringifyPrim)
  have hlen := length_le_joinComma ((x :: xs).map stringifyPrim) (by
    intro z hz
    obtain ⟨q, _, rfl⟩ := List.mem_map.mp hz
    exact stringifyPrim_ne_nil q)
  have hel := parseElems_join xs x
    ((joinComma ((x :: xs).map stringifyPrim) ++ [Char.ofNat 93]).length + 1) [] (by
      simp only [List.length_map, List.length_cons, List.length_append, List.length_nil] at hlen ⊢
      omega)
  unfold parseDocument
  rw [skipWs_cons _ _ (isJsonWs_false_of _ (by omega))]
  simp only [c91, if_true]
  have hsk : skipWs (joinComma ((x :: xs).map stringifyPrim) ++ [Char.ofNat 93])
      = c :: (tl ++ (t ++ [Char.ofNat 93])) := by
    simp only [List.map_cons] at ht ⊢
    rw [ht, List.append_assoc, skipWs_stringifyPrim, hd]
    rfl
  rw [hsk]
  have a1 : ¬ c.toNat = 93 := by omega
  simp only [a1, if_false, hel]
  rfl

theorem parseDocument_obj (kv : String × JsPrim) (kvs : List (String × JsPrim)) :
    parseDocument
        (Char.ofNat 123 :: (joinComma ((kv :: kvs).map stringifyMember) ++ [Char.ofNat 125]))
      = some (.obj ((kv :: kvs).foldl (fun o e => setProp o e.1 e.2) []), []) := by
  have c123 : (Char.ofNat 123).toNat = 123 := by decide
  have c34 : (Char.ofNat 34).toNat = 34 := by decide
  obtain ⟨tl, hd⟩ := stringifyMember_head kv
  obtain ⟨t, ht⟩ := joinComma_cons_eq (stringifyMember kv) (kvs.map stringifyMember)
  have hlen := length_le_joinComma ((kv :: kvs).map stringifyMember) (by
    intro z hz
    obtain ⟨q, _, rfl⟩ := List.mem_map.mp hz
    obtain ⟨tl', hq⟩ := stringifyMember_head q
    simp [hq])
  have hel := parseMembers_join kvs kv
    ((joinComma ((kv :: kvs).map stringifyMember) ++ [Char.ofNat 125]).length + 1) [] (by
      simp only [List.length_map, List.length_cons, List.length_append, List.length_nil] at hlen ⊢
      omega)
  unfold parseDocument
  rw [skipWs_cons _ _ (isJsonWs_false_of _ (by omega))]
  have a0 : ¬ (Char.ofNat 123).toNat = 91 := by decide
  simp only [a0, c123, if_true, if_false]
  have hsk : skipWs (joinComma ((kv :: kvs).map stringifyMember) ++ [Char.ofNat 125])
      = Char.ofNat 34 :: (tl ++ (t ++ [Char.ofNat 125])) := by
    simp only [List.map_cons] at ht ⊢
    rw [ht, List.append_assoc, hd, List.cons_append]
    exact skipWs_cons _ _ (isJsonWs_false_of _ (by omega))
  rw [hsk]
  have a1 : ¬ (Char.ofNat 34).toNat = 125 := by decide
  simp only [a1, if_false, hel]
  rfl

/-- Parsing inverts `JSON.stringify` on every document whose keys are unique. -/
theorem parse_stringify (v : JsVal) (h : UniqueKeys v) :
    JSON.parse (JSON.stringify v) = some v := by
  cases v with
  | prim p =>
    simp [JSON.parse, JSON.stringify, parseDocument_prim, skipWs]
  | arr xs =>
    cases xs with
    | nil => decide
    | cons x xs =>
      simp only [JSON.parse, JSON.stringify]
      have := parseDocument_arr x xs
      simp only [List.map_cons] at this
      simp [this, skipWs]
  | obj kvs =>
    cases kvs with
    | nil => decide
    | cons kv kvs =>
      simp only [JSON.parse, JSON.stringify]
      have := parseDocument_obj kv kvs
      simp only [List.map_cons] at this
      rw [foldl_setProp_nodup (kv :: kvs) [] (by simpa [UniqueKeys] using h)] at this
      simp [this, skipWs]

theorem stringify_truthy (v : JsVal) : truthyStr (some (JSON.stringify v)) = true := by
  have : (JSON.stringify v).data ≠ [] := by
    cases v with
    | prim p => simpa [JSON.stringify] using stringifyPrim_ne_nil p
    | arr xs => simp [JSON.stringify]
    | obj kvs => simp [JSON.stringify]
  simp only [truthyStr, bne_iff_ne, ne_eq]
  intro he
  apply this
  rw [he]

end SurveyEngine
namespace SurveyEngine

/-! ## The model of `JSON.parse` and the JSON grammar -/

theorem skipEscape_of_readEscape (cs : List Char) (ch : Char) (r : List Char)
    (h : readEscape cs = some (ch, r)) : skipEscape cs = some r := by
  cases cs with
  | nil => simp [readEscape] at h
  | cons e rest =>
    by_cases hu : e.toNat = 117
    · simp only [readEscape, hu, if_true] at h
      simp only [skipEscape, hu, if_true]
      match rest, h with
      | h1 :: h2 :: h3 :: h4 :: rest3, h =>
        simp only [Option.map_eq_some', Prod.mk.injEq] at h
        obtain ⟨a, ha, _, hr⟩ := h
        subst hr
        have hx : (hexVal h1).isSome = true ∧ (hexVal h2).isSome = true ∧
            (hexVal h3).isSome = true ∧ (hexVal h4).isSome = true := by
          unfold unicodeEscape at ha
          cases e1 : hexVal h1 <;> cases e2 : hexVal h2 <;> cases e3 : hexVal h3 <;>
            cases e4 : hexVal h4 <;> simp [e1, e2, e3, e4] at ha ⊢
        simp [hx.1, hx.2.1, hx.2.2.1, hx.2.2.2]
      | [], h => simp at h
      | [_], h => simp at h
      | [_, _], h => simp at h
      | [_, _, _], h => simp at h
    · simp only [readEscape, hu, if_false, Option.map_eq_some', Prod.mk.injEq] at h
      obtain ⟨a, ha, _, hr⟩ := h
      subst hr
      simp [skipEscape, hu, ha]

theorem skipStrBody_of_parseStrBody (f : Nat) :
    ∀ (cs : List Char) (s r : List Char), parseStrBody f cs = some (s, r) →
      skipStrBody f cs = some r := by
  induction f with
  | zero => intro cs s r h; simp [parseStrBody] at h
  | succ f ih =>
    intro cs s r h
    cases cs with
    | nil => simp [parseStrBody] at h
    | cons c rest =>
      rw [parseStrBody] at h
      rw [skipStrBody]
      by_cases hq : c.toNat = 34
      · rw [if_pos hq] at h ⊢
        simp only [Option.some.injEq, Prod.mk.injEq] at h
        rw [h.2]
      · rw [if_neg hq] at h ⊢
        by_cases hb : c.toNat = 92
        · rw [if_pos hb] at h ⊢
          cases he : readEscape rest with
          | none => simp [he] at h
          | some cr =>
            obtain ⟨ch, rest2⟩ := cr
            simp only [he] at h
            cases hp : parseStrBody f rest2 with
            | none => simp [hp] at h
            | some sr =>
              simp only [hp, Option.map_some', Option.some.injEq, Prod.mk.injEq] at h
              have h1 := skipEscape_of_readEscape rest ch rest2 he
              have h2 := ih rest2 sr.1 sr.2 (by simpa using hp)
              simp only [h1, h2, h.2]
        · rw [if_neg hb] at h ⊢
          by_cases hc : c.toNat < 32
          · rw [if_pos hc] at h
            exact absurd h (by simp)
          · rw [if_neg hc] at h ⊢
            cases hp : parseStrBody f rest with
            | none => simp [hp] at h
            | some sr =>
              simp only [hp, Option.map_some', Option.some.injEq, Prod.mk.injEq] at h
              have h2 := ih rest sr.1 sr.2 (by simpa using hp)
              rw [h2, h.2]

theorem skipNumber_of_parseNumber (cs : List Char) (v : JsPrim) (r : List Char)
    (h : parseNumber cs = some (v, r)) : skipNumber cs = some r := by
  unfold parseNumber at h
  unfold skipNumber
  simp only at h ⊢
  generalize (if (cs.head?.map Char.toNat == some 45) = true then cs.drop 1 else cs) = body at h ⊢
  by_cases hds : (body.takeWhile Char.isDigit).isEmpty = true
  · rw [if_pos hds] at h
    exact absurd h (by simp)
  · rw [if_neg hds] at h ⊢
    by_cases hz : (decide (1 < (body.takeWhile Char.isDigit).length) &&
        ((body.takeWhile Char.isDigit).head?.map Char.toNat == some 48)) = true
    · rw [if_pos hz] at h
      exact absurd h (by simp)
    · rw [if_neg hz] at h ⊢
      by_cases hfe : (((body.dropWhile Char.isDigit).head?.map Char.toNat == some 46) ||
          ((body.dropWhile Char.isDigit).head?.map Char.toNat == some 101) ||
          ((body.dropWhile Char.isDigit).head?.map Char.toNat == some 69)) = true
      · rw [if_pos hfe] at h
        exact absurd h (by simp)
      · rw [if_neg hfe] at h
        simp only [Option.some.injEq, Prod.mk.injEq] at h
        rw [← h.2]
        simp only [Bool.or_eq_true, not_or, Bool.not_eq_true] at hfe
        simp only [skipFraction, hfe.1.1, Bool.false_eq_true, if_false, Option.some_bind,
          skipExponent, hfe.1.2, hfe.2, Bool.or_self]

theorem dropLit_ne_nil_head (l : Char) (ls cs : List Char) (c : Char) (r : List Char)
    (h : dropLit (l :: ls) (c :: cs) = some r) : l = c := by
  by_contra hne
  simp [dropLit, hne] at h

theorem parseNumber_head (c : Char) (rest : List Char) (v : JsPrim) (r : List Char)
    (h : parseNumber (c :: rest) = some (v, r)) : c.toNat = 45 ∨ c.isDigit = true := by
  by_cases hneg : c.toNat = 45
  · exact Or.inl hneg
  · right
    unfold parseNumber at h
    simp only [List.head?_cons, Option.map_some'] at h
    have hb : (some c.toNat == some 45) = false := by simpa using hneg
    simp only [hb, Bool.false_eq_true, if_false] at h
    by_cases hd : c.isDigit = true
    · exact hd
    · simp [List.takeWhile_cons, hd] at h

theorem skipJson_of_parsePrim (cs : List Char) (v : JsPrim) (r : List Char)
    (h : parsePrim cs = some (v, r)) (f : Nat) : skipJson (f + 1) .value cs = some r := by
  cases cs with
  | nil => simp [parsePrim] at h
  | cons c rest =>
    unfold parsePrim at h
    simp only at h
    by_cases hq : c.toNat = 34
    · rw [if_pos hq] at h
      cases hp : parseStrBody rest.length rest with
      | none => simp [hp] at h
      | some sr =>
        simp only [hp, Option.map_some', Option.some.injEq, Prod.mk.injEq] at h
        have := skipStrBody_of_parseStrBody rest.length rest sr.1 sr.2 (by simpa using hp)
        simp [skipJson, hq, this, h.2]
    · rw [if_neg hq] at h
      by_cases hn : c.toNat = 110
      · rw [if_pos hn] at h
        cases hp : dropLit ['u', 'l', 'l'] rest with
        | none => simp [hp] at h
        | some r2 =>
          simp only [hp, Option.map_some', Option.some.injEq, Prod.mk.injEq] at h
          simp [skipJson, hn, hp, h.2]
      · rw [if_neg hn] at h
        by_cases ht : c.toNat = 116
        · rw [if_pos ht] at h
          cases hp : dropLit ['r', 'u', 'e'] rest with
          | none => simp [hp] at h
          | some r2 =>
            simp only [hp, Option.map_some', Option.some.injEq, Prod.mk.injEq] at h
            simp [skipJson, ht, hp, h.2]
        · rw [if_neg ht] at h
          by_cases hf : c.toNat = 102
          · rw [if_pos hf] at h
            cases hp : dropLit ['a', 'l', 's', 'e'] rest with
            | none => simp [hp] at h
            | some r2 =>
              simp only [hp, Option.map_some', Option.some.injEq, Prod.mk.injEq] at h
              simp [skipJson, hf, hp, h.2]
          · rw [if_neg hf] at h
            have hhead := parseNumber_head c rest v r h
            have hdig : c.isDigit = true → c.toNat ≤ 57 := by
              intro h1
              simp only [Char.isDigit, Bool.and_eq_true, decide_eq_true_eq] at h1
              have h3 : c.val.toNat ≤ 57 := by exact_mod_cast h1.2
              exact h3
            have h91 : c.toNat ≠ 91 := by
              rcases hhead with h1 | h1
              · omega
              · have := hdig h1; omega
            have h123 : c.toNat ≠ 123 := by
              rcases hhead with h1 | h1
              · omega
              · have := hdig h1; omega
            have := skipNumber_of_parseNumber (c :: rest) v r h
            simp [skipJson, hq, hn, ht, hf, h91, h123, this]

theorem skipJson_of_parseElems (n : Nat) :
    ∀ (cs : List Char) (vs : List JsPrim) (r : List Char) (f : Nat),
      parseElems n cs = some (vs, r) → n + 1 ≤ f → skipJson f .elements cs = some r := by
  induction n with
  | zero => intro cs vs r f h; simp [parseElems] at h
  | succ n ih =>
    intro cs vs r f h hf
    obtain ⟨g, rfl⟩ : ∃ g, f = g + 1 := ⟨f - 1, by omega⟩
    obtain ⟨g2, hg2⟩ : ∃ g2, g = g2 + 1 := ⟨g - 1, by omega⟩
    rw [parseElems] at h
    rw [skipJson]
    cases hp : parsePrim (skipWs cs) with
    | none => simp [hp] at h
    | some vr =>
      obtain ⟨v, r1⟩ := vr
      simp only [hp] at h
      have h1 : skipJson g .value (skipWs cs) = some r1 := by
        rw [hg2]
        exact skipJson_of_parsePrim _ v r1 hp g2
      simp only [h1]
      cases hw : skipWs r1 with
      | nil => simp [hw] at h
      | cons c r2 =>
        simp only [hw] at h ⊢
        by_cases hc : c.toNat = 44
        · rw [if_pos hc] at h ⊢
          cases hrec : parseElems n r2 with
          | none => simp [hrec] at h
          | some wr =>
            simp only [hrec, Option.map_some', Option.some.injEq, Prod.mk.injEq] at h
            rw [ih r2 wr.1 wr.2 g (by simpa using hrec) (by omega), h.2]
        · rw [if_neg hc] at h ⊢
          by_cases hb : c.toNat = 93
          · rw [if_pos hb] at h ⊢
            simp only [Option.some.injEq, Prod.mk.injEq] at h
            rw [h.2]
          · rw [if_neg hb] at h
            exact absurd h (by simp)

theorem skipJson_of_parseMembers (n : Nat) :
    ∀ (cs : List Char) (kvs : List (String × JsPrim)) (r : List Char) (f : Nat),
      parseMembers n cs = some (kvs, r) → n + 1 ≤ f → skipJson f .members cs = some r := by
  induction n with
  | zero => intro cs kvs r f h; simp [parseMembers] at h
  | succ n ih =>
    intro cs kvs r f h hf
    obtain ⟨g, rfl⟩ : ∃ g, f = g + 1 := ⟨f - 1, by omega⟩
    obtain ⟨g2, hg2⟩ : ∃ g2, g = g2 + 1 := ⟨g - 1, by omega⟩
    rw [parseMembers] at h
    rw [skipJson]
    cases hm : parseMember cs with
    | none => simp [hm] at h
    | some kr =>
      obtain ⟨kv, r3⟩ := kr
      simp only [hm] at h
      unfold parseMember at hm
      cases hw0 : skipWs cs with
      | nil => simp [hw0] at hm
      | cons q r0 =>
        simp only [hw0] at hm ⊢
        by_cases hq : q.toNat = 34
        · rw [if_pos hq] at hm ⊢
          cases hs : parseStrBody r0.length r0 with
          | none => simp [hs] at hm
          | some kr1 =>
            obtain ⟨k, r1⟩ := kr1
            simp only [hs] at hm
            have hs2 := skipStrBody_of_parseStrBody r0.length r0 k r1 hs
            simp only [hs2]
            cases hw1 : skipWs r1 with
            | nil => simp [hw1] at hm
            | cons c r2 =>
              simp only [hw1] at hm ⊢
              by_cases hc : c.toNat = 58
              · rw [if_pos hc] at hm ⊢
                cases hp : parsePrim (skipWs r2) with
                | none => simp [hp] at hm
                | some vr =>
                  obtain ⟨v, r3'⟩ := vr
                  simp only [hp, Option.map_some', Option.some.injEq, Prod.mk.injEq] at hm
                  have h1 : skipJson g .value (skipWs r2) = some r3' := by
                    rw [hg2]
                    exact skipJson_of_parsePrim _ v r3' hp g2
                  simp only [h1]
                  rw [hm.2]
                  cases hw3 : skipWs r3 with
                  | nil => simp [hw3] at h
                  | cons c2 r4 =>
                    simp only [hw3] at h ⊢
                    by_cases hc2 : c2.toNat = 44
                    · rw [if_pos hc2] at h ⊢
                      cases hrec : parseMembers n r4 with
                      | none => simp [hrec] at h
                      | some wr =>
                        simp only [hrec, Option.map_some', Option.some.injEq,
                          Prod.mk.injEq] at h
                        rw [ih r4 wr.1 wr.2 g (by simpa using hrec) (by omega), h.2]
                    · rw [if_neg hc2] at h ⊢
                      by_cases hb : c2.toNat = 125
                      · rw [if_pos hb] at h ⊢
                        simp only [Option.some.injEq, Prod.mk.injEq] at h
                        rw [h.2]
                      · rw [if_neg hb] at h
                        exact absurd h (by simp)
              · rw [if_neg hc] at hm
                exact absurd hm (by simp)
        · rw [if_neg hq] at hm
          exact absurd hm (by simp)

theorem length_skipWs_le (cs : List Char) : (skipWs cs).length ≤ cs.length :=
  (List.dropWhile_sublist _).length_le

theorem skipJson_of_parseDocument (cs : List Char) (v : JsVal) (r : List Char) (f : Nat)
    (h : parseDocument cs = some (v, r)) (hf : cs.length + 2 ≤ f) :
    skipJson f .value (skipWs cs) = some r := by
  obtain ⟨g, rfl⟩ : ∃ g, f = g + 1 := ⟨f - 1, by omega⟩
  unfold parseDocument at h
  have hlen := length_skipWs_le cs
  cases hw : skipWs cs with
  | nil => simp [hw] at h
  | cons c r0 =>
    rw [hw] at hlen
    simp only [List.length_cons] at hlen
    simp only [hw] at h
    by_cases ha : c.toNat = 91
    · rw [if_pos ha] at h
      have hq : c.toNat ≠ 34 := by omega
      rw [skipJson]
      rw [if_neg hq, if_pos ha]
      cases hw1 : skipWs r0 with
      | nil => simp [hw1] at h
      | cons d r2 =>
        simp only [hw1] at h ⊢
        by_cases hd : d.toNat = 93
        · rw [if_pos hd] at h ⊢
          simp only [Option.some.injEq, Prod.mk.injEq] at h
          rw [h.2]
        · rw [if_neg hd] at h ⊢
          cases hp : parseElems (r0.length + 1) r0 with
          | none => simp [hp] at h
          | some vr =>
            simp only [hp, Option.map_some', Option.some.injEq, Prod.mk.injEq] at h
            rw [skipJson_of_parseElems _ r0 vr.1 vr.2 g (by simpa using hp) (by omega), h.2]
    · rw [if_neg ha] at h
      by_cases ho : c.toNat = 123
      · rw [if_pos ho] at h
        have hq : c.toNat ≠ 34 := by omega
        rw [skipJson]
        rw [if_neg hq, if_neg ha, if_pos ho]
        cases hw1 : skipWs r0 with
        | nil => simp [hw1] at h
        | cons d r2 =>
          simp only [hw1] at h ⊢
          by_cases hd : d.toNat = 125
          · rw [if_pos hd] at h ⊢
            simp only [Option.some.injEq, Prod.mk.injEq] at h
            rw [h.2]
          · rw [if_neg hd] at h ⊢
            cases hp : parseMembers (r0.length + 1) r0 with
            | none => simp [hp] at h
            | some mr =>
              simp only [hp, Option.map_some', Option.some.injEq, Prod.mk.injEq] at h
              rw [skipJson_of_parseMembers _ r0 mr.1 mr.2 g (by simpa using hp) (by omega), h.2]
      · rw [if_neg ho] at h
        cases hp : parsePrim (c :: r0) with
        | none => simp [hp] at h
        | some pr =>
          simp only [hp, Option.map_some', Option.some.injEq, Prod.mk.injEq] at h
          rw [skipJson_of_parsePrim _ pr.1 pr.2 (by simpa using hp) g, h.2]

/-- Every text the model of `JSON.parse` accepts is a JSON text; so a text that is not a
JSON text is rejected by the model as it is by `JSON.parse`. -/
theorem isJsonText_of_parse (s : String) (v : JsVal) (h : JSON.parse s = some v) :
    isJsonText s = true := by
  unfold JSON.parse at h
  cases hp : parseDocument s.data with
  | none => simp [hp] at h
  | some vr =>
    obtain ⟨v2, rest⟩ := vr
    simp only [hp] at h
    by_cases he : (skipWs rest).isEmpty = true
    · have := skipJson_of_parseDocument s.data v2 rest (2 * s.data.length + 2) hp (by omega)
      unfold isJsonText
      simp only [this, he]
    · simp [he] at h

theorem parse_none_of_not_json (s : String) (h : isJsonText s = false) : JSON.parse s = none := by
  cases hp : JSON.parse s with
  | none => rfl
  | some v =>
    rw [isJsonText_of_parse s v hp] at h
    exact Bool.noConfusion h

end SurveyEngine

namespace SurveyEngine

/-! ## Submission guard of SentimentForm -/

theorem unanswered_none : unanswered none = true := rfl

theorem answered_none : answered none = false := rfl

theorem mem_keys_of_lookup {α : Type} (kvs : List (String × α)) (k : String) (v : α)
    (h : kvs.lookup k = some v) : k ∈ kvs.map Prod.fst := by
  induction kvs with
  | nil => simp at h
  | cons kv rest ih =>
    obtain ⟨k', v'⟩ := kv
    by_cases hk : k = k'
    · simp [hk]
    · have hb : (k == k') = false := by simpa using hk
      rw [List.lookup_cons, hb] at h
      simp only [List.map_cons, List.mem_cons]
      exact Or.inr (ih h)

theorem length_le_answered_keys_iff (kvs : List (String × JsPrim)) (C : List String)
    (hC : C.Nodup) (hK : (kvs.map Prod.fst).Nodup) (hsub : ∀ k ∈ kvs.map Prod.fst, k ∈ C) :
    C.length ≤ ((kvs.map Prod.fst).filter (fun k => answered (kvs.lookup k))).length ↔
      ∀ k ∈ C, answered (kvs.lookup k) = true := by
  have hA : ((kvs.map Prod.fst).filter (fun k => answered (kvs.lookup k))).Nodup := hK.filter _
  constructor
  · intro hlen k hk
    have hsubset : (kvs.map Prod.fst).filter (fun k => answered (kvs.lookup k)) ⊆ C := by
      intro x hx
      exact hsub x (List.mem_of_mem_filter hx)
    have hsp := List.subperm_of_subset hA hsubset
    have hperm := hsp.perm_of_length_le hlen
    have hk' := hperm.symm.subset hk
    simpa using (List.mem_filter.mp hk').2
  · intro hall
    have hsubset : C ⊆ (kvs.map Prod.fst).filter (fun k => answered (kvs.lookup k)) := by
      intro k hk
      have ha := hall k hk
      cases hl : kvs.lookup k with
      | none => rw [hl, answered_none] at ha; exact absurd ha (by decide)
      | some v =>
        exact List.mem_filter.mpr ⟨mem_keys_of_lookup kvs k v hl, by simpa using ha⟩
    exact (List.subperm_of_subset hC hsubset).length_le

theorem handleSubmit_request (p : SFProps) (s : SFState)
    (hl : s.loading = false) (hs : s.hasSubmitted = false)
    (hgate : dwellGateActive s = false)
    (hcur : unanswered (getProp s.answers
      (answerKey (s.questions[s.currentQuestionIndex]?))) = false) :
    (handleSubmit p s).2 =
      if totalAnswered s.answers < 25 then none
      else some { employee_id := p.employeeId
                  form_id := formId p.monthIndex
                  answers := buildPayload s.questions s.answers } := by
  have hnull : s.answers ≠ .prim .null := by
    intro h
    rw [h] at hcur
    exact absurd hcur (by simp [getProp, ownProps, unanswered_none])
  unfold handleSubmit
  simp only [hgate, currentQuestionBinding, hl, hs, hnull, hcur]
  by_cases h25 : totalAnswered s.answers < 25 <;> simp [h25, hcur]

theorem handleSubmit_isSome_iff (p : SFProps) (s : SFState)
    (hl : s.loading = false) (hs : s.hasSubmitted = false)
    (hgate : dwellGateActive s = false)
    (hcur : unanswered (getProp s.answers
      (answerKey s.questions[s.currentQuestionIndex]?)) = false) :
    (handleSubmit p s).2.isSome = true ↔ 25 ≤ totalAnswered s.answers := by
  rw [handleSubmit_request p s hl hs hgate hcur]
  by_cases h25 : totalAnswered s.answers < 25
  · simp [h25]
  · simp [h25]; omega

/-- C1 (amended): in `SentimentForm.handleSubmit`, when the form is rendered (not loading,
not submitted), the dwell test is clear and the current question is answered, a payload
is transmitted if and only if at least 25 entries of `answers` pass the answered test;
the catalog is not consulted. For a catalog of exactly 25 questions with distinct ids,
when the keys of `answers` are distinct and each is the id of a catalog question, this
is the same as every question of the catalog having a satisfying answer. -/
theorem handleSubmit_transmits_iff (p : SFProps) (s : SFState)
    (hl : s.loading = false) (hs : s.hasSubmitted = false)
    (hgate : dwellGateActive s = false)
    (hcur : unanswered (getProp s.answers
      (answerKey (s.questions[s.currentQuestionIndex]?))) = false) :
    ((handleSubmit p s).2.isSome = true ↔ 25 ≤ totalAnswered s.answers) ∧
    (s.questions.length = 25 →
      (s.questions.map Question.form_question_id).Nodup →
      (objectKeys s.answers).Nodup →
      (∀ k ∈ objectKeys s.answers, ∃ q ∈ s.questions, k = numToString q.form_question_id) →
      ((handleSubmit p s).2.isSome = true ↔
        ∀ q ∈ s.questions, answered (getProp s.answers (numToString q.form_question_id)) = true)) := by
  have h1 := handleSubmit_isSome_iff p s hl hs hgate hcur
  refine ⟨h1, ?_⟩
  intro hlen hids hkeys hsub
  rw [h1]
  have hC : (s.questions.map (fun q => numToString q.form_question_id)).Nodup := by
    have := hids.map numToString_injective
    simpa [List.map_map] using this
  have hsub' : ∀ k ∈ (ownProps s.answers).map Prod.fst,
      k ∈ s.questions.map (fun q => numToString q.form_question_id) := by
    intro k hk
    obtain ⟨q, hq, rfl⟩ := hsub k hk
    exact List.mem_map.mpr ⟨q, hq, rfl⟩
  have key := length_le_answered_keys_iff (ownProps s.answers) _ hC hkeys hsub'
  simp only [List.length_map, hlen] at key
  unfold totalAnswered objectKeys getProp
  rw [key]
  constructor
  · intro h q hq
    exact h _ (List.mem_map.mpr ⟨q, hq, rfl⟩)
  · intro h k hk
    obtain ⟨q, hq, rfl⟩ := List.mem_map.mp hk
    exact h q hq

/-- Witness of C1 (amended): the fully answered catalog of 25 questions is transmitted. -/
theorem handleSubmit_transmits_iff_witness :
    (full25State.loading = false ∧ full25State.hasSubmitted = false ∧
      dwellGateActive full25State = false ∧
      unanswered (getProp full25State.answers
        (answerKey (full25State.questions[full25State.currentQuestionIndex]?))) = false) ∧
    ((handleSubmit demoProps full25State).2.isSome = true ↔
      25 ≤ totalAnswered full25State.answers) ∧
    ((handleSubmit demoProps full25State).2.isSome = true ↔
      ∀ q ∈ full25State.questions,
        answered (getProp full25State.answers (numToString q.form_question_id)) = true) :=
  have h := handleSubmit_transmits_iff demoProps full25State (by decide) (by decide)
    (by decide) (by decide)
  ⟨⟨by decide, by decide, by decide, by decide⟩, h.1,
    h.2 (by decide) (by decide) (by decide) (by decide)⟩

/-- C1 (counterexample): a catalog of one question, answered, with the dwell test clear:
every question of the catalog has a satisfying answer and nothing is transmitted. -/
theorem handleSubmit_ignores_catalog :
    view oneQuestionState = .form ∧
    dwellGateActive oneQuestionState = false ∧
    unanswered (getProp oneQuestionState.answers
      (answerKey (oneQuestionState.questions[oneQuestionState.currentQuestionIndex]?))) = false ∧
    (∀ q ∈ oneQuestionState.questions,
      answered (getProp oneQuestionState.answers (numToString q.form_question_id)) = true) ∧
    (handleSubmit demoProps oneQuestionState).2 = none := by
  decide

end SurveyEngine

namespace SurveyEngine

/-! ## Dwell countdown and the forward controls -/

theorem arrivalEffect_visited (p : SFProps) (s : SFState) (h : hasVisited s = true) :
    arrivalEffect p s =
      { s with timeRemaining := 0, showTimeError := false, countdownRunning := false } := by
  simp [arrivalEffect, h]

theorem arrivalEffect_unvisited (p : SFProps) (s : SFState) (h : hasVisited s = false) :
    arrivalEffect p s =
      { s with visitedQuestions := s.visitedQuestions ++ [JsPrim.num (s.currentQuestionIndex : Int)]
               store := setItem s.store (visitedStorageKey p) (JSON.stringify
                 (.arr (s.visitedQuestions ++ [JsPrim.num (s.currentQuestionIndex : Int)])))
               timeRemaining := 3
               showTimeError := false
               countdownRunning := true } := by
  have hm : JsPrim.num (s.currentQuestionIndex : Int) ∉ s.visitedQuestions := by
    simpa [hasVisited] using h
  simp [arrivalEffect, h, setAdd, hm]

theorem hasVisited_arrivalEffect (p : SFProps) (s : SFState) :
    hasVisited (arrivalEffect p s) = true := by
  cases h : hasVisited s with
  | true =>
    rw [arrivalEffect_visited p s h]
    simpa [hasVisited] using h
  | false =>
    rw [arrivalEffect_unvisited p s h]
    simp [hasVisited]

theorem dwellGateActive_arrivalEffect (p : SFProps) (s : SFState) :
    dwellGateActive (arrivalEffect p s) = false := by
  simp [dwellGateActive, hasVisited_arrivalEffect]

theorem offered_forward_false (s : SFState) (h : s.timeRemaining > 0) :
    offered s .next = false ∧ offered s .submit = false := by
  have hd : forwardDisabled s = true := by simp [forwardDisabled, h]
  unfold offered
  constructor <;> split <;> simp [hd]

/-- The forward buttons and the countdown: on a first visit the arrival effect starts
the countdown at 3 and it is 0 after three ticks; while `timeRemaining` is not zero the
Next and Submit buttons are disabled; once it is 0, with the form rendered and a
satisfying answer of the current question, the Next button is enabled before the last
question and `goToNextQuestion` schedules the move, and at the last question the Submit
button is enabled and `handleSubmit` transmits iff 25 entries are answered. -/
theorem dwell_enforced_by_buttons (p : SFProps) (s : SFState) :
    (hasVisited s = false →
      (arrivalEffect p s).timeRemaining = 3 ∧ (arrivalEffect p s).countdownRunning = true ∧
      (tick (arrivalEffect p s)).timeRemaining = 2 ∧
      (tick (tick (arrivalEffect p s))).timeRemaining = 1 ∧
      (tick (tick (tick (arrivalEffect p s)))).timeRemaining = 0) ∧
    (s.timeRemaining > 0 → offered s .next = false ∧ offered s .submit = false) ∧
    (view s = .form → s.timeRemaining = 0 →
      unanswered (getProp s.answers (answerKey s.questions[s.currentQuestionIndex]?)) = false →
      s.currentQuestionIndex < s.questions.length →
      (((s.currentQuestionIndex : Int) < (s.questions.length : Int) - 1 →
          offered s .next = true ∧
          goToNextQuestion s =
            { s with isAnimating := true
                     timeouts := s.timeouts ++ [.setIndex (s.currentQuestionIndex + 1)] } ∧
          (fireTimeout p (goToNextQuestion s) s.timeouts.length).currentQuestionIndex =
            s.currentQuestionIndex + 1) ∧
       ((s.currentQuestionIndex : Int) = (s.questions.length : Int) - 1 →
          offered s .submit = true ∧
          ((handleSubmit p s).2.isSome = true ↔ 25 ≤ totalAnswered s.answers)))) := by
  refine ⟨?_, offered_forward_false s, ?_⟩
  · intro h
    rw [arrivalEffect_unvisited p s h]
    simp [tick]
  · intro hview htime hcur hidx
    have hl : s.loading = false := by
      by_contra hc; simp [view, hc] at hview
    have hs : s.hasSubmitted = false := by
      by_contra hc; simp [view, hl, hc] at hview
    have hgate : dwellGateActive s = false := by simp [dwellGateActive, htime]
    have hnull : s.answers ≠ .prim .null := by
      intro h
      rw [h] at hcur
      exact absurd hcur (by simp [getProp, ownProps, unanswered_none])
    have hq : ∃ q, s.questions[s.currentQuestionIndex]? = some q :=
      ⟨s.questions[s.currentQuestionIndex], List.getElem?_eq_getElem hidx⟩
    obtain ⟨q, hq⟩ := hq
    have hfd : forwardDisabled s = false := by simp [forwardDisabled, hcur, htime]
    constructor
    · intro hlt
      have hne : ¬ ((s.currentQuestionIndex : Int) = (s.questions.length : Int) - 1) := by omega
      have hgo : goToNextQuestion s =
          { s with isAnimating := true
                   timeouts := s.timeouts ++ [.setIndex (s.currentQuestionIndex + 1)] } := by
        simp [goToNextQuestion, hgate, currentQuestionBinding, hl, hs, hnull, hcur, hlt]
      refine ⟨?_, hgo, ?_⟩
      · simp [offered, hview, hq, hfd, hne]
      · rw [hgo]
        simp [fireTimeout, runTimeout]
    · intro heq
      refine ⟨?_, handleSubmit_isSome_iff p s hl hs hgate hcur⟩
      simp [offered, hview, hq, hfd, heq]

end SurveyEngine

namespace SurveyEngine

/-! ## Re-entrant submission -/

theorem handleSubmit_none_of_loading (p : SFProps) (s : SFState) (h : s.loading = true) :
    (handleSubmit p s).2 = none := by
  unfold handleSubmit
  by_cases hg : dwellGateActive s = true
  · simp [hg]
  · simp [hg, currentQuestionBinding, h]

theorem handleSubmit_state_of_some (p : SFProps) (s : SFState) (req : SubmitRequest)
    (h : (handleSubmit p s).2 = some req) : (handleSubmit p s).1 = { s with loading := true } := by
  by_cases hg : dwellGateActive s = true
  · simp [handleSubmit, hg] at h
  · cases hb : currentQuestionBinding s with
    | none => simp [handleSubmit, hg, hb] at h
    | some cq =>
      by_cases hn : s.answers = .prim .null
      · simp [handleSubmit, hg, hb, hn] at h
      · by_cases hu : unanswered (getProp s.answers (answerKey cq)) = true
        · simp [handleSubmit, hg, hb, hn, hu] at h
        · by_cases h25 : totalAnswered s.answers < 25
          · simp [handleSubmit, hg, hb, hn, hu, h25] at h
          · simp [handleSubmit, hg, hb, hn, hu, h25]

theorem view_of_loading (s : SFState) (h : s.loading = true) : view s = .loading := by
  simp [view, h]

theorem offered_false_of_not_form (s : SFState) (h : view s ≠ .form) (c : Control) :
    offered s c = false := by
  unfold offered
  split
  · rename_i hv _; exact absurd hv h
  · rfl

theorem fireTimeout_loading (p : SFProps) (s : SFState) (i : Nat) :
    (fireTimeout p s i).loading = s.loading := by
  unfold fireTimeout
  split
  · rfl
  · rename_i t _
    cases t <;> rfl

theorem tick_loading (s : SFState) : (tick s).loading = s.loading := by
  unfold tick
  split
  · split <;> rfl
  · rfl

theorem arrivalEffect_loading (p : SFProps) (s : SFState) :
    (arrivalEffect p s).loading = s.loading := by
  unfold arrivalEffect
  split <;> rfl

theorem localFallback_loading (p : SFProps) (s : SFState) :
    (localFallback p s).loading = s.loading := by
  unfold localFallback
  split <;> rfl

theorem statusCheck_loading (p : SFProps) (s : SFState) (o : StatusOutcome) :
    (statusCheck p s o).loading = s.loading := by
  unfold statusCheck
  split
  · rfl
  · cases o with
    | threw => exact localFallback_loading p s
    | notOk => exact localFallback_loading p s
    | ok d =>
      simp only
      split
      · rfl
      · rw [localFallback_loading]

/-- C3 (amended): in `SentimentForm`, a `handleSubmit` that transmits a payload sets
`loading`; in every state with `loading` set the render is the Loading view, no control is
offered and `handleSubmit` transmits nothing, and `loading` stays set under ticks,
timeouts, the arrival effect and the status check (it is reset by the end of the
submission, or of a catalog request). So a second submit issued right after the first
transmits nothing: exactly one payload is sent. `HRFeedback.handleSubmit` has no such
guard. -/
theorem submit_blocks_resubmit (p : SFProps) (s : SFState) (req : SubmitRequest)
    (h : (handleSubmit p s).2 = some req) :
    (handleSubmit p s).1.loading = true ∧
    (handleSubmit p (handleSubmit p s).1).2 = none ∧
    (∀ s' : SFState, s'.loading = true →
      view s' = .loading ∧ (∀ c, offered s' c = false) ∧ (handleSubmit p s').2 = none ∧
      (tick s').loading = true ∧ (∀ i, (fireTimeout p s' i).loading = true) ∧
      (arrivalEffect p s').loading = true ∧ (∀ o, (statusCheck p s' o).loading = true)) := by
  have hst := handleSubmit_state_of_some p s req h
  have hl : (handleSubmit p s).1.loading = true := by rw [hst]
  refine ⟨hl, handleSubmit_none_of_loading p _ hl, ?_⟩
  intro s' hs'
  refine ⟨view_of_loading s' hs', ?_, handleSubmit_none_of_loading p s' hs', ?_, ?_, ?_, ?_⟩
  · intro c
    exact offered_false_of_not_form s' (by rw [view_of_loading s' hs']; decide) c
  · rw [tick_loading, hs']
  · intro i; rw [fireTimeout_loading, hs']
  · rw [arrivalEffect_loading, hs']
  · intro o; rw [statusCheck_loading, hs']

/-- Witness of C3 (amended): the fully answered catalog of 25 questions is submitted; the
second submit transmits nothing. -/
theorem submit_blocks_resubmit_witness :
    (handleSubmit demoProps full25State).2 =
      some { employee_id := some "e1", form_id := 1,
             answers := buildPayload full25State.questions full25State.answers } ∧
    (handleSubmit demoProps full25State).1.loading = true ∧
    (handleSubmit demoProps (handleSubmit demoProps full25State).1).2 = none :=
  have h := submit_blocks_resubmit demoProps full25State
    { employee_id := some "e1", form_id := 1,
      answers := buildPayload full25State.questions full25State.answers } (by decide)
  ⟨by decide, h.1, h.2.1⟩

/-- C3 (counterexample): `HRFeedback.handleSubmit` on an answered form transmits the payload
and leaves the state as it was, with the submit button still offered; invoked again before
the first request has ended it transmits the payload a second time. -/
theorem hr_submit_twice_transmits_twice :
    HR.submitOffered hrAnsweredState = true ∧
    (HR.handleSubmit hrAnsweredState).2 =
      some (.submit [{ question_id := 1, option_id := none, response_text := some "ok" }]) ∧
    (HR.handleSubmit hrAnsweredState).1 = hrAnsweredState ∧
    HR.submitOffered (HR.handleSubmit hrAnsweredState).1 = true ∧
    (HR.handleSubmit (HR.handleSubmit hrAnsweredState).1).2 =
      some (.submit [{ question_id := 1, option_id := none, response_text := some "ok" }]) := by
  decide

end SurveyEngine

namespace SurveyEngine

/-! ## End of a submission -/

/-- C4: when the server acknowledges the submission with success, the continuation of
`handleSubmit` sets `hasSubmitted`, removes the answers, progress and visited entries of
the respondent from the store and sets the local submitted flag of (respondent, form id)
to `'true'`; every other entry of the store is left as it was. -/
theorem handleSubmitResolved_success (p : SFProps) (s : SFState) (message : Option String) :
    (handleSubmitResolved p s (.data true message)).hasSubmitted = true ∧
    getItem (handleSubmitResolved p s (.data true message)).store (storageKey p) = none ∧
    getItem (handleSubmitResolved p s (.data true message)).store (progressStorageKey p) = none ∧
    getItem (handleSubmitResolved p s (.data true message)).store (visitedStorageKey p) = none ∧
    getItem (handleSubmitResolved p s (.data true message)).store (submissionStorageKey p)
      = some "true" ∧
    (∀ k, k ≠ storageKey p → k ≠ progressStorageKey p → k ≠ visitedStorageKey p →
      k ≠ submissionStorageKey p →
      getItem (handleSubmitResolved p s (.data true message)).store k = getItem s.store k) := by
  obtain ⟨hap, hav, hpv, hsa, hsp, hsv⟩ := keys_distinct p
  simp only [handleSubmitResolved, getItem_removeItem, getItem_setItem]
  refine ⟨trivial, ?_, ?_, ?_, ?_, ?_⟩
  · simp [hav, hap]
  · simp [hpv]
  · simp
  · simp [hsa, hsp, hsv]
  · intro k h1 h2 h3 h4
    simp [h1, h2, h3, h4]

theorem handleSubmit_guards_of_some (p : SFProps) (s : SFState) (req : SubmitRequest)
    (h : (handleSubmit p s).2 = some req) :
    s.loading = false ∧ s.hasSubmitted = false ∧ dwellGateActive s = false ∧
    unanswered (getProp s.answers (answerKey s.questions[s.currentQuestionIndex]?)) = false := by
  by_cases hg : dwellGateActive s = true
  · simp [handleSubmit, hg] at h
  · cases hb : currentQuestionBinding s with
    | none => simp [handleSubmit, hg, hb] at h
    | some cq =>
      have hb' := hb
      unfold currentQuestionBinding at hb'
      split at hb'
      · simp at hb'
      · rename_i hls
        simp only [Option.some.injEq] at hb'
        subst hb'
        by_cases hn : s.answers = .prim .null
        · simp [handleSubmit, hg, hb, hn] at h
        · by_cases hu : unanswered
              (getProp s.answers (answerKey s.questions[s.currentQuestionIndex]?)) = true
          · simp [handleSubmit, hg, hb, hn, hu] at h
          · simp only [Bool.or_eq_true, not_or, Bool.not_eq_true] at hls
            exact ⟨hls.1, hls.2, by simpa using hg, by simpa using hu⟩

/-- C5: when a transmitted submission fails (the request throws, or the response has
`success` false), `hasSubmitted` stays false, the store (so the answers, progress and
visited entries and the local submitted flag) is unchanged, and a subsequent `handleSubmit`
transmits the same request body. -/
theorem handleSubmitResolved_failure (p : SFProps) (s : SFState) (req : SubmitRequest)
    (o : SubmitOutcome) (h : (handleSubmit p s).2 = some req)
    (ho : o = .threw ∨ ∃ message, o = .data false message) :
    (handleSubmitResolved p (handleSubmit p s).1 o).hasSubmitted = false ∧
    (handleSubmitResolved p (handleSubmit p s).1 o).store = s.store ∧
    (handleSubmitResolved p (handleSubmit p s).1 o).answers = s.answers ∧
    getItem (handleSubmitResolved p (handleSubmit p s).1 o).store (submissionStorageKey p)
      = getItem s.store (submissionStorageKey p) ∧
    (handleSubmit p (handleSubmitResolved p (handleSubmit p s).1 o)).2 = some req := by
  obtain ⟨hl, hs, hg, hu⟩ := handleSubmit_guards_of_some p s req h
  have hst := handleSubmit_state_of_some p s req h
  have hreq := handleSubmit_request p s hl hs hg hu
  rw [h] at hreq
  rw [hst]
  rcases ho with rfl | ⟨m, rfl⟩
  · refine ⟨hs, rfl, rfl, rfl, ?_⟩
    rw [hreq]
    exact handleSubmit_request p _ rfl hs (by simpa [dwellGateActive, hasVisited] using hg) hu
  · refine ⟨hs, rfl, rfl, rfl, ?_⟩
    rw [hreq]
    exact handleSubmit_request p _ rfl hs (by simpa [dwellGateActive, hasVisited] using hg) hu

/-- Witness of C5: the submission of the fully answered catalog of 25 questions throws;
the session is not sealed and the next submit sends the same request body. -/
theorem handleSubmitResolved_failure_witness :
    (handleSubmit demoProps full25State).2 =
      some { employee_id := some "e1", form_id := 1,
             answers := buildPayload full25State.questions full25State.answers } ∧
    (handleSubmitResolved demoProps (handleSubmit demoProps full25State).1 .threw).hasSubmitted
      = false ∧
    (handleSubmitResolved demoProps (handleSubmit demoProps full25State).1 .threw).store
      = full25State.store ∧
    (handleSubmit demoProps
      (handleSubmitResolved demoProps (handleSubmit demoProps full25State).1 .threw)).2 =
      some { employee_id := some "e1", form_id := 1,
             answers := buildPayload full25State.questions full25State.answers } :=
  have h := handleSubmitResolved_failure demoProps full25State
    { employee_id := some "e1", form_id := 1,
      answers := buildPayload full25State.questions full25State.answers } .threw
    (by decide) (Or.inl rfl)
  ⟨by decide, h.1, h.2.1, h.2.2.2.2⟩

end SurveyEngine

namespace SurveyEngine

/-! ## The status check -/

theorem localFallback_eq (p : SFProps) (s : SFState) :
    localFallback p s =
      { s with hasSubmitted :=
          s.hasSubmitted || decide (getItem s.store (submissionStorageKey p) = some "true") } := by
  unfold localFallback
  by_cases h : getItem s.store (submissionStorageKey p) = some "true"
  · simp [h]
  · simp [h]

/-- C6: outcome of the status check of `SentimentForm`, given a token. If the response is
OK, `hasSubmitted` equals `data && data.success && data.isFilled`, and the local submitted
flag is `'true'` when that holds and removed when it does not. If the request throws or the
response is not OK, the store is unchanged and `hasSubmitted` is true afterwards iff it was
true before or the local flag is `'true'`; from a state that is not submitted it becomes
true iff the local flag is `'true'`. In no case does `hasSubmitted` turn true without a
positive remote answer or that flag. -/
theorem statusCheck_outcome (p : SFProps) (s : SFState) (ht : truthyStr p.token = true) :
    (∀ d, (statusCheck p s (.ok d)).hasSubmitted = reportsFilled d ∧
      (reportsFilled d = true →
        getItem (statusCheck p s (.ok d)).store (submissionStorageKey p) = some "true") ∧
      (reportsFilled d = false →
        getItem (statusCheck p s (.ok d)).store (submissionStorageKey p) = none)) ∧
    (∀ o, o = .threw ∨ o = .notOk →
      (statusCheck p s o).store = s.store ∧
      (statusCheck p s o).hasSubmitted =
        (s.hasSubmitted || decide (getItem s.store (submissionStorageKey p) = some "true")) ∧
      (s.hasSubmitted = false →
        ((statusCheck p s o).hasSubmitted = true ↔
          getItem s.store (submissionStorageKey p) = some "true"))) ∧
    (∀ o, s.hasSubmitted = false → (statusCheck p s o).hasSubmitted = true →
      (∃ d, o = .ok d ∧ reportsFilled d = true) ∨
        getItem s.store (submissionStorageKey p) = some "true") := by
  have hfb : ∀ o, o = StatusOutcome.threw ∨ o = StatusOutcome.notOk →
      statusCheck p s o = localFallback p s := by
    intro o ho
    rcases ho with rfl | rfl <;> simp [statusCheck, ht]
  refine ⟨?_, ?_, ?_⟩
  · intro d
    cases hd : reportsFilled d with
    | true =>
      simp [statusCheck, ht, hd, getItem_setItem]
    | false =>
      simp [statusCheck, ht, hd, localFallback_eq, getItem_removeItem]
  · intro o ho
    rw [hfb o ho, localFallback_eq]
    refine ⟨rfl, rfl, ?_⟩
    intro hs
    simp [hs]
  · intro o hs hres
    cases o with
    | threw =>
      rw [hfb _ (Or.inl rfl), localFallback_eq] at hres
      right
      simpa [hs] using hres
    | notOk =>
      rw [hfb _ (Or.inr rfl), localFallback_eq] at hres
      right
      simpa [hs] using hres
    | ok d =>
      left
      refine ⟨d, rfl, ?_⟩
      cases hd : reportsFilled d with
      | true => rfl
      | false =>
        simp [statusCheck, ht, hd, localFallback_eq, getItem_removeItem] at hres

/-- Witness of C6: a signed-in employee with an empty store; a positive answer seals the
session and a failed request does not. -/
theorem statusCheck_outcome_witness :
    truthyStr demoProps.token = true ∧
    (statusCheck demoProps (SFState.init []) (.ok (some { success := true, isFilled := true }))
      ).hasSubmitted = true ∧
    (statusCheck demoProps (SFState.init []) .threw).hasSubmitted = false :=
  have h := statusCheck_outcome demoProps (SFState.init []) (by decide)
  ⟨by decide, (h.1 (some { success := true, isFilled := true })).1,
    by
      have h2 := (h.2.1 .threw (Or.inl rfl)).2.1
      rw [h2]
      decide⟩

end SurveyEngine

namespace SurveyEngine

/-! ## Remote completion at bootstrap -/

theorem view_of_hasSubmitted (s : SFState) (h : s.hasSubmitted = true) :
    view s = .loading ∨ view s = .alreadySubmitted := by
  by_cases hl : s.loading = true
  · left; simp [view, hl]
  · right; simp [view, hl, h]

theorem offered_false_of_hasSubmitted (s : SFState) (h : s.hasSubmitted = true) (c : Control) :
    offered s c = false := by
  apply offered_false_of_not_form
  rcases view_of_hasSubmitted s h with hv | hv <;> rw [hv] <;> decide

/-- C7 (amended): if the remote status reports the survey complete at bootstrap,
`hasSubmitted` becomes true and the local submitted flag is set, so the render is the
Loading view or the already-submitted view and offers no control of the question form.
The status check does not discard the local session: the answers, progress and visited
entries of the store stay as the mount left them. -/
theorem remote_complete_at_bootstrap (p : SFProps) (store : Store) (d : Option StatusData)
    (ht : truthyStr p.token = true) (hd : reportsFilled d = true) :
    (statusCheck p (mount p store) (.ok d)).hasSubmitted = true ∧
    getItem (statusCheck p (mount p store) (.ok d)).store (submissionStorageKey p) = some "true" ∧
    (view (statusCheck p (mount p store) (.ok d)) = .loading ∨
      view (statusCheck p (mount p store) (.ok d)) = .alreadySubmitted) ∧
    (∀ c, offered (statusCheck p (mount p store) (.ok d)) c = false) ∧
    getItem (statusCheck p (mount p store) (.ok d)).store (storageKey p)
      = getItem (mount p store).store (storageKey p) ∧
    getItem (statusCheck p (mount p store) (.ok d)).store (progressStorageKey p)
      = getItem (mount p store).store (progressStorageKey p) ∧
    getItem (statusCheck p (mount p store) (.ok d)).store (visitedStorageKey p)
      = getItem (mount p store).store (visitedStorageKey p) := by
  obtain ⟨_, _, _, hsa, hsp, hsv⟩ := keys_distinct p
  have hs : (statusCheck p (mount p store) (.ok d)).hasSubmitted = true := by
    simp [statusCheck, ht, hd]
  refine ⟨hs, ?_, view_of_hasSubmitted _ hs, offered_false_of_hasSubmitted _ hs, ?_, ?_, ?_⟩
  · simp [statusCheck, ht, hd, getItem_setItem]
  · simp [statusCheck, ht, hd, getItem_setItem, Ne.symm hsa]
  · simp [statusCheck, ht, hd, getItem_setItem, Ne.symm hsp]
  · simp [statusCheck, ht, hd, getItem_setItem, Ne.symm hsv]

/-- Witness of C7 (amended): a signed-in employee whose store holds saved answers. -/
theorem remote_complete_at_bootstrap_witness :
    truthyStr demoProps.token = true ∧
    reportsFilled (some { success := true, isFilled := true }) = true ∧
    (statusCheck demoProps (mount demoProps savedStore)
      (.ok (some { success := true, isFilled := true }))).hasSubmitted = true ∧
    (∀ c, offered (statusCheck demoProps (mount demoProps savedStore)
      (.ok (some { success := true, isFilled := true }))) c = false) :=
  have h := remote_complete_at_bootstrap demoProps savedStore
    (some { success := true, isFilled := true }) (by decide) (by decide)
  ⟨by decide, by decide, h.1, h.2.2.2.1⟩

/-- C7 (counterexample): the store holds saved answers and the remote status reports the
survey complete. After the mount and the status check the saved answers are in the
component state and the answers entry is still in the store. -/
theorem remote_complete_keeps_local_session :
    getItem savedStore (storageKey demoProps) = some (JSON.stringify (.obj [("1", .str "fine")])) ∧
    (statusCheck demoProps (mount demoProps savedStore)
      (.ok (some { success := true, isFilled := true }))).hasSubmitted = true ∧
    (statusCheck demoProps (mount demoProps savedStore)
      (.ok (some { success := true, isFilled := true }))).answers = .obj [("1", .str "fine")] ∧
    getItem (statusCheck demoProps (mount demoProps savedStore)
      (.ok (some { success := true, isFilled := true }))).store (storageKey demoProps)
      = some (JSON.stringify (.obj [("1", .str "fine")])) := by
  decide

/-! ## Bootstrap of HRFeedback -/

/-- C8: the `init` of `HRFeedback`, started from the initial state, ends in the
already-submitted view, without a catalog request and with the submit button not offered,
if and only if the status request returned an OK response whose `hasSubmitted` is truthy.
When the status request throws or returns a response that is not OK, `init` requests the
catalog and does not end in the already-submitted view. -/
theorem hr_init_already_iff (so : HR.StatusOutcome) (co : HR.CatalogOutcome) :
    ((HR.view (HR.init HR.State.init so co).1 = .alreadySubmitted ∧
      HR.Request.questions ∉ (HR.init HR.State.init so co).2 ∧
      HR.submitOffered (HR.init HR.State.init so co).1 = false) ↔ so = .ok true) ∧
    (so = .threw ∨ so = .notOk →
      HR.Request.questions ∈ (HR.init HR.State.init so co).2 ∧
      (HR.init HR.State.init so co).1.hasSubmitted = false ∧
      HR.view (HR.init HR.State.init so co).1 ≠ .alreadySubmitted) := by
  have hno : HR.already so = false →
      HR.Request.questions ∈ (HR.init HR.State.init so co).2 ∧
      (HR.init HR.State.init so co).1.hasSubmitted = false := by
    intro ha
    cases co <;> simp [HR.init, ha, HR.State.init]
  have hview : ∀ s : HR.State, s.hasSubmitted = false → HR.view s ≠ .alreadySubmitted := by
    intro s hs
    unfold HR.view
    split
    · decide
    · split
      · decide
      · simp [hs]
  constructor
  · constructor
    · rintro ⟨hv, hq, _⟩
      cases so with
      | threw => exact absurd (hno rfl).1 hq
      | notOk => exact absurd (hno rfl).1 hq
      | ok b =>
        cases b with
        | true => rfl
        | false => exact absurd (hno rfl).1 hq
    · rintro rfl
      simp [HR.init, HR.already, HR.State.init, HR.view, HR.submitOffered]
  · intro h
    have ha : HR.already so = false := by rcases h with rfl | rfl <;> rfl
    exact ⟨(hno ha).1, (hno ha).2, hview _ (hno ha).2⟩

end SurveyEngine

namespace SurveyEngine

/-! ## The sealed session -/

theorem rejectDwell_hasSubmitted (s : SFState) (t : String) :
    (rejectDwell s t).hasSubmitted = s.hasSubmitted := rfl

theorem goToNextQuestion_hasSubmitted (s : SFState) :
    (goToNextQuestion s).hasSubmitted = s.hasSubmitted := by
  unfold goToNextQuestion
  split
  · rfl
  · split
    · rfl
    · split
      · rfl
      · split
        · rfl
        · split <;> rfl

theorem goToPreviousQuestion_hasSubmitted (s : SFState) :
    (goToPreviousQuestion s).hasSubmitted = s.hasSubmitted := by
  unfold goToPreviousQuestion
  split <;> rfl

theorem goToQuestion_hasSubmitted (s : SFState) (i : Int) :
    (goToQuestion s i).hasSubmitted = s.hasSubmitted := by
  unfold goToQuestion
  split
  · rfl
  · split <;> rfl

theorem handleSubmit_hasSubmitted (p : SFProps) (s : SFState) :
    (handleSubmit p s).1.hasSubmitted = s.hasSubmitted := by
  unfold handleSubmit
  split
  · rfl
  · split
    · rfl
    · split
      · rfl
      · split
        · rfl
        · split <;> rfl

theorem fireTimeout_hasSubmitted (p : SFProps) (s : SFState) (i : Nat) :
    (fireTimeout p s i).hasSubmitted = s.hasSubmitted := by
  unfold fireTimeout
  split
  · rfl
  · rename_i t _
    cases t <;> rfl

theorem tick_hasSubmitted (s : SFState) : (tick s).hasSubmitted = s.hasSubmitted := by
  unfold tick
  split
  · split <;> rfl
  · rfl

theorem arrivalEffect_hasSubmitted (p : SFProps) (s : SFState) :
    (arrivalEffect p s).hasSubmitted = s.hasSubmitted := by
  unfold arrivalEffect
  split <;> rfl

theorem catalogFetchStart_hasSubmitted (p : SFProps) (s : SFState) :
    (catalogFetchStart p s).hasSubmitted = s.hasSubmitted := by
  unfold catalogFetchStart
  split <;> rfl

theorem catalogFetchResolved_hasSubmitted (s : SFState) (o : CatalogOutcome) :
    (catalogFetchResolved s o).hasSubmitted = s.hasSubmitted := by
  unfold catalogFetchResolved
  split <;> rfl

theorem handleSubmitResolved_hasSubmitted (p : SFProps) (s : SFState) (o : SubmitOutcome)
    (h : s.hasSubmitted = true) : (handleSubmitResolved p s o).hasSubmitted = true := by
  unfold handleSubmitResolved
  split
  · rfl
  · exact h
  · exact h

theorem loadSaved_hasSubmitted (p : SFProps) (s : SFState) :
    (loadSaved p s).hasSubmitted = s.hasSubmitted := by
  have h1 : ∀ a t, (loadAnswers p a t).hasSubmitted = t.hasSubmitted := by
    intro a t; unfold loadAnswers; split
    · split <;> rfl
    · rfl
  have h2 : ∀ a t, (loadProgress a t).hasSubmitted = t.hasSubmitted := by
    intro a t; unfold loadProgress; split
    · split
      · split <;> rfl
      · rfl
    · rfl
  have h3 : ∀ a t, (loadVisited p a t).hasSubmitted = t.hasSubmitted := by
    intro a t; unfold loadVisited; split
    · split <;> rfl
    · rfl
  simp only [loadSaved, h1, h2, h3]

theorem statusCheck_unseals_iff (p : SFProps) (s : SFState) (o : StatusOutcome)
    (h : s.hasSubmitted = true) :
    (statusCheck p s o).hasSubmitted = false ↔
      (truthyStr p.token = true ∧ ∃ d, o = .ok d ∧ reportsFilled d = false) := by
  by_cases ht : truthyStr p.token = true
  · cases o with
    | threw => simp [statusCheck, ht, localFallback_eq, h]
    | notOk => simp [statusCheck, ht, localFallback_eq, h]
    | ok d =>
      cases hd : reportsFilled d with
      | true => simp [statusCheck, ht, hd]
      | false => simp [statusCheck, ht, hd, localFallback_eq, getItem_removeItem]
  · simp [statusCheck, ht, h]

/-- C9 (amended): in `SentimentForm`, once `hasSubmitted` is true it stays true under every
handler, timeout, tick, effect and continuation except one: a status check (with a token)
whose OK response does not report the form as filled sets it back to false, and only that
does. While `hasSubmitted` is true the render is the Loading view or the already-submitted
view and offers no control, so `handleChange`, `goToNextQuestion`, `goToPreviousQuestion`
and `goToQuestion` cannot be invoked from the interface; the handlers themselves do not
test `hasSubmitted`. -/
theorem sealed_stays_sealed (p : SFProps) (s : SFState) (h : s.hasSubmitted = true) :
    ((∀ qid value, (handleChange p s qid value).hasSubmitted = true) ∧
      (goToNextQuestion s).hasSubmitted = true ∧
      (goToPreviousQuestion s).hasSubmitted = true ∧
      (∀ i, (goToQuestion s i).hasSubmitted = true) ∧
      (handleSubmit p s).1.hasSubmitted = true ∧
      (∀ o, (handleSubmitResolved p s o).hasSubmitted = true) ∧
      (∀ i, (fireTimeout p s i).hasSubmitted = true) ∧
      (tick s).hasSubmitted = true ∧
      (arrivalEffect p s).hasSubmitted = true ∧
      (loadSaved p s).hasSubmitted = true ∧
      (catalogFetchStart p s).hasSubmitted = true ∧
      (∀ o, (catalogFetchResolved s o).hasSubmitted = true)) ∧
    (∀ o, (statusCheck p s o).hasSubmitted = false ↔
      (truthyStr p.token = true ∧ ∃ d, o = .ok d ∧ reportsFilled d = false)) ∧
    (view s = .loading ∨ view s = .alreadySubmitted) ∧
    (∀ c, offered s c = false) := by
  refine ⟨⟨?_, ?_, ?_, ?_, ?_, ?_, ?_, ?_, ?_, ?_, ?_, ?_⟩, ?_, view_of_hasSubmitted s h,
    offered_false_of_hasSubmitted s h⟩
  · intro qid value; exact h
  · rw [goToNextQuestion_hasSubmitted, h]
  · rw [goToPreviousQuestion_hasSubmitted, h]
  · intro i; rw [goToQuestion_hasSubmitted, h]
  · rw [handleSubmit_hasSubmitted, h]
  · intro o; exact handleSubmitResolved_hasSubmitted p s o h
  · intro i; rw [fireTimeout_hasSubmitted, h]
  · rw [tick_hasSubmitted, h]
  · rw [arrivalEffect_hasSubmitted, h]
  · rw [loadSaved_hasSubmitted, h]
  · rw [catalogFetchStart_hasSubmitted, h]
  · intro o; rw [catalogFetchResolved_hasSubmitted, h]
  · intro o; exact statusCheck_unseals_iff p s o h

/-- Witness of C9 (amended): the sealed one-question session. -/
theorem sealed_stays_sealed_witness :
    sealedState.hasSubmitted = true ∧
    view sealedState = .alreadySubmitted ∧
    (∀ c, offered sealedState c = false) ∧
    (goToNextQuestion sealedState).hasSubmitted = true ∧
    (statusCheck demoProps sealedState .threw).hasSubmitted ≠ false :=
  have h := sealed_stays_sealed demoProps sealedState (by decide)
  ⟨by decide, by decide, h.2.2.2, h.1.2.1,
    fun hf => by
      obtain ⟨_, d, hd, _⟩ := (h.2.1 .threw).mp hf
      exact StatusOutcome.noConfusion hd⟩

/-- C9 (counterexample): in a sealed session (`hasSubmitted` true) a status check whose OK
response reports the form as not filled sets `hasSubmitted` back to false; `handleChange`
replaces the answer and rewrites the answers entry of the store; `goToPreviousQuestion`
moves the index from 1 to 0 and writes the progress entry. -/
theorem sealed_session_is_mutable :
    sealedState.hasSubmitted = true ∧
    (statusCheck demoProps sealedState (.ok (some { success := true, isFilled := false }))
      ).hasSubmitted = false ∧
    sealedState.answers = .obj [("1", .str "fine")] ∧
    (handleChange demoProps sealedState 1 (.str "changed")).answers
      = .obj [("1", .str "changed")] ∧
    getItem sealedState.store (storageKey demoProps) = none ∧
    getItem (handleChange demoProps sealedState 1 (.str "changed")).store (storageKey demoProps)
      = some (JSON.stringify (.obj [("1", .str "changed")])) ∧
    sealedMiddleState.hasSubmitted = true ∧
    sealedMiddleState.currentQuestionIndex = 1 ∧
    (fireTimeout demoProps (goToPreviousQuestion sealedMiddleState) 0).currentQuestionIndex = 0 ∧
    getItem (fireTimeout demoProps (goToPreviousQuestion sealedMiddleState) 0).store
      (progressStorageKey demoProps) = some "0" := by
  decide

end SurveyEngine

namespace SurveyEngine

/-! ## The persisted session follows the state -/

theorem setProp_keys {α : Type} (kvs : List (String × α)) (k : String) (v : α) :
    (setProp kvs k v).map Prod.fst =
      if k ∈ kvs.map Prod.fst then kvs.map Prod.fst else kvs.map Prod.fst ++ [k] := by
  induction kvs with
  | nil => simp [setProp]
  | cons kv rest ih =>
    obtain ⟨k', v'⟩ := kv
    by_cases hk : k' = k
    · subst hk
      simp [setProp]
    · have hk' : ¬ k = k' := fun e => hk e.symm
      simp only [setProp, hk, if_false, List.map_cons, ih, List.mem_cons, hk', false_or]
      split <;> simp

theorem setProp_keys_nodup {α : Type} (kvs : List (String × α)) (k : String) (v : α)
    (h : (kvs.map Prod.fst).Nodup) : ((setProp kvs k v).map Prod.fst).Nodup := by
  rw [setProp_keys]
  split
  · exact h
  · rename_i hk
    exact List.Nodup.append h (by simp) (by simpa using hk)

theorem foldl_setProp_keys_nodup {α : Type} (l : List (String × α)) :
    ∀ acc : List (String × α), (acc.map Prod.fst).Nodup →
      ((l.foldl (fun o kv => setProp o kv.1 kv.2) acc).map Prod.fst).Nodup := by
  induction l with
  | nil => intro acc h; simpa using h
  | cons kv rest ih =>
    intro acc h
    simp only [List.foldl_cons]
    exact ih _ (setProp_keys_nodup acc kv.1 kv.2 h)

theorem parseDocument_uniqueKeys (cs : List Char) (v : JsVal) (r : List Char)
    (h : parseDocument cs = some (v, r)) : UniqueKeys v := by
  unfold parseDocument at h
  split at h
  · simp at h
  · split at h
    · split at h
      · simp at h
      · split at h
        · simp only [Option.some.injEq, Prod.mk.injEq] at h
          rw [← h.1]; trivial
        · simp only [Option.map_eq_some'] at h
          obtain ⟨a, _, ha⟩ := h
          simp only [Prod.mk.injEq] at ha
          rw [← ha.1]; trivial
    · split at h
      · split at h
        · simp at h
        · split at h
          · simp only [Option.some.injEq, Prod.mk.injEq] at h
            rw [← h.1]; simp [UniqueKeys]
          · simp only [Option.map_eq_some'] at h
            obtain ⟨a, _, ha⟩ := h
            simp only [Prod.mk.injEq] at ha
            rw [← ha.1]
            exact foldl_setProp_keys_nodup a.1 [] (by simp)
      · simp only [Option.map_eq_some'] at h
        obtain ⟨a, _, ha⟩ := h
        simp only [Prod.mk.injEq] at ha
        rw [← ha.1]; trivial

theorem parse_uniqueKeys (t : String) (v : JsVal) (h : JSON.parse t = some v) :
    UniqueKeys v := by
  unfold JSON.parse at h
  split at h
  · simp at h
  · rename_i v' rest hd
    split at h
    · simp only [Option.some.injEq] at h
      subst h
      exact parseDocument_uniqueKeys _ _ _ hd
    · simp at h

theorem setAdd_nodup (xs : List JsPrim) (x : JsPrim) (h : xs.Nodup) : (setAdd xs x).Nodup := by
  unfold setAdd
  split
  · exact h
  · rename_i hx
    exact List.Nodup.append h (by simp) (by simpa using hx)

theorem foldl_setAdd_nodup (l : List JsPrim) :
    ∀ acc : List JsPrim, acc.Nodup → (l.foldl setAdd acc).Nodup := by
  induction l with
  | nil => intro acc h; simpa using h
  | cons x rest ih =>
    intro acc h
    simp only [List.foldl_cons]
    exact ih _ (setAdd_nodup acc x h)

theorem foldl_setAdd_of_nodup (l : List JsPrim) :
    ∀ acc : List JsPrim, (acc ++ l).Nodup → l.foldl setAdd acc = acc ++ l := by
  induction l with
  | nil => intro acc _; simp
  | cons x rest ih =>
    intro acc h
    have hx : x ∉ acc := by
      have := (List.nodup_append.mp h).2.2
      intro hm
      exact this hm (by simp)
    simp only [List.foldl_cons, setAdd, hx, if_false]
    rw [ih (acc ++ [x]) (by simpa using h)]
    simp

theorem newSet_nodup (v : JsVal) (xs : List JsPrim) (h : newSet v = some xs) : xs.Nodup := by
  cases v with
  | prim q =>
    cases q with
    | null => simp [newSet] at h; subst h; simp
    | bool b => simp [newSet] at h
    | num n => simp [newSet] at h
    | str t =>
      simp only [newSet, Option.some.injEq] at h
      subst h
      exact foldl_setAdd_nodup _ [] (by simp)
  | arr ys =>
    simp only [newSet, Option.some.injEq] at h
    subst h
    exact foldl_setAdd_nodup _ [] (by simp)
  | obj kvs => simp [newSet] at h

theorem decodeAnswers_uniqueKeys (saved : Option String) : UniqueKeys (decodeAnswers saved) := by
  unfold decodeAnswers
  split
  · cases h : JSON.parse (saved.getD "") with
    | none => simp [UniqueKeys]
    | some v => exact parse_uniqueKeys _ v h
  · simp [UniqueKeys]

theorem decodeVisited_nodup (saved : Option String) : (decodeVisited saved).Nodup := by
  unfold decodeVisited
  split
  · cases h : (JSON.parse (saved.getD "")).bind newSet with
    | none => simp
    | some xs =>
      obtain ⟨v, _, hv⟩ := Option.bind_eq_some.mp h
      exact newSet_nodup v xs hv
  · simp

theorem loadAnswers_eq (p : SFProps) (sa : Option String) (t : SFState) :
    loadAnswers p sa t =
      { t with
        answers := if truthyStr sa then (JSON.parse (sa.getD "")).getD t.answers else t.answers
        store := if truthyStr sa = true ∧ JSON.parse (sa.getD "") = none
          then removeItem t.store (storageKey p) else t.store } := by
  unfold loadAnswers
  by_cases h : truthyStr sa = true
  · cases hp : JSON.parse (sa.getD "") <;> simp [h, hp]
  · simp [h]

theorem loadProgress_eq (sp : Option String) (t : SFState) :
    loadProgress sp t =
      { t with currentQuestionIndex :=
          if truthyStr sp then
            match parseInt (sp.getD "") with
            | some progress => if progress ≥ 0 then progress.toNat else t.currentQuestionIndex
            | none => t.currentQuestionIndex
          else t.currentQuestionIndex } := by
  unfold loadProgress
  by_cases h : truthyStr sp = true
  · cases hp : parseInt (sp.getD "") with
    | none => simp [h, hp]
    | some n =>
      by_cases hn : n ≥ 0 <;> simp [h, hp, hn]
  · simp [h]

theorem loadVisited_eq (p : SFProps) (sv : Option String) (t : SFState) :
    loadVisited p sv t =
      { t with
        visitedQuestions := if truthyStr sv
          then ((JSON.parse (sv.getD "")).bind newSet).getD t.visitedQuestions
          else t.visitedQuestions
        store := if truthyStr sv = true ∧ (JSON.parse (sv.getD "")).bind newSet = none
          then removeItem t.store (visitedStorageKey p) else t.store } := by
  unfold loadVisited
  by_cases h : truthyStr sv = true
  · cases hp : (JSON.parse (sv.getD "")).bind newSet <;> simp [h, hp]
  · simp [h]

theorem loadSaved_init_fields (p : SFProps) (st : Store) :
    (loadSaved p (SFState.init st)).answers = decodeAnswers (getItem st (storageKey p)) ∧
    (loadSaved p (SFState.init st)).currentQuestionIndex
      = decodeProgress (getItem st (progressStorageKey p)) ∧
    (loadSaved p (SFState.init st)).visitedQuestions
      = decodeVisited (getItem st (visitedStorageKey p)) := by
  simp only [loadSaved, loadVisited_eq, loadProgress_eq, loadAnswers_eq, SFState.init,
    decodeAnswers, decodeProgress, decodeVisited]
  exact ⟨trivial, trivial, trivial⟩

theorem loadSaved_store (p : SFProps) (t : SFState) :
    getItem (loadSaved p t).store (storageKey p) =
      (if truthyStr (getItem t.store (storageKey p)) = true ∧
          JSON.parse ((getItem t.store (storageKey p)).getD "") = none
        then none else getItem t.store (storageKey p)) ∧
    getItem (loadSaved p t).store (progressStorageKey p) = getItem t.store (progressStorageKey p) ∧
    getItem (loadSaved p t).store (visitedStorageKey p) =
      (if truthyStr (getItem t.store (visitedStorageKey p)) = true ∧
          (JSON.parse ((getItem t.store (visitedStorageKey p)).getD "")).bind newSet = none
        then none else getItem t.store (visitedStorageKey p)) := by
  obtain ⟨hap, hav, hpv, _, _, _⟩ := keys_distinct p
  simp only [loadSaved, loadVisited_eq, loadProgress_eq, loadAnswers_eq]
  refine ⟨?_, ?_, ?_⟩
  · split <;> split <;> simp [getItem_removeItem, hav, hap, *]
  · split <;> split <;> simp [getItem_removeItem, hpv, Ne.symm hap, *]
  · split <;> split <;> simp [getItem_removeItem, Ne.symm hav, *]

theorem decodeAnswers_idem (a : Option String) :
    decodeAnswers (if truthyStr a = true ∧ JSON.parse (a.getD "") = none then none else a)
      = decodeAnswers a := by
  split
  · rename_i h
    simp [decodeAnswers, h.1, h.2, truthyStr]
  · rfl

theorem decodeVisited_idem (a : Option String) :
    decodeVisited (if truthyStr a = true ∧ (JSON.parse (a.getD "")).bind newSet = none
      then none else a) = decodeVisited a := by
  split
  · rename_i h
    simp [decodeVisited, h.1, h.2, truthyStr]
  · rfl

theorem inSync_loadSaved_init (p : SFProps) (st : Store) :
    InSync p (loadSaved p (SFState.init st)) := by
  obtain ⟨ha, hp, hv⟩ := loadSaved_init_fields p st
  obtain ⟨sa, sp, sv⟩ := loadSaved_store p (SFState.init st)
  refine ⟨?_, ?_, ?_, ?_, ?_⟩
  · rw [ha]; exact decodeAnswers_uniqueKeys _
  · rw [hv]; exact decodeVisited_nodup _
  · rw [sa, ha]; exact decodeAnswers_idem _
  · rw [sp, hp]; rfl
  · rw [sv, hv]; exact decodeVisited_idem _

theorem inSync_of_same (p : SFProps) (s t : SFState)
    (ha : t.answers = s.answers) (hi : t.currentQuestionIndex = s.currentQuestionIndex)
    (hv : t.visitedQuestions = s.visitedQuestions)
    (hA : getItem t.store (storageKey p) = getItem s.store (storageKey p))
    (hP : getItem t.store (progressStorageKey p) = getItem s.store (progressStorageKey p))
    (hV : getItem t.store (visitedStorageKey p) = getItem s.store (visitedStorageKey p))
    (h : InSync p s) : InSync p t := by
  unfold InSync at h ⊢
  rw [ha, hi, hv, hA, hP, hV]
  exact h

theorem ownProps_keys_nodup (v : JsVal) (h : UniqueKeys v) :
    ((ownProps v).map Prod.fst).Nodup := by
  cases v with
  | obj kvs => exact h
  | arr xs =>
    simp only [ownProps, List.map_map]
    have : (xs.enum.map ((Prod.fst : String × JsPrim → String) ∘
        fun ix : Nat × JsPrim => (natToString ix.1, ix.2)))
        = (List.range xs.length).map natToString := by
      rw [← List.enum_map_fst xs, List.map_map]
      rfl
    rw [this]
    exact (List.nodup_range _).map natToString_injective
  | prim q =>
    cases q with
    | str t =>
      simp only [ownProps, List.map_map]
      have : (t.data.enum.map ((Prod.fst : String × JsPrim → String) ∘
          fun ic : Nat × Char => (natToString ic.1, JsPrim.str (String.mk [ic.2]))))
          = (List.range t.data.length).map natToString := by
        rw [← List.enum_map_fst t.data, List.map_map]
        rfl
      rw [this]
      exact (List.nodup_range _).map natToString_injective
    | null => simp [ownProps]
    | bool b => simp [ownProps]
    | num n => simp [ownProps]

theorem decodeAnswers_stringify (v : JsVal) (h : UniqueKeys v) :
    decodeAnswers (some (JSON.stringify v)) = v := by
  simp [decodeAnswers, stringify_truthy, parse_stringify v h]

theorem natToString_truthy (n : Nat) : truthyStr (some (natToString n)) = true := by
  have : (natToString n).data ≠ [] := decDigits_ne_nil n n
  simp only [truthyStr, bne_iff_ne, ne_eq]
  intro he
  apply this
  rw [he]

theorem decodeProgress_natToString (n : Nat) : decodeProgress (some (natToString n)) = n := by
  simp [decodeProgress, natToString_truthy, parseInt_natToString]

theorem decodeVisited_stringify (xs : List JsPrim) (h : xs.Nodup) :
    decodeVisited (some (JSON.stringify (.arr xs))) = xs := by
  have hp := parse_stringify (.arr xs) trivial
  have hf := foldl_setAdd_of_nodup xs [] (by simpa using h)
  simp [decodeVisited, stringify_truthy, hp, newSet, hf]

theorem inSync_handleChange (p : SFProps) (s : SFState) (qid : Int) (value : JsPrim)
    (h : InSync p s) : InSync p (handleChange p s qid value) := by
  obtain ⟨hap, hav, hpv, _, _, _⟩ := keys_distinct p
  obtain ⟨hu, hn, _, hP, hV⟩ := h
  have hu' : UniqueKeys (.obj (setProp (ownProps s.answers) (numToString qid) value)) :=
    setProp_keys_nodup _ _ _ (ownProps_keys_nodup s.answers hu)
  refine ⟨hu', hn, ?_, ?_, ?_⟩
  · simp only [handleChange, getItem_setItem, if_true]
    exact decodeAnswers_stringify _ hu'
  · simp only [handleChange, getItem_setItem, Ne.symm hap, if_false]
    exact hP
  · simp only [handleChange, getItem_setItem, Ne.symm hav, if_false]
    exact hV

theorem inSync_runTimeout (p : SFProps) (s : SFState) (t : Timeout) (h : InSync p s) :
    InSync p (runTimeout p s t) := by
  obtain ⟨hap, hav, hpv, _, _, _⟩ := keys_distinct p
  cases t with
  | clearTimeError => exact h
  | clearMsg => exact h
  | successMsg => exact h
  | setIndex n =>
    obtain ⟨hu, hn, hA, _, hV⟩ := h
    refine ⟨hu, hn, ?_, ?_, ?_⟩
    · simp only [runTimeout, getItem_setItem, hap, if_false]
      exact hA
    · simp only [runTimeout, getItem_setItem, if_true]
      exact decodeProgress_natToString n
    · simp only [runTimeout, getItem_setItem, Ne.symm hpv, if_false]
      exact hV

theorem inSync_fireTimeout (p : SFProps) (s : SFState) (i : Nat) (h : InSync p s) :
    InSync p (fireTimeout p s i) := by
  unfold fireTimeout
  split
  · exact h
  · exact inSync_runTimeout p _ _ h

theorem inSync_arrivalEffect (p : SFProps) (s : SFState) (h : InSync p s) :
    InSync p (arrivalEffect p s) := by
  obtain ⟨hap, hav, hpv, _, _, _⟩ := keys_distinct p
  cases hvis : hasVisited s with
  | true =>
    rw [arrivalEffect_visited p s hvis]
    exact h
  | false =>
    rw [arrivalEffect_unvisited p s hvis]
    obtain ⟨hu, hn, hA, hP, _⟩ := h
    have hm : JsPrim.num (s.currentQuestionIndex : Int) ∉ s.visitedQuestions := by
      simpa [hasVisited] using hvis
    have hn' : (s.visitedQuestions ++ [JsPrim.num (s.currentQuestionIndex : Int)]).Nodup :=
      List.Nodup.append hn (by simp) (by simpa using hm)
    refine ⟨hu, hn', ?_, ?_, ?_⟩
    · simp only [getItem_setItem, hav, if_false]
      exact hA
    · simp only [getItem_setItem, hpv, if_false]
      exact hP
    · simp only [getItem_setItem, if_true]
      exact decodeVisited_stringify _ hn'

theorem inSync_goToNextQuestion (p : SFProps) (s : SFState) (h : InSync p s) :
    InSync p (goToNextQuestion s) := by
  unfold goToNextQuestion
  split
  · exact h
  · split
    · exact h
    · split
      · exact h
      · split
        · exact h
        · split
          · exact h
          · exact h

theorem inSync_goToPreviousQuestion (p : SFProps) (s : SFState) (h : InSync p s) :
    InSync p (goToPreviousQuestion s) := by
  unfold goToPreviousQuestion
  split <;> exact h

theorem inSync_goToQuestion (p : SFProps) (s : SFState) (index : Int) (h : InSync p s) :
    InSync p (goToQuestion s index) := by
  unfold goToQuestion
  split
  · exact h
  · split <;> exact h

theorem inSync_tick (p : SFProps) (s : SFState) (h : InSync p s) : InSync p (tick s) := by
  unfold tick
  split
  · split <;> exact h
  · exact h

theorem inSync_catalogFetchResolved (p : SFProps) (s : SFState) (o : CatalogOutcome)
    (h : InSync p s) : InSync p (catalogFetchResolved s o) := by
  unfold catalogFetchResolved
  split <;> exact h

theorem inSync_catalogFetchStart (p : SFProps) (s : SFState) (h : InSync p s) :
    InSync p (catalogFetchStart p s) := by
  unfold catalogFetchStart
  split <;> exact h

theorem inSync_handleSubmit (p : SFProps) (s : SFState) (h : InSync p s) :
    InSync p (handleSubmit p s).1 := by
  unfold handleSubmit
  split
  · exact h
  · split
    · exact h
    · split
      · exact h
      · split
        · exact h
        · split
          · exact h
          · exact h

theorem inSync_localFallback (p : SFProps) (s : SFState) (h : InSync p s) :
    InSync p (localFallback p s) := by
  unfold localFallback
  split <;> exact h

theorem inSync_statusCheck (p : SFProps) (s : SFState) (o : StatusOutcome) (h : InSync p s) :
    InSync p (statusCheck p s o) := by
  obtain ⟨_, _, _, hsa, hsp, hsv⟩ := keys_distinct p
  unfold statusCheck
  split
  · exact h
  · cases o with
    | threw => exact inSync_localFallback p s h
    | notOk => exact inSync_localFallback p s h
    | ok d =>
      simp only
      split
      · refine inSync_of_same p s _ rfl rfl rfl ?_ ?_ ?_ h
        · simp [getItem_setItem, Ne.symm hsa]
        · simp [getItem_setItem, Ne.symm hsp]
        · simp [getItem_setItem, Ne.symm hsv]
      · apply inSync_localFallback
        refine inSync_of_same p s _ rfl rfl rfl ?_ ?_ ?_ h
        · simp [getItem_removeItem, Ne.symm hsa]
        · simp [getItem_removeItem, Ne.symm hsp]
        · simp [getItem_removeItem, Ne.symm hsv]

theorem inSync_mount (p : SFProps) (st : Store) : InSync p (mount p st) := by
  have h0 := inSync_loadSaved_init p st
  have h1 : InSync p { loadSaved p (SFState.init st) with
      timeRemaining := 0, showTimeError := false, countdownRunning := false } := h0
  have h2 := inSync_catalogFetchStart p _ h1
  unfold mount
  simp only
  split
  · exact h2
  · exact inSync_arrivalEffect p _ h2

theorem inSync_step (p : SFProps) (s t : SFState) (hs : SessionStep p s t) (h : InSync p s) :
    InSync p t := by
  cases hs with
  | change qid value => exact inSync_handleChange p s qid value h
  | next => exact inSync_goToNextQuestion p s h
  | previous => exact inSync_goToPreviousQuestion p s h
  | jump index => exact inSync_goToQuestion p s index h
  | timeout i => exact inSync_fireTimeout p s i h
  | arrival => exact inSync_arrivalEffect p s h
  | tick => exact inSync_tick p s h
  | catalog o => exact inSync_catalogFetchResolved p s o h
  | status o => exact inSync_statusCheck p s o h
  | submit => exact inSync_handleSubmit p s h

theorem inSync_of_reach (p : SFProps) (st : Store) (s : SFState) (h : SessionReach p st s) :
    InSync p s := by
  induction h with
  | mount => exact inSync_mount p st
  | step s t _ hst ih => exact inSync_step p s t hst ih

/-- C10: round trip through the store. For a session mounted over any store and run by any
sequence of `handleChange`, navigation handlers, timeouts, arrival effects, ticks, submit
attempts and ends of the catalog and status requests, the load part of the bootstrap
effect, run on a fresh component over the current store, reproduces the `answers`, the
`currentQuestionIndex` and the `visitedQuestions` of the state. -/
theorem reload_reproduces_session (p : SFProps) (store : Store) (s : SFState)
    (h : SessionReach p store s) :
    (loadSaved p (SFState.init s.store)).answers = s.answers ∧
    (loadSaved p (SFState.init s.store)).currentQuestionIndex = s.currentQuestionIndex ∧
    (loadSaved p (SFState.init s.store)).visitedQuestions = s.visitedQuestions := by
  obtain ⟨_, _, hA, hP, hV⟩ := inSync_of_reach p store s h
  obtain ⟨ha, hp, hv⟩ := loadSaved_init_fields p s.store
  exact ⟨ha.trans hA, hp.trans hP, hv.trans hV⟩

/-- Witness of C10: on a fresh store the respondent answers only the first question; after
a reload the index is 0, the first answer is present and the visited set is {0}. After the
move to the second question and its arrival effect, a reload gives index 1 and visited
{0, 1}. -/
theorem reload_reproduces_session_witness :
    SessionReach demoProps [] firstAnsweredState ∧
    (loadSaved demoProps (SFState.init firstAnsweredState.store)).currentQuestionIndex = 0 ∧
    getProp (loadSaved demoProps (SFState.init firstAnsweredState.store)).answers "1"
      = some (.str "a") ∧
    (loadSaved demoProps (SFState.init firstAnsweredState.store)).visitedQuestions = [.num 0] ∧
    SessionReach demoProps [] secondArrivedState ∧
    (loadSaved demoProps (SFState.init secondArrivedState.store)).currentQuestionIndex = 1 ∧
    (loadSaved demoProps (SFState.init secondArrivedState.store)).visitedQuestions
      = [.num 0, .num 1] :=
  have r1 : SessionReach demoProps [] firstAnsweredState :=
    .step _ _ (.step _ _ .mount (.catalog _ _)) (.change _ _ _)
  have r2 : SessionReach demoProps [] secondArrivedState :=
    .step _ _ (.step _ _ (.step _ _ r1 (.next _)) (.timeout _ 0)) (.arrival _)
  have h1 := reload_reproduces_session demoProps [] firstAnsweredState r1
  have h2 := reload_reproduces_session demoProps [] secondArrivedState r2
  ⟨r1, h1.2.1.trans (by decide), by rw [h1.1]; decide, h1.2.2.trans (by decide),
    r2, h2.2.1.trans (by decide), h2.2.2.trans (by decide)⟩

end SurveyEngine
namespace SurveyEngine

/-! ## Navigation handlers -/

theorem fireTimeout_last (p : SFProps) (s : SFState) (ts : List Timeout) (t : Timeout)
    (h : s.timeouts = ts ++ [t]) :
    fireTimeout p s ts.length = runTimeout p { s with timeouts := ts } t := by
  unfold fireTimeout
  have h1 : s.timeouts[ts.length]? = some t := by rw [h]; simp
  have h2 : s.timeouts.eraseIdx ts.length = ts := by
    rw [h, List.eraseIdx_append_of_length_le (Nat.le_refl _)]
    simp
  simp only [h1, h2]

theorem fireTimeout_setIndex (p : SFProps) (s : SFState) (ts : List Timeout) (n : Nat)
    (h : s.timeouts = ts ++ [.setIndex n]) :
    (fireTimeout p s ts.length).currentQuestionIndex = n ∧
    getItem (fireTimeout p s ts.length).store (progressStorageKey p) = some (natToString n) ∧
    (∀ k, k ≠ progressStorageKey p →
      getItem (fireTimeout p s ts.length).store k = getItem s.store k) ∧
    (fireTimeout p s ts.length).answers = s.answers ∧
    (fireTimeout p s ts.length).visitedQuestions = s.visitedQuestions ∧
    (fireTimeout p s ts.length).timeouts = ts := by
  rw [fireTimeout_last p s ts _ h]
  refine ⟨rfl, ?_, ?_, rfl, rfl, rfl⟩
  · simp [runTimeout, getItem_setItem]
  · intro k hk
    simp [runTimeout, getItem_setItem, hk]

theorem answers_ne_null_of_answered (s : SFState) (k : String)
    (h : unanswered (getProp s.answers k) = false) : s.answers ≠ .prim .null := by
  intro hn
  rw [hn] at h
  exact absurd h (by simp [getProp, ownProps, unanswered_none])

/-- C13: `goToNextQuestion` in a rendered form (not loading, not submitted) with the dwell
test clear. If the answer of the current question is not satisfying, the index and the
store are unchanged and no move is scheduled. Otherwise, before the last question, the
handler schedules the move (the 150 ms animation timeout); when it fires the index is
`currentQuestionIndex + 1`, that value is the progress entry of the store and no other
entry has changed. At the last question the handler changes nothing. -/
theorem goToNextQuestion_outcome (p : SFProps) (s : SFState)
    (hl : s.loading = false) (hs : s.hasSubmitted = false)
    (hgate : dwellGateActive s = false) :
    (unanswered (getProp s.answers (answerKey s.questions[s.currentQuestionIndex]?)) = true →
      (goToNextQuestion s).currentQuestionIndex = s.currentQuestionIndex ∧
      (goToNextQuestion s).store = s.store ∧
      (∀ n, Timeout.setIndex n ∈ (goToNextQuestion s).timeouts →
        Timeout.setIndex n ∈ s.timeouts)) ∧
    (unanswered (getProp s.answers (answerKey s.questions[s.currentQuestionIndex]?)) = false →
      (s.currentQuestionIndex : Int) < (s.questions.length : Int) - 1 →
      goToNextQuestion s =
        { s with isAnimating := true
                 timeouts := s.timeouts ++ [.setIndex (s.currentQuestionIndex + 1)] } ∧
      (fireTimeout p (goToNextQuestion s) s.timeouts.length).currentQuestionIndex
        = s.currentQuestionIndex + 1 ∧
      getItem (fireTimeout p (goToNextQuestion s) s.timeouts.length).store (progressStorageKey p)
        = some (natToString (s.currentQuestionIndex + 1)) ∧
      (∀ k, k ≠ progressStorageKey p →
        getItem (fireTimeout p (goToNextQuestion s) s.timeouts.length).store k
          = getItem s.store k)) ∧
    (unanswered (getProp s.answers (answerKey s.questions[s.currentQuestionIndex]?)) = false →
      ¬ (s.currentQuestionIndex : Int) < (s.questions.length : Int) - 1 →
      goToNextQuestion s = s) := by
  refine ⟨?_, ?_, ?_⟩
  · intro hu
    by_cases hn : s.answers = .prim .null
    · have : goToNextQuestion s = s := by
        simp [goToNextQuestion, hgate, currentQuestionBinding, hl, hs, hn]
      rw [this]
      exact ⟨rfl, rfl, fun n h => h⟩
    · have : goToNextQuestion s =
          { s with msg := some "Please provide an answer before proceeding to the next question."
                   timeouts := s.timeouts ++ [.clearMsg] } := by
        simp [goToNextQuestion, hgate, currentQuestionBinding, hl, hs, hn, hu]
      rw [this]
      refine ⟨rfl, rfl, ?_⟩
      intro n h
      simpa using h
  · intro hu hlt
    have hn := answers_ne_null_of_answered s _ hu
    have hgo : goToNextQuestion s =
        { s with isAnimating := true
                 timeouts := s.timeouts ++ [.setIndex (s.currentQuestionIndex + 1)] } := by
      simp [goToNextQuestion, hgate, currentQuestionBinding, hl, hs, hn, hu, hlt]
    have hf := fireTimeout_setIndex p (goToNextQuestion s) s.timeouts
      (s.currentQuestionIndex + 1) (by rw [hgo])
    refine ⟨hgo, hf.1, hf.2.1, ?_⟩
    intro k hk
    rw [hf.2.2.1 k hk, hgo]
  · intro hu hge
    have hn := answers_ne_null_of_answered s _ hu
    simp [goToNextQuestion, hgate, currentQuestionBinding, hl, hs, hn, hu, hge]

/-- Witness of C13: on the second of three answered questions, after the countdown, Next
moves to the third question and writes "2" to the progress entry. -/
theorem goToNextQuestion_outcome_witness :
    (arrivingStateReady.loading = false ∧ arrivingStateReady.hasSubmitted = false ∧
      dwellGateActive arrivingStateReady = false) ∧
    (fireTimeout demoProps (goToNextQuestion arrivingStateReady) 0).currentQuestionIndex = 2 ∧
    getItem (fireTimeout demoProps (goToNextQuestion arrivingStateReady) 0).store
      (progressStorageKey demoProps) = some "2" :=
  have h := (goToNextQuestion_outcome demoProps arrivingStateReady (by decide) (by decide)
    (by decide)).2.1 (by decide) (by decide)
  ⟨⟨by decide, by decide, by decide⟩, h.2.1, h.2.2.1⟩

/-- C15: `goToPreviousQuestion`. When `currentQuestionIndex > 0` the handler schedules
the move (the 150 ms animation timeout); when it fires the index is
`currentQuestionIndex - 1`, that value is the progress entry of the store and no other
entry has changed. At index 0 the handler changes nothing. The handler reads neither
`timeRemaining`, nor `visitedQuestions`, nor `answers`: replacing them in the state
replaces them in the outcome and changes nothing else. -/
theorem goToPreviousQuestion_outcome (p : SFProps) (s : SFState) :
    (s.currentQuestionIndex > 0 →
      goToPreviousQuestion s =
        { s with isAnimating := true
                 timeouts := s.timeouts ++ [.setIndex (s.currentQuestionIndex - 1)] } ∧
      (fireTimeout p (goToPreviousQuestion s) s.timeouts.length).currentQuestionIndex
        = s.currentQuestionIndex - 1 ∧
      getItem (fireTimeout p (goToPreviousQuestion s) s.timeouts.length).store
        (progressStorageKey p) = some (natToString (s.currentQuestionIndex - 1)) ∧
      (∀ k, k ≠ progressStorageKey p →
        getItem (fireTimeout p (goToPreviousQuestion s) s.timeouts.length).store k
          = getItem s.store k)) ∧
    (s.currentQuestionIndex = 0 → goToPreviousQuestion s = s) ∧
    (∀ (t : Nat) (v : List JsPrim) (a : JsVal),
      goToPreviousQuestion { s with timeRemaining := t, visitedQuestions := v, answers := a } =
        { goToPreviousQuestion s with timeRemaining := t, visitedQuestions := v, answers := a }) := by
  refine ⟨?_, ?_, ?_⟩
  · intro hpos
    have hgo : goToPreviousQuestion s =
        { s with isAnimating := true
                 timeouts := s.timeouts ++ [.setIndex (s.currentQuestionIndex - 1)] } := by
      simp [goToPreviousQuestion, hpos]
    have hf := fireTimeout_setIndex p (goToPreviousQuestion s) s.timeouts
      (s.currentQuestionIndex - 1) (by rw [hgo])
    refine ⟨hgo, hf.1, hf.2.1, ?_⟩
    intro k hk
    rw [hf.2.2.1 k hk, hgo]
  · intro h0
    simp [goToPreviousQuestion, h0]
  · intro t v a
    unfold goToPreviousQuestion
    by_cases hpos : s.currentQuestionIndex > 0 <;> simp [hpos]

/-- Witness of C15: Previous on the second of three questions, during the countdown of a
first visit and with the answer blank, moves to the first question. -/
theorem goToPreviousQuestion_outcome_witness :
    (arrivalEffect demoProps unansweredMiddleState).timeRemaining = 3 ∧
    (fireTimeout demoProps
      (goToPreviousQuestion (arrivalEffect demoProps unansweredMiddleState)) 0
      ).currentQuestionIndex = 0 ∧
    getItem (fireTimeout demoProps
      (goToPreviousQuestion (arrivalEffect demoProps unansweredMiddleState)) 0).store
      (progressStorageKey demoProps) = some "0" :=
  have h := (goToPreviousQuestion_outcome demoProps
    (arrivalEffect demoProps unansweredMiddleState)).1 (by decide)
  ⟨by decide, h.2.1, h.2.2.1⟩

end SurveyEngine
namespace SurveyEngine

/-- C14 (amended): `goToQuestion(index)` does not read the answer of the current
question. When its dwell test holds (current index not in `visited` and `timeRemaining`
not zero) it is rejected: the index and the store are unchanged and no move is scheduled.
Otherwise, for every index with `0 ≤ index < |questions|` other than the current one,
forward or backward by any distance, it schedules the move (the 150 ms animation timeout);
when it fires `currentQuestionIndex` is `index`, that value is the progress entry of the
store and no other entry has changed. For the current index or an index outside the
catalog it changes nothing. -/
theorem goToQuestion_outcome (p : SFProps) (s : SFState) (index : Int) :
    (dwellGateActive s = true →
      (goToQuestion s index).currentQuestionIndex = s.currentQuestionIndex ∧
      (goToQuestion s index).store = s.store ∧
      (∀ n, Timeout.setIndex n ∈ (goToQuestion s index).timeouts →
        Timeout.setIndex n ∈ s.timeouts)) ∧
    (dwellGateActive s = false → 0 ≤ index → index < (s.questions.length : Int) →
      index ≠ (s.currentQuestionIndex : Int) →
      goToQuestion s index =
        { s with isAnimating := true, timeouts := s.timeouts ++ [.setIndex index.toNat] } ∧
      ((fireTimeout p (goToQuestion s index) s.timeouts.length).currentQuestionIndex : Int)
        = index ∧
      getItem (fireTimeout p (goToQuestion s index) s.timeouts.length).store
        (progressStorageKey p) = some (natToString index.toNat) ∧
      (∀ k, k ≠ progressStorageKey p →
        getItem (fireTimeout p (goToQuestion s index) s.timeouts.length).store k
          = getItem s.store k)) ∧
    (dwellGateActive s = false →
      ¬ (0 ≤ index ∧ index < (s.questions.length : Int) ∧ index ≠ (s.currentQuestionIndex : Int)) →
      goToQuestion s index = s) := by
  refine ⟨?_, ?_, ?_⟩
  · intro hg
    have : goToQuestion s index = rejectDwell s
        "Please take a moment to read the question carefully before proceeding." := by
      simp [goToQuestion, hg]
    rw [this]
    refine ⟨rfl, rfl, ?_⟩
    intro n h
    simpa [rejectDwell] using h
  · intro hg h0 hlt hne
    have hgo : goToQuestion s index =
        { s with isAnimating := true, timeouts := s.timeouts ++ [.setIndex index.toNat] } := by
      simp [goToQuestion, hg, h0, hlt, hne]
    have hf := fireTimeout_setIndex p (goToQuestion s index) s.timeouts index.toNat
      (by rw [hgo])
    refine ⟨hgo, ?_, hf.2.1, ?_⟩
    · rw [hf.1]
      exact Int.toNat_of_nonneg h0
    · intro k hk
      rw [hf.2.2.1 k hk, hgo]
  · intro hg hno
    simp only [goToQuestion, hg, Bool.false_eq_true, if_false]
    rw [if_neg]
    simpa [ge_iff_le] using hno

/-- Witness of C14 (amended): from the second of three questions, after the countdown, the
dot of the first question moves the index to 0 and writes "0" to the progress entry. -/
theorem goToQuestion_outcome_witness :
    dwellGateActive arrivingStateReady = false ∧
    ((fireTimeout demoProps (goToQuestion arrivingStateReady 0) 0).currentQuestionIndex : Int)
      = 0 ∧
    getItem (fireTimeout demoProps (goToQuestion arrivingStateReady 0) 0).store
      (progressStorageKey demoProps) = some "0" :=
  have h := (goToQuestion_outcome demoProps arrivingStateReady 0).2.1 (by decide) (by decide)
    (by decide) (by decide)
  ⟨by decide, h.2.1, h.2.2.1⟩

/-- C14 (counterexample): the respondent is on the second of three questions, its countdown
is over and it has no answer. `goToNextQuestion` is rejected, yet the dot of the third
question is offered and `goToQuestion(2)` moves the index to 2. The same jump is accepted
right after the arrival effect, while the countdown stands at 3. -/
theorem goToQuestion_ignores_answer :
    unansweredReadyState.timeRemaining = 0 ∧
    unanswered (getProp unansweredReadyState.answers
      (answerKey unansweredReadyState.questions[unansweredReadyState.currentQuestionIndex]?))
      = true ∧
    (goToNextQuestion unansweredReadyState).timeouts = [.clearMsg] ∧
    offered unansweredReadyState (.dot 2) = true ∧
    (goToQuestion unansweredReadyState 2).timeouts = [.setIndex 2] ∧
    (fireTimeout demoProps (goToQuestion unansweredReadyState 2) 0).currentQuestionIndex = 2 ∧
    (arrivalEffect demoProps unansweredMiddleState).timeRemaining = 3 ∧
    offered (arrivalEffect demoProps unansweredMiddleState) (.dot 2) = true ∧
    (fireTimeout demoProps (goToQuestion (arrivalEffect demoProps unansweredMiddleState) 2) 0
      ).currentQuestionIndex = 2 := by
  decide

end SurveyEngine
namespace SurveyEngine

/-! ## The index stays inside the catalog -/

theorem bounded_of_same (s t : SFState) (hq : t.questions = s.questions)
    (hi : t.currentQuestionIndex = s.currentQuestionIndex)
    (ht : ∀ n, Timeout.setIndex n ∈ t.timeouts → Timeout.setIndex n ∈ s.timeouts)
    (h : Bounded s) : Bounded t := by
  unfold Bounded at h ⊢
  rw [hq, hi]
  exact ⟨h.1, fun n hn => h.2 n (ht n hn)⟩

theorem bounded_schedule (s : SFState) (n : Nat) (hn : n < s.questions.length)
    (h : Bounded s) :
    Bounded { s with isAnimating := true, timeouts := s.timeouts ++ [.setIndex n] } := by
  refine ⟨h.1, ?_⟩
  intro m hm
  simp only [List.mem_append, List.mem_singleton, Timeout.setIndex.injEq] at hm
  rcases hm with hm | hm
  · exact h.2 m hm
  · rw [hm]; exact hn

theorem bounded_goToNextQuestion (s : SFState) (h : Bounded s) :
    Bounded (goToNextQuestion s) := by
  unfold goToNextQuestion
  split
  · exact bounded_of_same s _ rfl rfl (fun n hn => by simpa [rejectDwell] using hn) h
  · split
    · exact h
    · split
      · exact h
      · split
        · exact bounded_of_same s _ rfl rfl (fun n hn => by simpa using hn) h
        · split
          · rename_i hlt
            exact bounded_schedule s _ (by omega) h
          · exact h

theorem bounded_goToPreviousQuestion (s : SFState) (h : Bounded s) :
    Bounded (goToPreviousQuestion s) := by
  unfold goToPreviousQuestion
  split
  · exact bounded_schedule s _ (by have := h.1; omega) h
  · exact h

theorem bounded_goToQuestion (s : SFState) (index : Int) (h : Bounded s) :
    Bounded (goToQuestion s index) := by
  unfold goToQuestion
  split
  · exact bounded_of_same s _ rfl rfl (fun n hn => by simpa [rejectDwell] using hn) h
  · split
    · rename_i hc
      exact bounded_schedule s _ (by omega) h
    · exact h

theorem bounded_fireTimeout (p : SFProps) (s : SFState) (i : Nat) (h : Bounded s) :
    Bounded (fireTimeout p s i) := by
  unfold fireTimeout
  split
  · exact h
  · rename_i t ht
    have hmem : t ∈ s.timeouts := List.getElem?_mem ht
    have hsub : ∀ n, Timeout.setIndex n ∈ s.timeouts.eraseIdx i →
        Timeout.setIndex n ∈ s.timeouts :=
      fun n hn => (List.eraseIdx_sublist s.timeouts i).subset hn
    cases t with
    | clearTimeError => exact bounded_of_same s _ rfl rfl hsub h
    | clearMsg => exact bounded_of_same s _ rfl rfl hsub h
    | successMsg => exact bounded_of_same s _ rfl rfl hsub h
    | setIndex n =>
      exact ⟨h.2 n hmem, fun m hm => h.2 m (hsub m hm)⟩

theorem bounded_handleSubmit (p : SFProps) (s : SFState) (h : Bounded s) :
    Bounded (handleSubmit p s).1 := by
  unfold handleSubmit
  split
  · exact bounded_of_same s _ rfl rfl (fun n hn => by simpa [rejectDwell] using hn) h
  · split
    · exact h
    · split
      · exact h
      · split
        · exact bounded_of_same s _ rfl rfl (fun n hn => by simpa using hn) h
        · split
          · exact bounded_of_same s _ rfl rfl (fun n hn => by simpa using hn) h
          · exact h

theorem bounded_handleSubmitResolved (p : SFProps) (s : SFState) (o : SubmitOutcome)
    (h : Bounded s) : Bounded (handleSubmitResolved p s o) := by
  unfold handleSubmitResolved
  split
  · exact bounded_of_same s _ rfl rfl (fun n hn => by simpa using hn) h
  · exact h
  · exact h

theorem bounded_arrivalEffect (p : SFProps) (s : SFState) (h : Bounded s) :
    Bounded (arrivalEffect p s) := by
  unfold arrivalEffect
  split <;> exact h

theorem bounded_tick (s : SFState) (h : Bounded s) : Bounded (tick s) := by
  unfold tick
  split
  · split <;> exact h
  · exact h

theorem bounded_statusCheck (p : SFProps) (s : SFState) (o : StatusOutcome) (h : Bounded s) :
    Bounded (statusCheck p s o) := by
  have hfb : ∀ t : SFState, Bounded t → Bounded (localFallback p t) := by
    intro t ht
    unfold localFallback
    split <;> exact ht
  unfold statusCheck
  split
  · exact h
  · cases o with
    | threw => exact hfb s h
    | notOk => exact hfb s h
    | ok d =>
      simp only
      split
      · exact h
      · exact hfb _ h

theorem catalogFetchResolved_fields (s : SFState) (o : CatalogOutcome) :
    (catalogFetchResolved s o).currentQuestionIndex = s.currentQuestionIndex ∧
    (catalogFetchResolved s o).timeouts = s.timeouts ∧
    (catalogFetchResolved s o).hasSubmitted = s.hasSubmitted := by
  unfold catalogFetchResolved
  split <;> exact ⟨rfl, rfl, rfl⟩

theorem bounded_step (p : SFProps) (s t : SFState) (hs : SessionStep p s t)
    (hq : t.questions = s.questions) (h : Bounded s) : Bounded t := by
  cases hs with
  | change qid value => exact h
  | next => exact bounded_goToNextQuestion s h
  | previous => exact bounded_goToPreviousQuestion s h
  | jump index => exact bounded_goToQuestion s index h
  | timeout i => exact bounded_fireTimeout p s i h
  | arrival => exact bounded_arrivalEffect p s h
  | tick => exact bounded_tick s h
  | catalog o =>
    obtain ⟨hi, ht, _⟩ := catalogFetchResolved_fields s o
    exact bounded_of_same s _ hq hi (fun n hn => by rw [ht] at hn; exact hn) h
  | status o => exact bounded_statusCheck p s o h
  | submit => exact bounded_handleSubmit p s h

theorem bounded_of_catalogReach (p : SFProps) (s0 s : SFState) (h0 : Bounded s0)
    (h : CatalogReach p s0 s) : Bounded s := by
  induction h with
  | start => exact h0
  | step s t _ hst hq ih => exact bounded_step p s t hst hq ih
  | submitted s o _ ih => exact bounded_handleSubmitResolved p s o ih

theorem loadSaved_timeouts (p : SFProps) (s : SFState) :
    (loadSaved p s).timeouts = s.timeouts := by
  simp only [loadSaved, loadVisited_eq, loadProgress_eq, loadAnswers_eq]

theorem mount_fields (p : SFProps) (store : Store) :
    (mount p store).currentQuestionIndex = decodeProgress (getItem store (progressStorageKey p)) ∧
    (mount p store).timeouts = [] ∧
    (mount p store).answers = decodeAnswers (getItem store (storageKey p)) ∧
    (mount p store).hasSubmitted = false := by
  obtain ⟨ha, hp, _⟩ := loadSaved_init_fields p store
  have ht := loadSaved_timeouts p (SFState.init store)
  have hs := loadSaved_hasSubmitted p (SFState.init store)
  have hst : ∀ t : SFState, (catalogFetchStart p t).currentQuestionIndex = t.currentQuestionIndex ∧
      (catalogFetchStart p t).timeouts = t.timeouts ∧
      (catalogFetchStart p t).answers = t.answers ∧
      (catalogFetchStart p t).hasSubmitted = t.hasSubmitted := by
    intro t
    unfold catalogFetchStart
    split <;> exact ⟨rfl, rfl, rfl, rfl⟩
  have har : ∀ t : SFState, (arrivalEffect p t).currentQuestionIndex = t.currentQuestionIndex ∧
      (arrivalEffect p t).timeouts = t.timeouts ∧
      (arrivalEffect p t).answers = t.answers ∧
      (arrivalEffect p t).hasSubmitted = t.hasSubmitted := by
    intro t
    unfold arrivalEffect
    split <;> exact ⟨rfl, rfl, rfl, rfl⟩
  unfold mount
  simp only
  split
  · refine ⟨?_, ?_, ?_, ?_⟩
    · rw [(hst _).1]; exact hp
    · rw [(hst _).2.1]; exact ht
    · rw [(hst _).2.2.1]; exact ha
    · rw [(hst _).2.2.2]; exact hs
  · refine ⟨?_, ?_, ?_, ?_⟩
    · rw [(har _).1, (hst _).1]; exact hp
    · rw [(har _).2.1, (hst _).2.1]; exact ht
    · rw [(har _).2.2.1, (hst _).2.2.1]; exact ha
    · rw [(har _).2.2.2, (hst _).2.2.2]; exact hs

/-- C16 (amended): let a session be mounted over a store whose progress entry decodes to
an index below the number of questions of the catalog that then arrives (an absent entry
decodes to 0, so this holds for a fresh session and a catalog that is not empty). Then in
every state reached by the handlers, timeouts, effects, ticks and request continuations
that keep this catalog, `currentQuestionIndex < |questions|`. The index restored from the
progress entry is only tested for `>= 0`: it is not bounded by the catalog. -/
theorem index_stays_in_catalog (p : SFProps) (store : Store) (qs : List Question)
    (message : Option String) (s : SFState)
    (h0 : decodeProgress (getItem store (progressStorageKey p)) < qs.length)
    (h : CatalogReach p (catalogFetchResolved (mount p store) (.data true qs message)) s) :
    s.currentQuestionIndex < s.questions.length ∧
    (catalogFetchResolved (mount p store) (.data true qs message)).currentQuestionIndex
      = decodeProgress (getItem store (progressStorageKey p)) := by
  obtain ⟨hi, ht, _, _⟩ := mount_fields p store
  have hb : Bounded (catalogFetchResolved (mount p store) (.data true qs message)) := by
    refine ⟨?_, ?_⟩
    · simpa [catalogFetchResolved, hi] using h0
    · intro n hn
      simp [catalogFetchResolved, ht] at hn
  refine ⟨(bounded_of_catalogReach p _ s hb h).1, ?_⟩
  simp [catalogFetchResolved, hi]

/-- Witness of C16 (amended): a fresh session with a catalog of three questions, after the
first answer, Next and its timeout: the index is 1, below 3. -/
theorem index_stays_in_catalog_witness :
    decodeProgress (getItem [] (progressStorageKey demoProps)) < threeQuestions.length ∧
    CatalogReach demoProps
      (catalogFetchResolved (mount demoProps []) (.data true threeQuestions none))
      (fireTimeout demoProps (goToNextQuestion firstAnsweredState) 0) ∧
    (fireTimeout demoProps (goToNextQuestion firstAnsweredState) 0).currentQuestionIndex
      < (fireTimeout demoProps (goToNextQuestion firstAnsweredState) 0).questions.length :=
  have r : CatalogReach demoProps
      (catalogFetchResolved (mount demoProps []) (.data true threeQuestions none))
      (fireTimeout demoProps (goToNextQuestion firstAnsweredState) 0) :=
    .step _ _ (.step _ _ (.step _ _ .start (.change _ 1 (.str "a")) rfl) (.next _) (by decide))
      (.timeout _ 0) (by decide)
  ⟨by decide, r, (index_stays_in_catalog demoProps [] threeQuestions none _ (by decide) r).1⟩

/-- C16 (counterexample): the progress entry of the store holds 7 and the catalog that
arrives has three questions. The session is not sealed, its catalog is loaded, and
`currentQuestionIndex` is 7. -/
theorem restored_index_exceeds_catalog :
    getItem progressSevenStore (progressStorageKey demoProps) = some "7" ∧
    restoredSevenState.hasSubmitted = false ∧
    restoredSevenState.loading = false ∧
    restoredSevenState.questions.length = 3 ∧
    restoredSevenState.currentQuestionIndex = 7 := by
  decide

end SurveyEngine
namespace SurveyEngine

/-! ## The arrival effect and the countdown -/

theorem mem_setAdd (xs : List JsPrim) (x y : JsPrim) :
    y ∈ setAdd xs x ↔ y ∈ xs ∨ y = x := by
  unfold setAdd
  split
  · rename_i hx
    constructor
    · exact Or.inl
    · rintro (h | h)
      · exact h
      · rw [h]; exact hx
  · simp

theorem arrivalEffect_eq_stmts (p : SFProps) (s : SFState) :
    arrivalEffect p s = (arrivalStmts s).foldl (runArrivalStmt p) s := by
  cases hv : hasVisited s with
  | true => simp only [arrivalEffect, arrivalStmts, hv, Bool.not_true, Bool.false_eq_true,
      if_false, List.foldl, runArrivalStmt]
  | false => simp only [arrivalEffect, arrivalStmts, hv, Bool.not_false, if_true, List.foldl,
      runArrivalStmt]

theorem arrivalStmts_marking_first (p : SFProps) (s : SFState) (n : Nat)
    (h : ArrivalStmt.setTimeRemaining 3 ∈ (arrivalStmts s).take n ∨
      ArrivalStmt.setInterval ∈ (arrivalStmts s).take n) :
    hasVisited (((arrivalStmts s).take n).foldl (runArrivalStmt p) s) = true ∧
    getItem (((arrivalStmts s).take n).foldl (runArrivalStmt p) s).store (visitedStorageKey p)
      = some (JSON.stringify
          (.arr (((arrivalStmts s).take n).foldl (runArrivalStmt p) s).visitedQuestions)) := by
  cases hv : hasVisited s with
  | true =>
    exfalso
    simp only [arrivalStmts, hv, Bool.not_true, Bool.false_eq_true, if_false] at h
    rcases n with _ | _ | _ | n <;> simp at h
  | false =>
    simp only [arrivalStmts, hv, Bool.not_false, if_true] at h ⊢
    rcases n with _ | _ | _ | _ | _ | _ | n
    · simp at h
    · simp at h
    · simp at h
    · simp at h
    · simp [runArrivalStmt, hasVisited, mem_setAdd, getItem_setItem]
    · simp [runArrivalStmt, hasVisited, mem_setAdd, getItem_setItem]
    · simp [runArrivalStmt, hasVisited, mem_setAdd, getItem_setItem]

theorem mount_cases (p : SFProps) (store : Store) :
    ∃ started : SFState,
      started.currentQuestionIndex = decodeProgress (getItem store (progressStorageKey p)) ∧
      started.visitedQuestions = decodeVisited (getItem store (visitedStorageKey p)) ∧
      started.timeRemaining = 0 ∧ started.countdownRunning = false ∧
      mount p store = if started.currentQuestionIndex = 0 then started
        else arrivalEffect p started := by
  obtain ⟨_, hp, hv⟩ := loadSaved_init_fields p store
  have hst : ∀ t : SFState,
      (catalogFetchStart p t).currentQuestionIndex = t.currentQuestionIndex ∧
      (catalogFetchStart p t).visitedQuestions = t.visitedQuestions ∧
      (catalogFetchStart p t).timeRemaining = t.timeRemaining ∧
      (catalogFetchStart p t).countdownRunning = t.countdownRunning := by
    intro t
    unfold catalogFetchStart
    split <;> exact ⟨rfl, rfl, rfl, rfl⟩
  refine ⟨catalogFetchStart p { loadSaved p (SFState.init store) with
      timeRemaining := 0, showTimeError := false, countdownRunning := false }, ?_, ?_, ?_, ?_, rfl⟩
  · exact ((hst _).1).trans hp
  · exact ((hst _).2.1).trans hv
  · exact (hst _).2.2.1
  · exact (hst _).2.2.2

theorem hasVisited_mount_iff (p : SFProps) (store : Store) :
    hasVisited (mount p store) = true ↔
      (decodeProgress (getItem store (progressStorageKey p)) ≠ 0 ∨
        JsPrim.num 0 ∈ decodeVisited (getItem store (visitedStorageKey p))) := by
  obtain ⟨started, hi, hv, _, _, hm⟩ := mount_cases p store
  rw [hm]
  by_cases h0 : started.currentQuestionIndex = 0
  · rw [if_pos h0]
    have : decodeProgress (getItem store (progressStorageKey p)) = 0 := by rw [← hi, h0]
    simp [hasVisited, h0, hv, this]
  · rw [if_neg h0]
    have : decodeProgress (getItem store (progressStorageKey p)) ≠ 0 := by rw [← hi]; exact h0
    simp [hasVisited_arrivalEffect, this]

theorem visited_mono_arrivalEffect (p : SFProps) (s : SFState) (x : JsPrim)
    (hx : x ∈ s.visitedQuestions) : x ∈ (arrivalEffect p s).visitedQuestions := by
  unfold arrivalEffect
  split
  · exact (mem_setAdd _ _ _).mpr (Or.inl hx)
  · exact hx

theorem visited_of_step (p : SFProps) (s t : SFState) (hst : SessionStep p s t) (x : JsPrim)
    (hx : x ∈ s.visitedQuestions) : x ∈ t.visitedQuestions := by
  cases hst with
  | change qid value => exact hx
  | next =>
    have : (goToNextQuestion s).visitedQuestions = s.visitedQuestions := by
      unfold goToNextQuestion
      split
      · rfl
      · split
        · rfl
        · split
          · rfl
          · split
            · rfl
            · split <;> rfl
    rw [this]; exact hx
  | previous =>
    have : (goToPreviousQuestion s).visitedQuestions = s.visitedQuestions := by
      unfold goToPreviousQuestion
      split <;> rfl
    rw [this]; exact hx
  | jump index =>
    have : (goToQuestion s index).visitedQuestions = s.visitedQuestions := by
      unfold goToQuestion
      split
      · rfl
      · split <;> rfl
    rw [this]; exact hx
  | timeout i =>
    have : (fireTimeout p s i).visitedQuestions = s.visitedQuestions := by
      unfold fireTimeout
      split
      · rfl
      · rename_i t _
        cases t <;> rfl
    rw [this]; exact hx
  | arrival => exact visited_mono_arrivalEffect p s x hx
  | tick =>
    have : (tick s).visitedQuestions = s.visitedQuestions := by
      unfold tick
      split
      · split <;> rfl
      · rfl
    rw [this]; exact hx
  | catalog o =>
    have : (catalogFetchResolved s o).visitedQuestions = s.visitedQuestions := by
      unfold catalogFetchResolved
      split <;> rfl
    rw [this]; exact hx
  | status o =>
    have : (statusCheck p s o).visitedQuestions = s.visitedQuestions := by
      unfold statusCheck
      simp only [localFallback_eq]
      split
      · rfl
      · split
        · split <;> rfl
        · rfl
        · rfl
    rw [this]; exact hx
  | submit =>
    have : (handleSubmit p s).1.visitedQuestions = s.visitedQuestions := by
      unfold handleSubmit
      split
      · rfl
      · split
        · rfl
        · split
          · rfl
          · split
            · rfl
            · split <;> rfl
    rw [this]; exact hx

theorem visited_of_reach (p : SFProps) (store : Store) (s : SFState)
    (h : SessionReach p store s) (x : JsPrim)
    (hx : x ∈ decodeVisited (getItem store (visitedStorageKey p))) : x ∈ s.visitedQuestions := by
  induction h with
  | mount =>
    obtain ⟨started, _, hv, _, _, hm⟩ := mount_cases p store
    rw [hm]
    split
    · rw [hv]; exact hx
    · exact visited_mono_arrivalEffect p started x (by rw [hv]; exact hx)
  | step s t _ hst ih => exact visited_of_step p s t hst x ih

/-- C17 (amended): whenever the arrival effect runs on a state with current index `i`, as
it does after every move by Next, Previous or a dot and at the mount for a restored index
other than 0, afterwards `i` is a member of `visitedQuestions` and every member of the
set before is still a member; the set only grows under every step of a session. When `i`
was not a member before, the visited entry of the store is the JSON array of the new set
and parses back to it. The statements of the effect run in the order of the source: in
every state in which `setTimeRemaining(3)` or `setInterval` has run, the index is already
marked and the entry written. At the mount with index 0 the effect has run in the first
render, on the initial set {0}, before the load replaces the set by the stored one: then
0 is a member exactly when the stored set contains 0, which holds for an empty store and
for every store written by a session that started from such a store. -/
theorem arrivalEffect_marks_visited (p : SFProps) (s : SFState) :
    JsPrim.num (s.currentQuestionIndex : Int) ∈ (arrivalEffect p s).visitedQuestions ∧
    (∀ x, x ∈ s.visitedQuestions → x ∈ (arrivalEffect p s).visitedQuestions) ∧
    (hasVisited s = false →
      arrivalEffect p s = startCountdown (markVisited p s) ∧
      (markVisited p s).visitedQuestions
        = s.visitedQuestions ++ [JsPrim.num (s.currentQuestionIndex : Int)] ∧
      getItem (markVisited p s).store (visitedStorageKey p)
        = some (JSON.stringify (.arr (markVisited p s).visitedQuestions)) ∧
      JSON.parse (JSON.stringify (.arr (markVisited p s).visitedQuestions))
        = some (.arr (markVisited p s).visitedQuestions) ∧
      (markVisited p s).timeRemaining = s.timeRemaining ∧
      (markVisited p s).countdownRunning = s.countdownRunning ∧
      (arrivalEffect p s).visitedQuestions = (markVisited p s).visitedQuestions ∧
      (arrivalEffect p s).store = (markVisited p s).store ∧
      (arrivalEffect p s).timeRemaining = 3 ∧
      (arrivalEffect p s).countdownRunning = true) ∧
    arrivalEffect p s = (arrivalStmts s).foldl (runArrivalStmt p) s ∧
    (∀ n, (ArrivalStmt.setTimeRemaining 3 ∈ (arrivalStmts s).take n ∨
        ArrivalStmt.setInterval ∈ (arrivalStmts s).take n) →
      hasVisited (((arrivalStmts s).take n).foldl (runArrivalStmt p) s) = true ∧
      getItem (((arrivalStmts s).take n).foldl (runArrivalStmt p) s).store (visitedStorageKey p)
        = some (JSON.stringify
            (.arr (((arrivalStmts s).take n).foldl (runArrivalStmt p) s).visitedQuestions))) ∧
    (∀ n, hasVisited (arrivalEffect p (runTimeout p s (.setIndex n))) = true) ∧
    (∀ t, SessionStep p s t → ∀ x, x ∈ s.visitedQuestions → x ∈ t.visitedQuestions) ∧
    (∀ store, hasVisited (mount p store) = true ↔
      (decodeProgress (getItem store (progressStorageKey p)) ≠ 0 ∨
        JsPrim.num 0 ∈ decodeVisited (getItem store (visitedStorageKey p)))) ∧
    JsPrim.num 0 ∈ decodeVisited (getItem [] (visitedStorageKey p)) ∧
    (∀ store t, SessionReach p store t →
      JsPrim.num 0 ∈ decodeVisited (getItem store (visitedStorageKey p)) →
      JsPrim.num 0 ∈ decodeVisited (getItem t.store (visitedStorageKey p))) := by
  refine ⟨?_, ?_, ?_, arrivalEffect_eq_stmts p s, arrivalStmts_marking_first p s,
    fun n => hasVisited_arrivalEffect p _, fun t hst x hx => visited_of_step p s t hst x hx,
    hasVisited_mount_iff p, by simp [getItem, decodeVisited, truthyStr], ?_⟩
  · have h := hasVisited_arrivalEffect p s
    have hi : (arrivalEffect p s).currentQuestionIndex = s.currentQuestionIndex := by
      unfold arrivalEffect
      split <;> rfl
    simpa [hasVisited, hi] using h
  · intro x hx
    unfold arrivalEffect
    split
    · exact (mem_setAdd _ _ _).mpr (Or.inl hx)
    · exact hx
  · intro hv
    have hm : JsPrim.num (s.currentQuestionIndex : Int) ∉ s.visitedQuestions := by
      simpa [hasVisited] using hv
    have hmark : (markVisited p s).visitedQuestions
        = s.visitedQuestions ++ [JsPrim.num (s.currentQuestionIndex : Int)] := by
      simp [markVisited, setAdd, hm]
    have hae : arrivalEffect p s = startCountdown (markVisited p s) := by
      simp [arrivalEffect, hv, startCountdown, markVisited]
    refine ⟨hae, hmark, ?_, parse_stringify _ trivial, rfl, rfl, ?_, ?_, ?_, ?_⟩
    · simp [markVisited, getItem_setItem]
    · rw [hae]; rfl
    · rw [hae]; rfl
    · rw [hae]; rfl
    · rw [hae]; rfl
  · intro store t hreach h0
    have hsync := inSync_of_reach p store t hreach
    rw [hsync.2.2.2.2]
    exact visited_of_reach p store t hreach _ h0

/-- Witness of C17 (amended): the respondent arrives at the second of three questions; the
visited set becomes the set of 0 and 1 and the visited entry of the store is its JSON
array. -/
theorem arrivalEffect_marks_visited_witness :
    hasVisited arrivingState = false ∧
    (arrivalEffect demoProps arrivingState).visitedQuestions = [.num 0, .num 1] ∧
    getItem (arrivalEffect demoProps arrivingState).store (visitedStorageKey demoProps)
      = some "[0,1]" :=
  have h := (arrivalEffect_marks_visited demoProps arrivingState).2.2.1 (by decide)
  ⟨by decide, h.2.2.2.2.2.2.1.trans (h.2.1.trans (by decide)),
    by rw [h.2.2.2.2.2.2.2.1, h.2.2.1]; decide⟩

/-- Counterexample to C17: the visited entry of the store holds the text `null` and there
is no progress entry. At the mount the arrival effect runs for index 0 on the initial
set, then the load replaces the set by the empty set: the current index 0 is not a member
of `visitedQuestions`, and it is not one after the catalog has arrived either. -/
theorem mount_leaves_index_unmarked :
    getItem looseStore (visitedStorageKey demoProps) = some "null" ∧
    (mount demoProps looseStore).currentQuestionIndex = 0 ∧
    (mount demoProps looseStore).visitedQuestions = [] ∧
    hasVisited (mount demoProps looseStore) = false ∧
    hasVisited (catalogFetchResolved (mount demoProps looseStore)
      (.data true threeQuestions none)) = false := by
  decide

theorem iterate_tick_stopped (k : Nat) (s : SFState) (h : s.countdownRunning = false) :
    Nat.iterate tick k s = s := by
  induction k with
  | zero => rfl
  | succ k ih =>
    rw [Function.iterate_succ_apply]
    have : tick s = s := by simp [tick, h]
    rw [this, ih]

theorem iterate_tick_running (k : Nat) :
    ∀ (s : SFState), s.countdownRunning = true → 1 ≤ s.timeRemaining →
      (Nat.iterate tick k s).timeRemaining = s.timeRemaining - k ∧
      ((Nat.iterate tick k s).countdownRunning = true ↔ k < s.timeRemaining) := by
  induction k with
  | zero =>
    intro s hr hn
    simp [hr]
    omega
  | succ k ih =>
    intro s hr hn
    rw [Function.iterate_succ_apply]
    by_cases h1 : s.timeRemaining ≤ 1
    · have ht : tick s = { s with timeRemaining := 0, countdownRunning := false } := by
        simp [tick, hr, h1]
      rw [ht, iterate_tick_stopped k _ rfl]
      constructor
      · simp; omega
      · simp; omega
    · have ht : tick s = { s with timeRemaining := s.timeRemaining - 1 } := by
        simp [tick, hr, h1]
      rw [ht]
      have := ih { s with timeRemaining := s.timeRemaining - 1 } hr (by simp; omega)
      simp only at this
      constructor
      · rw [this.1]; omega
      · rw [this.2]; omega

/-- C18: the countdown that the arrival effect starts on a first visit stands at 3, and
after `k` firings of its interval `timeRemaining` is `max (3 - k) 0`: 2, 1 and 0 after
one, two and three ticks, 0 after any further tick. The interval runs exactly while fewer
than three ticks have happened. -/
theorem countdown_after_ticks (p : SFProps) (s : SFState) (k : Nat)
    (h : hasVisited s = false) :
    (arrivalEffect p s).timeRemaining = 3 ∧
    ((Nat.iterate tick k (arrivalEffect p s)).timeRemaining : Int) = max (3 - (k : Int)) 0 ∧
    (Nat.iterate tick 1 (arrivalEffect p s)).timeRemaining = 2 ∧
    (Nat.iterate tick 2 (arrivalEffect p s)).timeRemaining = 1 ∧
    (Nat.iterate tick 3 (arrivalEffect p s)).timeRemaining = 0 ∧
    (3 ≤ k → (Nat.iterate tick k (arrivalEffect p s)).timeRemaining = 0) ∧
    ((Nat.iterate tick k (arrivalEffect p s)).timeRemaining = 0 ↔ 3 ≤ k) ∧
    ((Nat.iterate tick k (arrivalEffect p s)).countdownRunning = true ↔ k < 3) := by
  have hae := arrivalEffect_unvisited p s h
  have hr : (arrivalEffect p s).countdownRunning = true := by rw [hae]
  have ht : (arrivalEffect p s).timeRemaining = 3 := by rw [hae]
  have key := fun j => iterate_tick_running j (arrivalEffect p s) hr (by rw [ht]; decide)
  simp only [ht] at key
  refine ⟨ht, ?_, (key 1).1, (key 2).1, (key 3).1, ?_, ?_, (key k).2⟩
  · rw [(key k).1]
    omega
  · intro hk
    rw [(key k).1]
    omega
  · rw [(key k).1]
    omega

/-- Witness of C18: the countdown of the second of three questions after five ticks. -/
theorem countdown_after_ticks_witness :
    hasVisited arrivingState = false ∧
    (arrivalEffect demoProps arrivingState).timeRemaining = 3 ∧
    (Nat.iterate tick 5 (arrivalEffect demoProps arrivingState)).timeRemaining = 0 :=
  have h := countdown_after_ticks demoProps arrivingState 5 (by decide)
  ⟨by decide, h.1, h.2.2.2.2.2.1 (by decide)⟩

/-- C19 (amended): the arrival effect sets `timeRemaining` to 3 if the current index is
not in `visitedQuestions` and to 0 if it is, whatever the state it runs in. So it is after
a scheduled move (Next, Previous or a dot) has fired, and at the mount for a restored index
that is not 0. For index 0 at the mount the effect has run in the first render, where the
set is the initial {0}, and has set 0, whatever the restored set. A question that is in
`visitedQuestions` gets no countdown: the interval is not running and the forward button
is disabled by the answer only. -/
theorem arrivalEffect_timeRemaining (p : SFProps) (s : SFState) :
    (arrivalEffect p s).timeRemaining = (if hasVisited s then 0 else 3) ∧
    (hasVisited s = true → (arrivalEffect p s).countdownRunning = false ∧
      forwardDisabled (arrivalEffect p s) = unanswered (getProp s.answers
        (answerKey s.questions[s.currentQuestionIndex]?))) ∧
    (∀ n, (arrivalEffect p (runTimeout p s (.setIndex n))).timeRemaining
      = (if JsPrim.num (n : Int) ∈ s.visitedQuestions then 0 else 3)) ∧
    (∀ store, (mount p store).timeRemaining
      = (if decodeProgress (getItem store (progressStorageKey p)) = 0 then 0
         else if JsPrim.num (decodeProgress (getItem store (progressStorageKey p)) : Int)
            ∈ decodeVisited (getItem store (visitedStorageKey p)) then 0 else 3)) := by
  refine ⟨?_, ?_, ?_, ?_⟩
  · cases h : hasVisited s with
    | true => rw [arrivalEffect_visited p s h]; rfl
    | false => rw [arrivalEffect_unvisited p s h]; rfl
  · intro h
    rw [arrivalEffect_visited p s h]
    exact ⟨rfl, by simp [forwardDisabled]⟩
  · intro n
    by_cases hm : JsPrim.num (n : Int) ∈ s.visitedQuestions
    · have hv : hasVisited (runTimeout p s (.setIndex n)) = true := by
        simpa [hasVisited, runTimeout] using hm
      rw [arrivalEffect_visited p _ hv]
      simp [hm]
    · have hv : hasVisited (runTimeout p s (.setIndex n)) = false := by
        simpa [hasVisited, runTimeout] using hm
      rw [arrivalEffect_unvisited p _ hv]
      simp [hm]
  · intro store
    obtain ⟨_, hp, hv⟩ := loadSaved_init_fields p store
    have hst : ∀ t : SFState,
        (catalogFetchStart p t).currentQuestionIndex = t.currentQuestionIndex ∧
        (catalogFetchStart p t).visitedQuestions = t.visitedQuestions ∧
        (catalogFetchStart p t).timeRemaining = t.timeRemaining := by
      intro t
      unfold catalogFetchStart
      split <;> exact ⟨rfl, rfl, rfl⟩
    have hi := ((hst { loadSaved p (SFState.init store) with
      timeRemaining := 0, showTimeError := false, countdownRunning := false }).1).trans hp
    have hvv := ((hst { loadSaved p (SFState.init store) with
      timeRemaining := 0, showTimeError := false, countdownRunning := false }).2.1).trans hv
    have ht : (catalogFetchStart p { loadSaved p (SFState.init store) with
      timeRemaining := 0, showTimeError := false, countdownRunning := false }).timeRemaining = 0 :=
      (hst { loadSaved p (SFState.init store) with
      timeRemaining := 0, showTimeError := false, countdownRunning := false }).2.2
    show (if (catalogFetchStart p { loadSaved p (SFState.init store) with
        timeRemaining := 0, showTimeError := false, countdownRunning := false }).currentQuestionIndex = 0
      then _ else arrivalEffect p _).timeRemaining = _
    generalize catalogFetchStart p { loadSaved p (SFState.init store) with
        timeRemaining := 0, showTimeError := false, countdownRunning := false } = started at hi hvv ht
    rw [hi]
    by_cases h0 : decodeProgress (getItem store (progressStorageKey p)) = 0
    · simp only [h0, if_true]
      exact ht
    · simp only [h0, if_false]
      by_cases hm : JsPrim.num (decodeProgress (getItem store (progressStorageKey p)) : Int)
          ∈ decodeVisited (getItem store (visitedStorageKey p))
      · have hvis : hasVisited started = true := by
          simp only [hasVisited, hi, hvv]
          simpa using hm
        rw [arrivalEffect_visited p _ hvis]
        simp [hm]
      · have hvis : hasVisited started = false := by
          simp only [hasVisited, hi, hvv]
          simpa using hm
        rw [arrivalEffect_unvisited p _ hvis]
        simp [hm]

/-- Witness of C19 (amended): on the second of three questions, visited before, the
arrival effect sets 0 and starts no countdown; on its first visit it sets 3. -/
theorem arrivalEffect_timeRemaining_witness :
    hasVisited arrivingStateReady = true ∧
    ((arrivalEffect demoProps arrivingStateReady).countdownRunning = false ∧
      forwardDisabled (arrivalEffect demoProps arrivingStateReady)
        = unanswered (getProp arrivingStateReady.answers
          (answerKey arrivingStateReady.questions[arrivingStateReady.currentQuestionIndex]?))) ∧
    (arrivalEffect demoProps arrivingStateReady).timeRemaining = 0 ∧
    (arrivalEffect demoProps arrivingState).timeRemaining = 3 :=
  ⟨by decide, (arrivalEffect_timeRemaining demoProps arrivingStateReady).2.1 (by decide),
    (arrivalEffect_timeRemaining demoProps arrivingStateReady).1.trans (by decide),
    (arrivalEffect_timeRemaining demoProps arrivingState).1.trans (by decide)⟩

/-- Counterexample to C19: the store holds the progress 0 and the visited set of the
index 1 only. After the mount the restored index 0 is not a member of `visitedQuestions`,
yet `timeRemaining` is 0 and no countdown is running. -/
theorem restored_index_zero_gets_no_countdown :
    getItem restoredZeroStore (progressStorageKey demoProps) = some "0" ∧
    getItem restoredZeroStore (visitedStorageKey demoProps) = some "[1]" ∧
    (mount demoProps restoredZeroStore).currentQuestionIndex = 0 ∧
    (mount demoProps restoredZeroStore).visitedQuestions = [.num 1] ∧
    hasVisited (mount demoProps restoredZeroStore) = false ∧
    (mount demoProps restoredZeroStore).timeRemaining = 0 ∧
    (mount demoProps restoredZeroStore).countdownRunning = false := by
  decide

end SurveyEngine
namespace SurveyEngine

/-! ## Recording an answer -/

theorem lookup_setProp {α : Type} (kvs : List (String × α)) (k : String) (v : α) (k' : String) :
    (setProp kvs k v).lookup k' = if k' = k then some v else kvs.lookup k' := by
  induction kvs with
  | nil =>
    by_cases h : k' = k
    · simp [setProp, h]
    · have hb : (k' == k) = false := by simpa using h
      simp [setProp, List.lookup_cons, hb, h]
  | cons e rest ih =>
    obtain ⟨a, b⟩ := e
    by_cases ha : a = k
    · subst ha
      by_cases h : k' = a
      · simp [setProp, h]
      · have hb : (k' == a) = false := by simpa using h
        simp [setProp, List.lookup_cons, hb, h]
    · by_cases h : k' = a
      · subst h
        have hne : ¬ k' = k := ha
        simp [setProp, ha, hne]
      · have hb : (k' == a) = false := by simpa using h
        simp only [setProp, ha, if_false, List.lookup_cons, hb]
        exact ih

/-- C20: `handleChange(qid, value)` yields an answers map that maps `qid` to `value`,
whatever it held before, and that agrees with the previous map on every other key; the
answers entry of the store holds the JSON text of exactly that map after the same step
(and parses back to it when the keys of the previous map are distinct);
`currentQuestionIndex`, `visitedQuestions` and every other entry of the store are
unchanged. The handler has no test of `hasSubmitted`, so this holds in particular on an
unsealed session. -/
theorem handleChange_effect (p : SFProps) (s : SFState) (qid : Int) (value : JsPrim) :
    getProp (handleChange p s qid value).answers (numToString qid) = some value ∧
    (∀ k, k ≠ numToString qid →
      getProp (handleChange p s qid value).answers k = getProp s.answers k) ∧
    (∀ qid2 : Int, qid2 ≠ qid →
      getProp (handleChange p s qid value).answers (numToString qid2)
        = getProp s.answers (numToString qid2)) ∧
    getItem (handleChange p s qid value).store (storageKey p)
      = some (JSON.stringify (handleChange p s qid value).answers) ∧
    (UniqueKeys s.answers →
      JSON.parse (JSON.stringify (handleChange p s qid value).answers)
        = some (handleChange p s qid value).answers) ∧
    (handleChange p s qid value).currentQuestionIndex = s.currentQuestionIndex ∧
    (handleChange p s qid value).visitedQuestions = s.visitedQuestions ∧
    (∀ k, k ≠ storageKey p → getItem (handleChange p s qid value).store k = getItem s.store k) ∧
    getItem (handleChange p s qid value).store (progressStorageKey p)
      = getItem s.store (progressStorageKey p) ∧
    getItem (handleChange p s qid value).store (visitedStorageKey p)
      = getItem s.store (visitedStorageKey p) ∧
    getItem (handleChange p s qid value).store (submissionStorageKey p)
      = getItem s.store (submissionStorageKey p) := by
  obtain ⟨hap, hav, _, hsa, _, _⟩ := keys_distinct p
  have hother : ∀ k, k ≠ storageKey p →
      getItem (handleChange p s qid value).store k = getItem s.store k := by
    intro k hk
    simp [handleChange, getItem_setItem, hk]
  refine ⟨?_, ?_, ?_, ?_, ?_, rfl, rfl, hother, hother _ (Ne.symm hap), hother _ (Ne.symm hav),
    hother _ hsa⟩
  · simp [handleChange, getProp, ownProps, lookup_setProp]
  · intro k hk
    simp [handleChange, getProp, ownProps, lookup_setProp, hk]
  · intro qid2 hq
    have hk : numToString qid2 ≠ numToString qid := fun h => hq (numToString_injective h)
    simp [handleChange, getProp, ownProps, lookup_setProp, hk]
  · simp [handleChange, getItem_setItem]
  · intro hu
    exact parse_stringify _ (setProp_keys_nodup _ _ _ (ownProps_keys_nodup s.answers hu))

/-- Witness of C20: the answer of question 2 is overwritten; the answer of question 1
stays and the store holds the new map. -/
theorem handleChange_effect_witness :
    getProp (handleChange demoProps answeringState 2 (.str "c")).answers "2" = some (.str "c") ∧
    getProp (handleChange demoProps answeringState 2 (.str "c")).answers "1" = some (.str "a") ∧
    JSON.parse (JSON.stringify (handleChange demoProps answeringState 2 (.str "c")).answers)
      = some (.obj [("1", .str "a"), ("2", .str "c")]) :=
  have h := handleChange_effect demoProps answeringState 2 (.str "c")
  ⟨h.1, (h.2.1 "1" (by decide)).trans (by decide), (h.2.2.2.2.1 (by simp [UniqueKeys, answeringState, SFState.init])).trans (by decide)⟩

end SurveyEngine
namespace SurveyEngine

/-! ## Loading corrupt entries -/

theorem truthyStr_some (text : String) (h : text ≠ "") : truthyStr (some text) = true := by
  simpa [truthyStr] using h

theorem loadSavedE_eq (p : SFProps) (s : SFState) : loadSavedE p s = .ok (loadSaved p s) := by
  have h1 : ∀ sa t, loadAnswersE p sa t = .ok (loadAnswers p sa t) := by
    intro sa t
    unfold loadAnswersE loadAnswers JSON.parseE
    split
    · cases JSON.parse (sa.getD "") <;> rfl
    · rfl
  have h2 : ∀ sp t, loadProgressE p sp t = .ok (loadProgress sp t) := by
    intro sp t
    unfold loadProgressE loadProgress
    split
    · rfl
    · rfl
  have h3 : ∀ sv t, loadVisitedE p sv t = .ok (loadVisited p sv t) := by
    intro sv t
    unfold loadVisitedE loadVisited JSON.parseE
    split
    · cases hp : JSON.parse (sv.getD "") with
      | none => rfl
      | some v =>
        unfold newSetE
        cases hn : newSet v <;> simp [Except.bind, Except.map, tryCatch, hn]
    · rfl
  unfold loadSavedE loadSaved
  simp only [h1, h2, h3, Except.bind]

/-- C11 (amended): on a fresh component the load treats the three entries as follows.
Answers: a non-empty text that is not a JSON text leaves `answers` at its default, the
empty map, and the entry is removed; a text that `JSON.parse` parses is stored as the
parsed value, whatever its shape, and the entry stays. Visited: a non-empty text that is
not a JSON text, or whose parsed value `new Set` rejects, leaves `visitedQuestions` at
its default {0} and the entry is removed; a text whose parsed value `new Set` accepts is
stored as that set and the entry stays. Progress: a text for which `parseInt` gives NaN
or a negative number leaves `currentQuestionIndex` at 0; otherwise the parsed number is
stored. An absent or empty entry leaves the default. The load never raises an exception:
every exception of its calls is caught by its `try`. A stored value can still raise
later: with `null` as `answers` the render throws as soon as the catalog is not empty. -/
theorem loadSaved_entries (p : SFProps) (store : Store) :
    (∀ text, getItem store (storageKey p) = some text → text ≠ "" → isJsonText text = false →
      (loadSaved p (SFState.init store)).answers = .obj [] ∧
      getItem (loadSaved p (SFState.init store)).store (storageKey p) = none) ∧
    (∀ text v, getItem store (storageKey p) = some text → text ≠ "" →
      JSON.parse text = some v →
      (loadSaved p (SFState.init store)).answers = v ∧
      getItem (loadSaved p (SFState.init store)).store (storageKey p) = some text) ∧
    (∀ text, getItem store (visitedStorageKey p) = some text → text ≠ "" →
      isJsonText text = false →
      (loadSaved p (SFState.init store)).visitedQuestions = [.num 0] ∧
      getItem (loadSaved p (SFState.init store)).store (visitedStorageKey p) = none) ∧
    (∀ text v, getItem store (visitedStorageKey p) = some text → text ≠ "" →
      JSON.parse text = some v → newSet v = none →
      (loadSaved p (SFState.init store)).visitedQuestions = [.num 0] ∧
      getItem (loadSaved p (SFState.init store)).store (visitedStorageKey p) = none) ∧
    (∀ text v visited, getItem store (visitedStorageKey p) = some text → text ≠ "" →
      JSON.parse text = some v → newSet v = some visited →
      (loadSaved p (SFState.init store)).visitedQuestions = visited ∧
      getItem (loadSaved p (SFState.init store)).store (visitedStorageKey p) = some text) ∧
    (∀ text, getItem store (progressStorageKey p) = some text →
      (parseInt text = none ∨ ∃ n, parseInt text = some n ∧ n < 0) →
      (loadSaved p (SFState.init store)).currentQuestionIndex = 0) ∧
    (∀ text n, getItem store (progressStorageKey p) = some text → text ≠ "" →
      parseInt text = some n → 0 ≤ n →
      (loadSaved p (SFState.init store)).currentQuestionIndex = n.toNat ∧
      getItem (loadSaved p (SFState.init store)).store (progressStorageKey p) = some text) ∧
    ((getItem store (storageKey p) = none ∨ getItem store (storageKey p) = some "") →
      (loadSaved p (SFState.init store)).answers = .obj []) ∧
    ((getItem store (visitedStorageKey p) = none ∨ getItem store (visitedStorageKey p) = some "") →
      (loadSaved p (SFState.init store)).visitedQuestions = [.num 0]) ∧
    ((getItem store (progressStorageKey p) = none ∨
        getItem store (progressStorageKey p) = some "") →
      (loadSaved p (SFState.init store)).currentQuestionIndex = 0) ∧
    (∀ s : SFState, loadSavedE p s = .ok (loadSaved p s)) ∧
    (∀ s : SFState, s.answers = .prim .null → s.loading = false → s.hasSubmitted = false →
      s.questions ≠ [] → view s = .typeError) := by
  obtain ⟨ha, hp, hv⟩ := loadSaved_init_fields p store
  obtain ⟨hsa, hsp, hsv⟩ := loadSaved_store p (SFState.init store)
  have hst : (SFState.init store).store = store := rfl
  rw [hst] at hsa hsp hsv
  have hanone : ∀ text, getItem store (storageKey p) = some text → text ≠ "" →
      JSON.parse text = none →
      (loadSaved p (SFState.init store)).answers = .obj [] ∧
      getItem (loadSaved p (SFState.init store)).store (storageKey p) = none := by
    intro text hg hne hparse
    have ht := truthyStr_some text hne
    constructor
    · rw [ha, hg]
      simp [decodeAnswers, ht, hparse]
    · rw [hsa, hg]
      simp [ht, hparse]
  have hvnone : ∀ text, getItem store (visitedStorageKey p) = some text → text ≠ "" →
      (JSON.parse text).bind newSet = none →
      (loadSaved p (SFState.init store)).visitedQuestions = [.num 0] ∧
      getItem (loadSaved p (SFState.init store)).store (visitedStorageKey p) = none := by
    intro text hg hne hparse
    have ht := truthyStr_some text hne
    constructor
    · rw [hv, hg]
      simp only [decodeVisited, ht, if_true, Option.getD_some, hparse, Option.getD_none]
    · rw [hsv, hg]
      simp only [ht, Option.getD_some, hparse, and_self, if_true]
  refine ⟨?_, ?_, ?_, ?_, ?_, ?_, ?_, ?_, ?_, ?_, loadSavedE_eq p, ?_⟩
  · intro text hg hne hnj
    exact hanone text hg hne (parse_none_of_not_json text hnj)
  · intro text v hg hne hparse
    have ht := truthyStr_some text hne
    constructor
    · rw [ha, hg]
      simp [decodeAnswers, ht, hparse]
    · rw [hsa, hg]
      simp [hparse]
  · intro text hg hne hnj
    exact hvnone text hg hne (by rw [parse_none_of_not_json text hnj]; rfl)
  · intro text v hg hne hparse hset
    exact hvnone text hg hne (by rw [hparse]; exact hset)
  · intro text v visited hg hne hparse hset
    have ht := truthyStr_some text hne
    have hb : (JSON.parse text).bind newSet = some visited := by rw [hparse]; exact hset
    constructor
    · rw [hv, hg]
      simp only [decodeVisited, ht, if_true, Option.getD_some, hb]
    · rw [hsv, hg]
      simp only [ht, Option.getD_some, hb]
      simp
  · intro text hg hbad
    rw [hp, hg]
    unfold decodeProgress
    split
    · rcases hbad with hnan | ⟨n, hn, hneg⟩
      · simp [hnan]
      · have : ¬ n ≥ 0 := by omega
        simp [hn, this]
    · rfl
  · intro text n hg hne hparse hn
    have ht := truthyStr_some text hne
    constructor
    · rw [hp, hg]
      simp [decodeProgress, ht, hparse, hn]
    · rw [hsp, hg]
  · rintro (hg | hg)
    · rw [ha, hg]; rfl
    · rw [ha, hg]; rfl
  · rintro (hg | hg)
    · rw [hv, hg]; rfl
    · rw [hv, hg]; rfl
  · rintro (hg | hg)
    · rw [hp, hg]; rfl
    · rw [hp, hg]; rfl
  · intro s hnull hl hs hq
    simp [view, hl, hs, hnull, hq]

/-- Witness of C11 (amended): an answers text that is not a JSON text and a visited text
whose value is a number are dropped and removed; a progress text that is not a number is
ignored. -/
theorem loadSaved_entries_witness :
    isJsonText "oops" = false ∧
    ((loadSaved demoProps (SFState.init corruptStore)).answers = .obj [] ∧
      getItem (loadSaved demoProps (SFState.init corruptStore)).store (storageKey demoProps)
        = none) ∧
    ((loadSaved demoProps (SFState.init corruptStore)).visitedQuestions = [.num 0] ∧
      getItem (loadSaved demoProps (SFState.init corruptStore)).store
        (visitedStorageKey demoProps) = none) ∧
    (loadSaved demoProps (SFState.init corruptStore)).currentQuestionIndex = 0 :=
  have h := loadSaved_entries demoProps corruptStore
  ⟨by decide, h.1 "oops" (by decide) (by decide) (by decide),
    h.2.2.2.1 "7" (.prim (.num 7)) (by decide) (by decide) (by decide) (by decide),
    h.2.2.2.2.2.1 "abc" (by decide) (Or.inl (by decide))⟩

/-- Counterexample to C11: the answers text `5` and the visited text `null` are not
encodings of an answers map and of a list of indices, yet the load stores the number 5 as
`answers` and the empty set as `visitedQuestions`, and both entries stay in the store.
The answers text `null` is stored as well and its entry stays; once the catalog of three
questions has arrived the render throws. -/
theorem loadSaved_accepts_any_json :
    getItem looseStore (storageKey demoProps) = some "5" ∧
    getItem looseStore (visitedStorageKey demoProps) = some "null" ∧
    (loadSaved demoProps (SFState.init looseStore)).answers = .prim (.num 5) ∧
    (loadSaved demoProps (SFState.init looseStore)).answers ≠ (SFState.init looseStore).answers ∧
    getItem (loadSaved demoProps (SFState.init looseStore)).store (storageKey demoProps)
      = some "5" ∧
    (loadSaved demoProps (SFState.init looseStore)).visitedQuestions = [] ∧
    (loadSaved demoProps (SFState.init looseStore)).visitedQuestions
      ≠ (SFState.init looseStore).visitedQuestions ∧
    getItem (loadSaved demoProps (SFState.init looseStore)).store (visitedStorageKey demoProps)
      = some "null" ∧
    (loadSaved demoProps (SFState.init nullAnswersStore)).answers = .prim .null ∧
    getItem (loadSaved demoProps (SFState.init nullAnswersStore)).store (storageKey demoProps)
      = some "null" ∧
    view (catalogFetchResolved (mount demoProps nullAnswersStore)
      (.data true threeQuestions none)) = .typeError := by
  decide

end SurveyEngine
namespace SurveyEngine

/-! ## The keys of the store -/

theorem string_append_left_cancel (a x y : String) : a ++ x = a ++ y ↔ x = y := by
  constructor
  · intro h
    have hd := congrArg String.data h
    simp only [String.data_append] at hd
    exact String.ext (List.append_cancel_left hd)
  · intro h
    rw [h]

theorem natToString_formId (m : Nat) :
    (natToString (formId m)).data = [digitChar (m % 4 + 1)] := by
  have h : m % 4 < 4 := Nat.mod_lt _ (by decide)
  unfold formId natToString
  generalize m % 4 = r at h
  interval_cases r <;> rfl

theorem formId_digit_injective (m n : Nat)
    (h : digitChar (m % 4 + 1) = digitChar (n % 4 + 1)) : formId m = formId n := by
  have hm : m % 4 < 4 := Nat.mod_lt _ (by decide)
  have hn : n % 4 < 4 := Nat.mod_lt _ (by decide)
  have h1 := digitChar_toNat (m % 4 + 1) (by omega)
  have h2 := digitChar_toNat (n % 4 + 1) (by omega)
  rw [h] at h1
  unfold formId
  omega

theorem submissionStorageKey_eq_iff (p q : SFProps) :
    submissionStorageKey p = submissionStorageKey q ↔
      idOrDefault p.employeeId = idOrDefault q.employeeId ∧
      formId p.monthIndex = formId q.monthIndex := by
  constructor
  · intro h
    unfold submissionStorageKey at h
    have hd := congrArg String.data h
    simp only [String.data_append, natToString_formId, List.append_assoc] at hd
    have h1 := List.append_cancel_left hd
    have h2 : (idOrDefault p.employeeId).data ++ [Char.ofNat 95, digitChar (p.monthIndex % 4 + 1)]
        = (idOrDefault q.employeeId).data ++ [Char.ofNat 95, digitChar (q.monthIndex % 4 + 1)] := h1
    have h3 := List.append_inj' h2 rfl
    constructor
    · exact String.ext h3.1
    · have h4 := h3.2
      simp only [List.cons.injEq, and_true, true_and] at h4
      exact formId_digit_injective _ _ h4
  · rintro ⟨h1, h2⟩
    unfold submissionStorageKey
    rw [h1, h2]

theorem idOrDefault_of_nonempty (a : String) (h : a ≠ "") : idOrDefault (some a) = a := by
  have := truthyStr_some a h
  simp [idOrDefault, this]

/-- C12 (amended): the four keys are built from `employeeId || 'default'`, and only the
submitted key carries the form id. So the answers, progress and visited keys of two
components are equal exactly when their `employeeId || 'default'` are equal, whatever the
months; the submitted keys are equal exactly when in addition the form ids
`(month % 4) + 1` are equal. In particular two different non-empty `employeeId` values
give four different keys, and for one respondent two months give different submitted
keys exactly when their form ids differ, while the other three keys are the same. -/
theorem keys_equal_iff (p q : SFProps) :
    (storageKey p = storageKey q ↔ idOrDefault p.employeeId = idOrDefault q.employeeId) ∧
    (progressStorageKey p = progressStorageKey q ↔
      idOrDefault p.employeeId = idOrDefault q.employeeId) ∧
    (visitedStorageKey p = visitedStorageKey q ↔
      idOrDefault p.employeeId = idOrDefault q.employeeId) ∧
    (submissionStorageKey p = submissionStorageKey q ↔
      idOrDefault p.employeeId = idOrDefault q.employeeId ∧
      formId p.monthIndex = formId q.monthIndex) ∧
    (∀ a b, p.employeeId = some a → q.employeeId = some b → a ≠ "" → b ≠ "" → a ≠ b →
      storageKey p ≠ storageKey q ∧ progressStorageKey p ≠ progressStorageKey q ∧
      visitedStorageKey p ≠ visitedStorageKey q ∧
      submissionStorageKey p ≠ submissionStorageKey q) ∧
    (p.employeeId = q.employeeId →
      storageKey p = storageKey q ∧ progressStorageKey p = progressStorageKey q ∧
      visitedStorageKey p = visitedStorageKey q ∧
      (submissionStorageKey p ≠ submissionStorageKey q ↔
        formId p.monthIndex ≠ formId q.monthIndex)) := by
  have h1 : storageKey p = storageKey q ↔ idOrDefault p.employeeId = idOrDefault q.employeeId :=
    string_append_left_cancel _ _ _
  have h2 : progressStorageKey p = progressStorageKey q ↔
      idOrDefault p.employeeId = idOrDefault q.employeeId := string_append_left_cancel _ _ _
  have h3 : visitedStorageKey p = visitedStorageKey q ↔
      idOrDefault p.employeeId = idOrDefault q.employeeId := string_append_left_cancel _ _ _
  have h4 := submissionStorageKey_eq_iff p q
  refine ⟨h1, h2, h3, h4, ?_, ?_⟩
  · intro a b hpa hqb ha hb hab
    have hne : idOrDefault p.employeeId ≠ idOrDefault q.employeeId := by
      rw [hpa, hqb, idOrDefault_of_nonempty a ha, idOrDefault_of_nonempty b hb]
      exact hab
    exact ⟨fun h => hne (h1.mp h), fun h => hne (h2.mp h), fun h => hne (h3.mp h),
      fun h => hne (h4.mp h).1⟩
  · intro he
    have hid : idOrDefault p.employeeId = idOrDefault q.employeeId := by rw [he]
    refine ⟨h1.mpr hid, h2.mpr hid, h3.mpr hid, ?_⟩
    rw [Ne, h4]
    simp [hid]

/-- Witness of C12 (amended): the respondents `e1` and `e2` have four different keys; the
respondent `e1` has different submitted keys in January and February. -/
theorem keys_equal_iff_witness :
    (storageKey demoProps ≠ storageKey otherProps ∧
      progressStorageKey demoProps ≠ progressStorageKey otherProps ∧
      visitedStorageKey demoProps ≠ visitedStorageKey otherProps ∧
      submissionStorageKey demoProps ≠ submissionStorageKey otherProps) ∧
    submissionStorageKey demoProps ≠ submissionStorageKey februaryProps :=
  ⟨(keys_equal_iff demoProps otherProps).2.2.2.2.1 "e1" "e2" rfl rfl (by decide) (by decide)
      (by decide),
    ((keys_equal_iff demoProps februaryProps).2.2.2.2.2 rfl).2.2.2.mpr (by decide)⟩

/-- Counterexample to C12: a respondent without `employeeId` and the respondent whose
`employeeId` is `default` share all four keys; one respondent has the same answers,
progress and visited keys in January (form id 1) and February (form id 2); and the same
submitted key in January and May, two different months with form id 1. -/
theorem keys_collide :
    anonymousProps.employeeId ≠ defaultNamedProps.employeeId ∧
    storageKey anonymousProps = storageKey defaultNamedProps ∧
    progressStorageKey anonymousProps = progressStorageKey defaultNamedProps ∧
    visitedStorageKey anonymousProps = visitedStorageKey defaultNamedProps ∧
    submissionStorageKey anonymousProps = submissionStorageKey defaultNamedProps ∧
    formId demoProps.monthIndex ≠ formId februaryProps.monthIndex ∧
    storageKey demoProps = storageKey februaryProps ∧
    progressStorageKey demoProps = progressStorageKey februaryProps ∧
    visitedStorageKey demoProps = visitedStorageKey februaryProps ∧
    demoProps.monthIndex ≠ mayProps.monthIndex ∧
    submissionStorageKey demoProps = submissionStorageKey mayProps := by
  decide

end SurveyEngine
namespace SurveyEngine

/-! ## Clicks on the forward buttons during and after the countdown -/

theorem iterate_tick_fields (k : Nat) :
    ∀ s : SFState, ∃ t c,
      Nat.iterate tick k s = { s with timeRemaining := t, countdownRunning := c } := by
  induction k with
  | zero => intro s; exact ⟨s.timeRemaining, s.countdownRunning, rfl⟩
  | succ k ih =>
    intro s
    rw [Function.iterate_succ_apply]
    obtain ⟨t, c, h⟩ := ih (tick s)
    rw [h]
    unfold tick
    split
    · split
      · exact ⟨t, c, rfl⟩
      · exact ⟨t, c, rfl⟩
    · exact ⟨t, c, rfl⟩

theorem click_refused_of_time (p : SFProps) (t : SFState) (h : t.timeRemaining > 0) :
    clickNext t = t ∧ clickSubmit p t = (t, none) := by
  obtain ⟨h1, h2⟩ := offered_forward_false t h
  simp [clickNext, clickSubmit, h1, h2]

/-- C2 (amended): let the respondent arrive at an index that is not in `visited`. The
countdown that starts stands at `3 - k` after `k` ticks. While it is not zero a click on
Next or on Submit, the only way `goToNextQuestion` and `handleSubmit` are invoked, is
refused: the state is unchanged and nothing is transmitted, whatever the answer; the same
holds in any state with `timeRemaining` above 0. Once the countdown has reached 0, in the
rendered form with a satisfying answer of the current question, the identical click on
Next is accepted before the last question (the move to the next index is scheduled and
made), and the identical click on Submit at the last question runs `handleSubmit`, which
transmits if and only if at least 25 entries of `answers` are satisfying. -/
theorem countdown_refuses_clicks (p : SFProps) (s : SFState) (k : Nat)
    (hv : hasVisited s = false) :
    (Nat.iterate tick k (arrivalEffect p s)).timeRemaining = 3 - k ∧
    (k < 3 →
      clickNext (Nat.iterate tick k (arrivalEffect p s))
        = Nat.iterate tick k (arrivalEffect p s) ∧
      clickSubmit p (Nat.iterate tick k (arrivalEffect p s))
        = (Nat.iterate tick k (arrivalEffect p s), none)) ∧
    (∀ t : SFState, t.timeRemaining > 0 → clickNext t = t ∧ clickSubmit p t = (t, none)) ∧
    (3 ≤ k → s.loading = false → s.hasSubmitted = false → s.isCompleted = false →
      s.currentQuestionIndex < s.questions.length →
      unanswered (getProp s.answers (answerKey s.questions[s.currentQuestionIndex]?)) = false →
      ((s.currentQuestionIndex : Int) < (s.questions.length : Int) - 1 →
        clickNext (Nat.iterate tick k (arrivalEffect p s)) =
          { Nat.iterate tick k (arrivalEffect p s) with
            isAnimating := true
            timeouts := s.timeouts ++ [.setIndex (s.currentQuestionIndex + 1)] } ∧
        (fireTimeout p (clickNext (Nat.iterate tick k (arrivalEffect p s)))
          s.timeouts.length).currentQuestionIndex = s.currentQuestionIndex + 1) ∧
      ((s.currentQuestionIndex : Int) = (s.questions.length : Int) - 1 →
        clickSubmit p (Nat.iterate tick k (arrivalEffect p s))
          = handleSubmit p (Nat.iterate tick k (arrivalEffect p s)) ∧
        ((clickSubmit p (Nat.iterate tick k (arrivalEffect p s))).2.isSome = true ↔
          25 ≤ totalAnswered s.answers) ∧
        (totalAnswered s.answers < 25 →
          (clickSubmit p (Nat.iterate tick k (arrivalEffect p s))).2 = none) ∧
        (25 ≤ totalAnswered s.answers →
          (clickSubmit p (Nat.iterate tick k (arrivalEffect p s))).2 =
            some { employee_id := p.employeeId
                   form_id := formId p.monthIndex
                   answers := buildPayload s.questions s.answers }))) := by
  have hae := arrivalEffect_unvisited p s hv
  have ht3 : (arrivalEffect p s).timeRemaining = 3 := by rw [hae]
  have hrun := iterate_tick_running k (arrivalEffect p s) (by rw [hae]) (by rw [ht3]; decide)
  have htime : (Nat.iterate tick k (arrivalEffect p s)).timeRemaining = 3 - k := by
    rw [hrun.1, ht3]
  obtain ⟨t, c, hfields⟩ := iterate_tick_fields k (arrivalEffect p s)
  refine ⟨htime, ?_, click_refused_of_time p, ?_⟩
  · intro hk
    exact click_refused_of_time p _ (by rw [htime]; omega)
  · intro hk hl hs hc hidx hcur
    have ht0 : (Nat.iterate tick k (arrivalEffect p s)).timeRemaining = 0 := by
      rw [htime]; omega
    generalize Nat.iterate tick k (arrivalEffect p s) = u at hfields ht0 ⊢
    have hq : u.questions = s.questions := by rw [hfields, hae]
    have ha : u.answers = s.answers := by rw [hfields, hae]
    have hi : u.currentQuestionIndex = s.currentQuestionIndex := by rw [hfields, hae]
    have hto : u.timeouts = s.timeouts := by rw [hfields, hae]
    have hul : u.loading = false := by rw [hfields, hae]; exact hl
    have hus : u.hasSubmitted = false := by rw [hfields, hae]; exact hs
    have huc : u.isCompleted = false := by rw [hfields, hae]; exact hc
    have hnull : s.answers ≠ .prim .null := by
      intro h
      rw [h] at hcur
      exact absurd hcur (by simp [getProp, ownProps, unanswered_none])
    have hview : view u = .form := by
      simp [view, hul, hus, huc, ha, hnull]
    have hcur2 : unanswered (getProp u.answers
        (answerKey u.questions[u.currentQuestionIndex]?)) = false := by
      rw [ha, hq, hi]; exact hcur
    have hidx2 : u.currentQuestionIndex < u.questions.length := by rw [hi, hq]; exact hidx
    have hold := (dwell_enforced_by_buttons p u).2.2 hview ht0 hcur2 hidx2
    have hgate : dwellGateActive u = false := by simp [dwellGateActive, ht0]
    constructor
    · intro hlt
      obtain ⟨hoff, hgo, hfire⟩ := hold.1 (by rw [hi, hq]; exact hlt)
      have hclick : clickNext u = goToNextQuestion u := by simp [clickNext, hoff]
      rw [hclick]
      constructor
      · rw [hgo]
        simp only [hto, hi]
      · rw [← hto, ← hi]
        exact hfire
    · intro heq
      obtain ⟨hoff, hiff⟩ := hold.2 (by rw [hi, hq]; exact heq)
      have hclick : clickSubmit p u = handleSubmit p u := by simp [clickSubmit, hoff]
      have hreq := handleSubmit_request p u hul hus hgate hcur2
      rw [ha, hq] at hreq
      rw [ha] at hiff
      refine ⟨hclick, by rw [hclick]; exact hiff, ?_, ?_⟩
      · intro h25
        rw [hclick, hreq, if_pos h25]
      · intro h25
        rw [hclick, hreq, if_neg (by omega)]

/-- Witness of C2 (amended): the respondent arrives at the second of three questions, its
answer present. After one tick a click on Next changes nothing; after three ticks the
click moves to the third question. On the last of 25 answered questions a click on
Submit after three ticks transmits the payload. -/
theorem countdown_refuses_clicks_witness :
    hasVisited arrivingState = false ∧
    clickNext (Nat.iterate tick 1 (arrivalEffect demoProps arrivingState))
      = Nat.iterate tick 1 (arrivalEffect demoProps arrivingState) ∧
    (fireTimeout demoProps (clickNext (Nat.iterate tick 3 (arrivalEffect demoProps arrivingState)))
      arrivingState.timeouts.length).currentQuestionIndex = 2 ∧
    hasVisited lastArrivalState = false ∧
    (clickSubmit demoProps (Nat.iterate tick 3 (arrivalEffect demoProps lastArrivalState))
      ).2.isSome = true :=
  have h1 := countdown_refuses_clicks demoProps arrivingState 1 (by decide)
  have h3 := countdown_refuses_clicks demoProps arrivingState 3 (by decide)
  have h25 := countdown_refuses_clicks demoProps lastArrivalState 3 (by decide)
  ⟨by decide, (h1.2.1 (by decide)).1,
    ((h3.2.2.2 (by decide) (by decide) (by decide) (by decide) (by decide) (by decide)).1
      (by decide)).2,
    by decide,
    ((h25.2.2.2 (by decide) (by decide) (by decide) (by decide) (by decide) (by decide)).2
      (by decide)).2.1.mpr (by decide)⟩

/-- Counterexample to C2: the respondent arrives at the last of three questions for the
first time and answers it, so that all three questions are answered. During the countdown
a click on Submit transmits nothing. After three ticks the Submit button is enabled, and
the identical click is still not accepted: `handleSubmit` rejects it with the message
about 25 questions and nothing is transmitted. -/
theorem submit_after_countdown_not_accepted :
    hasVisited lastOfThreeArrival = false ∧
    lastOfThreeAnswered.timeRemaining = 3 ∧
    lastOfThreeAnswered.questions.length = 3 ∧
    answeredCount lastOfThreeAnswered = 3 ∧
    clickSubmit demoProps lastOfThreeAnswered = (lastOfThreeAnswered, none) ∧
    (tick (tick (tick lastOfThreeAnswered))).timeRemaining = 0 ∧
    offered (tick (tick (tick lastOfThreeAnswered))) .submit = true ∧
    (clickSubmit demoProps (tick (tick (tick lastOfThreeAnswered)))).2 = none ∧
    (clickSubmit demoProps (tick (tick (tick lastOfThreeAnswered)))).1.msg =
      some "Please answer all 25 questions before submitting. You have answered 3/25 questions." := by
  decide

end SurveyEngine
namespace SurveyEngine

/-! ## The answer test -/

theorem dropWhile_ne_nil_of_mem {α : Type} (f : α → Bool) (l : List α) (x : α)
    (hx : x ∈ l) (hf : f x = false) : l.dropWhile f ≠ [] := by
  intro h
  rw [List.dropWhile_eq_nil_iff] at h
  have := h x hx
  rw [hf] at this
  exact Bool.noConfusion this

theorem dropWhile_head_false {α : Type} (f : α → Bool) (l : List α) (h : l.dropWhile f ≠ []) :
    ∃ x ∈ l.dropWhile f, f x = false := by
  induction l with
  | nil => exact absurd rfl h
  | cons a rest ih =>
    by_cases ha : f a = true
    · simp only [List.dropWhile_cons, ha, if_true] at h ⊢
      exact ih h
    · have ha2 : f a = false := by simpa using ha
      refine ⟨a, ?_, ha2⟩
      simp [List.dropWhile_cons, ha2]

theorem jsTrim_ne_empty_iff (s : String) :
    jsTrim s ≠ "" ↔ ∃ c ∈ s.data, isJsWhiteSpace c = false := by
  have key : jsTrim s = "" ↔
      ((s.data.dropWhile isJsWhiteSpace).reverse.dropWhile isJsWhiteSpace) = [] := by
    unfold jsTrim
    constructor
    · intro h
      have := congrArg String.data h
      simpa using this
    · intro h
      rw [h]
      rfl
  rw [Ne, key]
  constructor
  · intro h
    by_contra hall
    apply h
    have hws : ∀ c ∈ s.data, isJsWhiteSpace c = true := by
      intro c hc
      by_contra hcw
      exact hall ⟨c, hc, by simpa using hcw⟩
    have h1 : s.data.dropWhile isJsWhiteSpace = [] := by
      rw [List.dropWhile_eq_nil_iff]
      exact hws
    rw [h1]
    rfl
  · rintro ⟨c, hc, hcw⟩
    have h1 := dropWhile_ne_nil_of_mem isJsWhiteSpace s.data c hc hcw
    obtain ⟨x, hx, hxw⟩ := dropWhile_head_false isJsWhiteSpace s.data h1
    exact dropWhile_ne_nil_of_mem isJsWhiteSpace _ x (List.mem_reverse.mpr hx) hxw

theorem unanswered_eq_not_answered (a : Option JsPrim) : unanswered a = !answered a := by
  cases a with
  | none => rfl
  | some v =>
    cases v with
    | null => rfl
    | bool b => cases b <;> rfl
    | num n => simp [unanswered, answered]
    | str s =>
      simp only [unanswered, answered]
      cases truthy (some (JsPrim.str s)) <;> cases h : (jsTrim s == "") <;> simp [h, bne]

theorem truthy_of_trim_ne (s : String) (h : jsTrim s ≠ "") : truthy (some (.str s)) = true := by
  have hne : s ≠ "" := by
    intro he
    apply h
    rw [he]
    rfl
  simpa [truthy] using hne

theorem answered_str_iff (s : String) :
    answered (some (.str s)) = true ↔ jsTrim s ≠ "" := by
  constructor
  · intro h
    simp only [answered, Bool.and_eq_true] at h
    simpa using h.2
  · intro h
    simp only [answered, Bool.and_eq_true]
    exact ⟨truthy_of_trim_ne s h, by simpa using h⟩

/-- C21 (amended): the answer test of SentimentForm. The rejection test of
`goToNextQuestion` and `handleSubmit` is the negation of the counting test of
`totalAnswered` and `answeredCount`. A string passes the counting test exactly when it has
a character that is not white space (its `trim()` is not empty): the empty string and a
string of white space only do not pass. A number passes when it is not 0, a boolean when it
is `true`; `null` and an absent entry do not pass. In a rendered form with the dwell test
clear, `goToNextQuestion` and `handleSubmit` reject with their answer message exactly the
states whose current answer does not pass. -/
theorem answer_test (p : SFProps) (s : SFState) :
    (∀ a, unanswered a = !answered a) ∧
    (∀ t : String, answered (some (.str t)) = true ↔ ∃ c ∈ t.data, isJsWhiteSpace c = false) ∧
    (∀ t : String, answered (some (.str t)) = true ↔ jsTrim t ≠ "") ∧
    (∀ t : String, (∀ c ∈ t.data, isJsWhiteSpace c = true) → answered (some (.str t)) = false) ∧
    answered (some (.str "")) = false ∧
    answered none = false ∧
    answered (some .null) = false ∧
    (∀ n : Int, answered (some (.num n)) = true ↔ n ≠ 0) ∧
    (∀ b : Bool, answered (some (.bool b)) = b) ∧
    (s.loading = false → s.hasSubmitted = false → dwellGateActive s = false →
      s.answers ≠ .prim .null →
      (answered (getProp s.answers (answerKey s.questions[s.currentQuestionIndex]?)) = false ↔
        goToNextQuestion s =
          { s with msg := some "Please provide an answer before proceeding to the next question."
                   timeouts := s.timeouts ++ [.clearMsg] }) ∧
      (answered (getProp s.answers (answerKey s.questions[s.currentQuestionIndex]?)) = false ↔
        handleSubmit p s =
          ({ s with msg := some "Please provide an answer to the current question before submitting."
                    timeouts := s.timeouts ++ [.clearMsg] }, none))) := by
  refine ⟨unanswered_eq_not_answered, ?_, answered_str_iff, ?_, rfl, rfl, rfl, ?_, ?_, ?_⟩
  · intro t
    rw [answered_str_iff, jsTrim_ne_empty_iff]
  · intro t ht
    cases h : answered (some (.str t)) with
    | false => rfl
    | true =>
      rw [answered_str_iff, jsTrim_ne_empty_iff] at h
      obtain ⟨c, hc, hcw⟩ := h
      rw [ht c hc] at hcw
      exact Bool.noConfusion hcw
  · intro n
    simp [answered, truthy]
  · intro b
    cases b <;> rfl
  · intro hl hs hgate hnull
    have hu := unanswered_eq_not_answered
      (getProp s.answers (answerKey s.questions[s.currentQuestionIndex]?))
    constructor
    · constructor
      · intro ha
        have hun : unanswered (getProp s.answers
            (answerKey s.questions[s.currentQuestionIndex]?)) = true := by rw [hu, ha]; rfl
        simp [goToNextQuestion, hgate, currentQuestionBinding, hl, hs, hnull, hun]
      · intro hgo
        cases ha : answered (getProp s.answers
            (answerKey s.questions[s.currentQuestionIndex]?)) with
        | false => rfl
        | true =>
          exfalso
          have hun : unanswered (getProp s.answers
              (answerKey s.questions[s.currentQuestionIndex]?)) = false := by rw [hu, ha]; rfl
          have ht := congrArg SFState.timeouts hgo
          by_cases hlt : (s.currentQuestionIndex : Int) < (s.questions.length : Int) - 1
          · simp [goToNextQuestion, hgate, currentQuestionBinding, hl, hs, hnull, hun, hlt] at ht
          · simp [goToNextQuestion, hgate, currentQuestionBinding, hl, hs, hnull, hun, hlt] at ht
    · constructor
      · intro ha
        have hun : unanswered (getProp s.answers
            (answerKey s.questions[s.currentQuestionIndex]?)) = true := by rw [hu, ha]; rfl
        simp [handleSubmit, hgate, currentQuestionBinding, hl, hs, hnull, hun]
      · intro hgo
        cases ha : answered (getProp s.answers
            (answerKey s.questions[s.currentQuestionIndex]?)) with
        | false => rfl
        | true =>
          exfalso
          have hun : unanswered (getProp s.answers
              (answerKey s.questions[s.currentQuestionIndex]?)) = false := by rw [hu, ha]; rfl
          have ht := congrArg (fun r => r.1.timeouts) hgo
          by_cases h25 : totalAnswered s.answers < 25
          · simp [handleSubmit, hgate, currentQuestionBinding, hl, hs, hnull, hun, h25] at ht
          · simp [handleSubmit, hgate, currentQuestionBinding, hl, hs, hnull, hun, h25] at ht

/-- Witness of C21 (amended): on the first of three questions, with a single space typed
as the answer, the answer does not pass and Next is rejected with the answer message. -/
theorem answer_test_witness :
    answered (getProp blankAnswerState.answers
      (answerKey blankAnswerState.questions[blankAnswerState.currentQuestionIndex]?)) = false ∧
    goToNextQuestion blankAnswerState =
      { blankAnswerState with
        msg := some "Please provide an answer before proceeding to the next question."
        timeouts := blankAnswerState.timeouts ++ [.clearMsg] } :=
  ⟨by decide,
    ((answer_test demoProps blankAnswerState).2.2.2.2.2.2.2.2.2 (by decide) (by decide)
      (by decide) (by decide)).1.mp (by decide)⟩

/-- Counterexample to C21: a single space is a non-empty string answer, yet it does not
pass the answer test: `goToNextQuestion` rejects it, the Next button is disabled, and the
answered count of the render is 0. -/
theorem blank_string_not_satisfying :
    getProp blankAnswerState.answers "1" = some (.str " ") ∧
    (" " : String) ≠ "" ∧
    answered (some (.str " ")) = false ∧
    unanswered (some (.str " ")) = true ∧
    (goToNextQuestion blankAnswerState).msg
      = some "Please provide an answer before proceeding to the next question." ∧
    (goToNextQuestion blankAnswerState).timeouts = [.clearMsg] ∧
    forwardDisabled blankAnswerState = true ∧
    answeredCount blankAnswerState = 0 ∧
    totalAnswered blankAnswerState.answers = 0 := by
  decide

/-! ## The form id -/

/-- C27: the form id is the function `(m mod 4) + 1` of the month index. For every month
index `m` in 0..11 it lies in 1..4; the form id of the next month, December being followed
by January, is different; and every form id from 1 to 4 is the form id of exactly three
months of the year. -/
theorem formId_rotation (m : Nat) (h : m < 12) :
    formId m = m % 4 + 1 ∧
    1 ≤ formId m ∧ formId m ≤ 4 ∧
    formId ((m + 1) % 12) ≠ formId m ∧
    (∀ f, 1 ≤ f → f ≤ 4 → ((List.range 12).filter (fun k => formId k = f)).length = 3) ∧
    ((List.range 12).filter (fun k => formId k = formId m)).length = 3 := by
  refine ⟨rfl, ?_, ?_, ?_, ?_, ?_⟩
  · unfold formId; omega
  · unfold formId; omega
  · unfold formId; omega
  · intro f h1 h4
    interval_cases f <;> decide
  · interval_cases m <;> decide

/-- Witness of C27: December has form id 4 and January, the month after it, form id 1. -/
theorem formId_rotation_witness :
    formId 11 = 4 ∧ formId ((11 + 1) % 12) ≠ formId 11 :=
  ⟨((formId_rotation 11 (by decide)).1).trans (by decide), (formId_rotation 11 (by decide)).2.2.2.1⟩

end SurveyEngine
namespace SurveyEngine

namespace HR

/-! ## HRFeedback: completeness -/

theorem trim_ne_of_truthy_trim (v : String) (h : jsTrim v ≠ "") : v ≠ "" := by
  intro he
  apply h
  rw [he]
  rfl

theorem questionTest_eq_specSatisfying (responses : List (String × String)) (q : Question) :
    (if q.question_type = "text" ∨ q.question_type = "amount" then
        truthyStr (responses.lookup (numToString q.question_id)) &&
          jsTrim ((responses.lookup (numToString q.question_id)).getD "") != ""
      else
        (responses.lookup (numToString q.question_id)).isSome &&
          (responses.lookup (numToString q.question_id)) != some "")
      = specSatisfying responses q := by
  unfold specSatisfying
  cases h : responses.lookup (numToString q.question_id) with
  | none =>
    by_cases ht : q.question_type = "text" ∨ q.question_type = "amount"
    · simp [ht, truthyStr]
    · simp [ht]
  | some v =>
    by_cases ht : q.question_type = "text" ∨ q.question_type = "amount"
    · simp only [ht, if_true, Option.getD_some, truthyStr]
      by_cases hv : jsTrim v = ""
      · simp [hv]
      · have := trim_ne_of_truthy_trim v hv
        simp [hv, this]
    · simp only [ht, if_false, Option.isSome_some, Bool.true_and]
      by_cases hv : v = ""
      · subst hv
        rfl
      · have h1 : (v != "") = true := by simpa using hv
        have h2 : (some v != some "") = true := by simpa using hv
        rw [h1, h2]

theorem all_eq_of_forall {α : Type} (l : List α) (f g : α → Bool) (h : ∀ x, f x = g x) :
    l.all f = l.all g := by
  have : f = g := funext h
  rw [this]

theorem allAnswered_eq (s : State) :
    allAnswered s = (decide (s.questions.length > 0) &&
      s.questions.all (fun q => specSatisfying s.responses q)) := by
  unfold allAnswered
  congr 1
  exact all_eq_of_forall _ _ _ (fun q => questionTest_eq_specSatisfying s.responses q)

/-- C22 (amended): `allAnswered` is true exactly when the catalog is not empty and every
question of the catalog has a satisfying response (text and amount: a string value that
is not blank; rating and choice: a value that is present and not empty). So for a catalog
of at least one question it is false when no question is answered, false when one question
is left without a satisfying response, and true when all have one; for an empty catalog it
is false. -/
theorem allAnswered_iff (s : State) :
    (allAnswered s = true ↔
      s.questions ≠ [] ∧ ∀ q ∈ s.questions, specSatisfying s.responses q = true) ∧
    (s.questions = [] → allAnswered s = false) ∧
    (s.responses = [] → allAnswered s = false) ∧
    (∀ q ∈ s.questions, specSatisfying s.responses q = false → allAnswered s = false) ∧
    (s.questions ≠ [] → (∀ q ∈ s.questions, specSatisfying s.responses q = true) →
      allAnswered s = true) := by
  have hiff : allAnswered s = true ↔
      s.questions ≠ [] ∧ ∀ q ∈ s.questions, specSatisfying s.responses q = true := by
    rw [allAnswered_eq]
    simp only [Bool.and_eq_true, decide_eq_true_eq, List.all_eq_true, gt_iff_lt,
      List.length_pos]
  have hfalse : ∀ {P : Prop}, (allAnswered s = true → P) → ¬ P → allAnswered s = false := by
    intro P h hn
    cases ha : allAnswered s with
    | false => rfl
    | true => exact absurd (h ha) hn
  refine ⟨hiff, ?_, ?_, ?_, ?_⟩
  · intro he
    exact hfalse (fun h => (hiff.mp h).1) (fun h => h he)
  · intro hr
    cases hq : s.questions with
    | nil => exact hfalse (fun h => (hiff.mp h).1) (fun h => h hq)
    | cons q rest =>
      apply hfalse (fun h => (hiff.mp h).2 q (by rw [hq]; exact List.mem_cons_self _ _))
      simp [specSatisfying, hr]
  · intro q hq hns
    apply hfalse (fun h => (hiff.mp h).2 q hq)
    rw [hns]
    exact Bool.noConfusion
  · intro hne hall
    exact hiff.mpr ⟨hne, hall⟩

/-- Witness of C22 (amended): with the text, rating and amount questions all answered
`allAnswered` is true; with only the first one answered it is false. -/
theorem allAnswered_iff_witness :
    allAnswered hrFullState = true ∧ allAnswered hrPartialState = false :=
  ⟨(allAnswered_iff hrFullState).2.2.2.2 (by decide) (by decide),
    (allAnswered_iff hrPartialState).2.2.2.1 ⟨2, "rating"⟩ (by decide) (by decide)⟩

/-- Counterexample to C22: for the empty catalog every question of the catalog has a
satisfying response (there is none), yet `allAnswered` is false. -/
theorem allAnswered_false_on_empty_catalog :
    hrEmptyCatalogState.questions = [] ∧
    (∀ q ∈ hrEmptyCatalogState.questions,
      specSatisfying hrEmptyCatalogState.responses q = true) ∧
    allAnswered hrEmptyCatalogState = false := by
  refine ⟨by decide, ?_, by decide⟩
  intro q hq
  have : hrEmptyCatalogState.questions = [] := by decide
  rw [this] at hq
  exact absurd hq (List.not_mem_nil q)

end HR

end SurveyEngine
namespace SurveyEngine

namespace HR

/-! ## HRFeedback: the payload -/

theorem allAnswered_forall (s : State) (h : allAnswered s = true) :
    ∀ q ∈ s.questions, specSatisfying s.responses q = true := by
  rw [allAnswered_eq] at h
  simp only [Bool.and_eq_true, List.all_eq_true] at h
  exact h.2

/-- C25 (amended): `HRFeedback.handleSubmit` changes no state and posts one response entry
for every question of the catalog, answered or not, in catalog order. For a text or amount
question `option_id` is null and `response_text` is the stored value, the empty string
when there is none; for any other question `response_text` is null and `option_id` is the
stored value, null when there is none or it is empty. When `allAnswered` holds, as it does
whenever the submit button is enabled, every question is answered, so the entries are
those of the answered questions: the text of a text or amount question is not blank and
the option of a rating or choice question is the selected one. -/
theorem hr_payload (s : State) :
    handleSubmit s = (s, some (.submit (s.questions.map (responseEntry s.responses)))) ∧
    (s.questions.map (responseEntry s.responses)).length = s.questions.length ∧
    (s.questions.map (responseEntry s.responses)).map (fun e => e.question_id)
      = s.questions.map (fun q => q.question_id) ∧
    (∀ q : Question, q.question_type = "text" ∨ q.question_type = "amount" →
      (responseEntry s.responses q).option_id = none ∧
      (responseEntry s.responses q).response_text
        = some ((s.responses.lookup (numToString q.question_id)).getD "")) ∧
    (∀ q : Question, ¬ (q.question_type = "text" ∨ q.question_type = "amount") →
      (responseEntry s.responses q).response_text = none ∧
      (∀ v, s.responses.lookup (numToString q.question_id) = some v → v ≠ "" →
        (responseEntry s.responses q).option_id = some v) ∧
      (s.responses.lookup (numToString q.question_id) = none ∨
        s.responses.lookup (numToString q.question_id) = some "" →
        (responseEntry s.responses q).option_id = none)) ∧
    (allAnswered s = true →
      (∀ q ∈ s.questions, specSatisfying s.responses q = true) ∧
      (∀ q ∈ s.questions, q.question_type = "text" ∨ q.question_type = "amount" →
        ∃ v, (responseEntry s.responses q).response_text = some v ∧ jsTrim v ≠ "") ∧
      (∀ q ∈ s.questions, ¬ (q.question_type = "text" ∨ q.question_type = "amount") →
        ∃ v, (responseEntry s.responses q).option_id = some v ∧ v ≠ "" ∧
          s.responses.lookup (numToString q.question_id) = some v)) := by
  have htext : ∀ q : Question, q.question_type = "text" ∨ q.question_type = "amount" →
      (responseEntry s.responses q).option_id = none ∧
      (responseEntry s.responses q).response_text
        = some ((s.responses.lookup (numToString q.question_id)).getD "") := by
    intro q ht
    simp only [responseEntry, ht, if_true, true_and]
    cases h : s.responses.lookup (numToString q.question_id) with
    | none => simp [truthyStr]
    | some v =>
      by_cases hv : v = ""
      · simp [truthyStr, hv]
      · simp [truthyStr, hv]
  have hopt : ∀ q : Question, ¬ (q.question_type = "text" ∨ q.question_type = "amount") →
      (responseEntry s.responses q).response_text = none ∧
      (∀ v, s.responses.lookup (numToString q.question_id) = some v → v ≠ "" →
        (responseEntry s.responses q).option_id = some v) ∧
      (s.responses.lookup (numToString q.question_id) = none ∨
        s.responses.lookup (numToString q.question_id) = some "" →
        (responseEntry s.responses q).option_id = none) := by
    intro q ht
    simp only [responseEntry, ht, if_false, true_and]
    constructor
    · intro v hv hne
      simp [hv, truthyStr, hne]
    · rintro (h | h)
      · simp [h, truthyStr]
      · simp [h, truthyStr]
  refine ⟨rfl, by simp, ?_, htext, hopt, ?_⟩
  · rw [List.map_map]
    apply List.map_congr_left
    intro q _
    simp only [Function.comp, responseEntry]
    split <;> rfl
  · intro hall
    have hsat := allAnswered_forall s hall
    refine ⟨hsat, ?_, ?_⟩
    · intro q hq ht
      have h1 := hsat q hq
      unfold specSatisfying at h1
      cases hl : s.responses.lookup (numToString q.question_id) with
      | none => rw [hl] at h1; exact Bool.noConfusion h1
      | some v =>
        rw [hl] at h1
        simp only [ht, if_true] at h1
        refine ⟨v, ?_, by simpa using h1⟩
        rw [(htext q ht).2, hl]
        rfl
    · intro q hq ht
      have h1 := hsat q hq
      unfold specSatisfying at h1
      cases hl : s.responses.lookup (numToString q.question_id) with
      | none => rw [hl] at h1; exact Bool.noConfusion h1
      | some v =>
        rw [hl] at h1
        simp only [ht, if_false] at h1
        have hne : v ≠ "" := by simpa using h1
        exact ⟨v, (hopt q ht).2.1 v hl hne, hne, rfl⟩

/-- Witness of C25 (amended): the catalog of a text, a rating and an amount question, all
answered, gives three entries in catalog order. -/
theorem hr_payload_witness :
    allAnswered hrFullState = true ∧
    (handleSubmit hrFullState).2 = some (.submit
      [{ question_id := 1, option_id := none, response_text := some "good" },
       { question_id := 2, option_id := some "4", response_text := none },
       { question_id := 3, option_id := none, response_text := some "55" }]) ∧
    (∀ q ∈ hrFullState.questions, specSatisfying hrFullState.responses q = true) :=
  ⟨by decide, (congrArg Prod.snd (hr_payload hrFullState).1).trans (by decide),
    ((hr_payload hrFullState).2.2.2.2.2 (by decide)).1⟩

/-- Counterexample to C25: with only the first of the three questions answered,
`handleSubmit` posts three entries: the unanswered rating question has a null option and
the unanswered amount question the empty text. -/
theorem hr_payload_has_unanswered_entries :
    (hrPartialState.questions.filter (fun q => specSatisfying hrPartialState.responses q)).length
      = 1 ∧
    (handleSubmit hrPartialState).2 = some (.submit
      [{ question_id := 1, option_id := none, response_text := some "good" },
       { question_id := 2, option_id := none, response_text := none },
       { question_id := 3, option_id := none, response_text := some "" }]) := by
  decide

/-! ## HRFeedback: Next -/

/-- Counterexample to C26: on the first of three questions of HRFeedback, with no response
at all, the Next button is offered and moves the index to 1. -/
theorem hr_next_ignores_answer :
    specSatisfying hrUnansweredState.responses ⟨1, "text"⟩ = false ∧
    hrUnansweredState.questions[hrUnansweredState.currentIndex]? = some ⟨1, "text"⟩ ∧
    nextOffered hrUnansweredState = true ∧
    (next hrUnansweredState).currentIndex = 1 := by
  decide

/-! ## HRFeedback: the empty catalog -/

theorem init_empty_catalog (so : StatusOutcome) (qs : Option (List Question))
    (hso : already so = false) (hqs : qs.getD [] = []) :
    (init State.init so (.ok qs)).1 = { State.init with loading := false } := by
  simp [init, hso, hqs, State.init]

end HR

end SurveyEngine
namespace SurveyEngine

/-! ## The advance rule of the two components -/

/-- C26 (amended): the two components do not share the advance rule. The Next button of
HRFeedback is offered whenever the form is rendered before the last question and sets the
index to `currentIndex + 1`; neither the button nor its handler reads `responses`, so the
move is made whether or not the current question is answered. Only
`SentimentForm.goToNextQuestion` tests the answer: in a rendered form with the dwell test
clear it leaves the index unchanged and schedules no move when the current answer is not
satisfying (the Next button is then disabled), and otherwise, before the last question,
schedules the move to the next index. -/
theorem advance_rules (t : SFState) (s : HR.State) :
    (HR.next s).currentIndex = s.currentIndex + 1 ∧
    (HR.next s).responses = s.responses ∧
    (HR.next s).questions = s.questions ∧
    (∀ r, HR.next { s with responses := r } = { HR.next s with responses := r }) ∧
    (∀ r, HR.nextOffered { s with responses := r } = HR.nextOffered s) ∧
    (HR.view s = .form → (s.currentIndex : Int) < (s.questions.length : Int) - 1 →
      HR.nextOffered s = true) ∧
    (t.loading = false → t.hasSubmitted = false → dwellGateActive t = false →
      unanswered (getProp t.answers (answerKey t.questions[t.currentQuestionIndex]?)) = true →
      (goToNextQuestion t).currentQuestionIndex = t.currentQuestionIndex ∧
      (∀ n, Timeout.setIndex n ∈ (goToNextQuestion t).timeouts →
        Timeout.setIndex n ∈ t.timeouts) ∧
      offered t .next = false) ∧
    (t.loading = false → t.hasSubmitted = false → dwellGateActive t = false →
      unanswered (getProp t.answers (answerKey t.questions[t.currentQuestionIndex]?)) = false →
      (t.currentQuestionIndex : Int) < (t.questions.length : Int) - 1 →
      goToNextQuestion t =
        { t with isAnimating := true
                 timeouts := t.timeouts ++ [.setIndex (t.currentQuestionIndex + 1)] }) := by
  refine ⟨rfl, rfl, rfl, fun _ => rfl, fun _ => rfl, ?_, ?_, ?_⟩
  · intro hv hlt
    simp [HR.nextOffered, hv, hlt]
  · intro hl hs hgate hun
    have hoff : offered t .next = false := by
      have hd : forwardDisabled t = true := by simp [forwardDisabled, hun]
      unfold offered
      split <;> simp [hd]
    by_cases hnull : t.answers = .prim .null
    · have : goToNextQuestion t = t := by
        simp [goToNextQuestion, hgate, currentQuestionBinding, hl, hs, hnull]
      rw [this]
      exact ⟨rfl, fun _ h => h, hoff⟩
    · have : goToNextQuestion t =
          { t with msg := some "Please provide an answer before proceeding to the next question."
                   timeouts := t.timeouts ++ [.clearMsg] } := by
        simp [goToNextQuestion, hgate, currentQuestionBinding, hl, hs, hnull, hun]
      rw [this]
      refine ⟨rfl, ?_, hoff⟩
      intro n hn
      simpa using hn
  · intro hl hs hgate hun hlt
    have hnull := answers_ne_null_of_answered t _ hun
    simp [goToNextQuestion, hgate, currentQuestionBinding, hl, hs, hnull, hun, hlt]

/-- Witness of C26 (amended): with the current question unanswered, Next of HRFeedback is
offered, while `goToNextQuestion` of SentimentForm leaves the index and its button is
disabled. -/
theorem advance_rules_witness :
    HR.nextOffered hrUnansweredState = true ∧
    (HR.next hrUnansweredState).currentIndex = 1 ∧
    ((goToNextQuestion blankAnswerState).currentQuestionIndex
        = blankAnswerState.currentQuestionIndex ∧
      (∀ n, Timeout.setIndex n ∈ (goToNextQuestion blankAnswerState).timeouts →
        Timeout.setIndex n ∈ blankAnswerState.timeouts) ∧
      offered blankAnswerState .next = false) :=
  have h := advance_rules blankAnswerState hrUnansweredState
  ⟨h.2.2.2.2.2.1 (by decide) (by decide), h.1.trans (by decide),
    h.2.2.2.2.2.2.1 (by decide) (by decide) (by decide) (by decide)⟩

/-! ## The empty catalog -/

theorem offered_false_of_no_questions (u : SFState) (h : u.questions = []) (c : Control) :
    offered u c = false := by
  unfold offered
  rw [h]
  simp

/-- C23 (amended): when the catalog request of SentimentForm succeeds with zero questions,
`msg` is set to "No questions found for this form"; in the question form that text is
displayed in the message box, and no control is offered as long as the catalog is empty
(should `msg` be cleared, the box shows "No questions loaded. ..."). When the catalog
request of HRFeedback succeeds with zero questions (or without a `questions` field) and
the survey was not submitted before, the render is the form frame without any message:
no input, no Previous, no Next and no Submit button is rendered. In both components no
submit control is offered. -/
theorem empty_catalog_views (s : SFState) (m : Option String) (so : HR.StatusOutcome)
    (qs : Option (List HR.Question)) :
    (catalogFetchResolved s (.data true [] m)).questions = [] ∧
    (catalogFetchResolved s (.data true [] m)).msg = some "No questions found for this form" ∧
    (s.hasSubmitted = false → s.isCompleted = false →
      view (catalogFetchResolved s (.data true [] m)) = .form) ∧
    formNotice (catalogFetchResolved s (.data true [] m))
      = some "No questions found for this form" ∧
    (∀ c, offered (catalogFetchResolved s (.data true [] m)) c = false) ∧
    (∀ u : SFState, u.questions = [] →
      (∀ c, offered u c = false) ∧ (u.loading = false → formNotice u ≠ none)) ∧
    (HR.already so = false → qs.getD [] = [] →
      (HR.init HR.State.init so (.ok qs)).1.questions = [] ∧
      HR.view (HR.init HR.State.init so (.ok qs)).1 = .form ∧
      HR.notices (HR.init HR.State.init so (.ok qs)).1 = [] ∧
      HR.inputOffered (HR.init HR.State.init so (.ok qs)).1 = false ∧
      HR.previousOffered (HR.init HR.State.init so (.ok qs)).1 = false ∧
      HR.nextOffered (HR.init HR.State.init so (.ok qs)).1 = false ∧
      HR.submitOffered (HR.init HR.State.init so (.ok qs)).1 = false) := by
  have hq : (catalogFetchResolved s (.data true [] m)).questions = [] := rfl
  refine ⟨hq, rfl, ?_, rfl, fun c => offered_false_of_no_questions _ hq c, ?_, ?_⟩
  · intro hs hc
    simp [view, catalogFetchResolved, hs, hc]
  · intro u hu
    refine ⟨fun c => offered_false_of_no_questions u hu c, ?_⟩
    intro hl
    unfold formNotice
    by_cases hm : truthyStr u.msg = true
    · simp only [hm, if_true]
      intro hnone
      rw [hnone] at hm
      exact Bool.noConfusion hm
    · simp [hm, hu, hl]
  · intro hso hqs
    rw [HR.init_empty_catalog so qs hso hqs]
    exact ⟨rfl, by decide, by decide, by decide, by decide, by decide, by decide⟩

/-- Witness of C23 (amended): the fresh SentimentForm session with an empty catalog shows
its message and offers no submit control; the HRFeedback form with an empty catalog
offers no submit control. -/
theorem empty_catalog_views_witness :
    view emptyCatalogState = .form ∧
    formNotice emptyCatalogState = some "No questions found for this form" ∧
    offered emptyCatalogState .submit = false ∧
    HR.submitOffered hrEmptyCatalogState = false :=
  have h := empty_catalog_views (mount demoProps []) none (.ok false) (some [])
  ⟨h.2.2.1 (by decide) (by decide), h.2.2.2.1, h.2.2.2.2.1 .submit,
    (h.2.2.2.2.2.2 (by decide) (by decide)).2.2.2.2.2.2⟩

/-- Counterexample to C23: after the catalog request of HRFeedback has succeeded with zero
questions the render is the form frame and displays no message at all. -/
theorem hr_empty_catalog_shows_no_message :
    hrEmptyCatalogState.questions = [] ∧
    hrEmptyCatalogState.error = "" ∧
    HR.view hrEmptyCatalogState = .form ∧
    HR.notices hrEmptyCatalogState = [] := by
  decide

end SurveyEngine
namespace SurveyEngine

/-! ## The payload of SentimentForm -/

theorem buildPayload_keys (qs : List Question) (a : JsVal) :
    (buildPayload qs a).map AnswerEntry.key =
      (objectKeys a).filter (fun key =>
        (qs.find? (fun x => decide (some x.form_question_id = parseInt key))).isSome) := by
  unfold buildPayload
  induction objectKeys a with
  | nil => rfl
  | cons key rest ih =>
    cases hf : qs.find? (fun x => decide (some x.form_question_id = parseInt key)) with
    | none => simp [List.filterMap_cons, List.filter_cons, hf, ih]
    | some q =>
      by_cases ht : q.question_type = "text"
      · simp [List.filterMap_cons, List.filter_cons, hf, ht, ih, AnswerEntry.key]
      · simp [List.filterMap_cons, List.filter_cons, hf, ht, ih, AnswerEntry.key]

theorem mem_buildPayload (qs : List Question) (a : JsVal) (e : AnswerEntry)
    (h : e ∈ buildPayload qs a) :
    e.key ∈ objectKeys a ∧
    ∃ q, qs.find? (fun x => decide (some x.form_question_id = parseInt e.key)) = some q ∧
      e = (if q.question_type = "text" then AnswerEntry.text e.key (getProp a e.key)
           else AnswerEntry.choice e.key (getProp a e.key)) := by
  unfold buildPayload at h
  rw [List.mem_filterMap] at h
  obtain ⟨key, hkey, hsome⟩ := h
  cases hf : qs.find? (fun x => decide (some x.form_question_id = parseInt key)) with
  | none => simp [hf] at hsome
  | some q =>
    by_cases ht : q.question_type = "text"
    · simp only [hf, ht, if_true, Option.some.injEq] at hsome
      subst hsome
      exact ⟨hkey, q, hf, by simp [AnswerEntry.key, ht]⟩
    · simp only [hf, ht, if_false, Option.some.injEq] at hsome
      subst hsome
      exact ⟨hkey, q, hf, by simp [AnswerEntry.key, ht]⟩

/-- C24 (amended): the payload of a transmitting `handleSubmit` has one entry for every key
of `answers` whose `parseInt` is the id of a question of the catalog, in key order, and no
other entry; with distinct keys no key has two entries. The value is not tested: every
answered question of the catalog has an entry, and so has a question whose stored answer
is blank. The entry of a key carries `answers[key]` in `answer_text` when the type of the
(first) question with that id is 'text' and in `answer_choice` otherwise, never in
both. -/
theorem payload_entries (p : SFProps) (s : SFState) (req : SubmitRequest)
    (h : (handleSubmit p s).2 = some req) :
    req.answers = buildPayload s.questions s.answers ∧
    req.answers.map AnswerEntry.key =
      (objectKeys s.answers).filter (fun key =>
        (s.questions.find? (fun x => decide (some x.form_question_id = parseInt key))).isSome) ∧
    (UniqueKeys s.answers → (req.answers.map AnswerEntry.key).Nodup) ∧
    (∀ e ∈ req.answers, e.key ∈ objectKeys s.answers ∧
      ∃ q ∈ s.questions, some q.form_question_id = parseInt e.key ∧
        s.questions.find? (fun x => decide (some x.form_question_id = parseInt e.key)) = some q ∧
        (q.question_type = "text" → e = .text e.key (getProp s.answers e.key)) ∧
        (q.question_type ≠ "text" → e = .choice e.key (getProp s.answers e.key))) ∧
    (∀ q ∈ s.questions,
      answered (getProp s.answers (numToString q.form_question_id)) = true →
      numToString q.form_question_id ∈ req.answers.map AnswerEntry.key) ∧
    (∀ q ∈ s.questions, ∀ v, getProp s.answers (numToString q.form_question_id) = some v →
      numToString q.form_question_id ∈ req.answers.map AnswerEntry.key) := by
  obtain ⟨hl, hs, hgate, hcur⟩ := handleSubmit_guards_of_some p s req h
  have hreq := handleSubmit_request p s hl hs hgate hcur
  rw [h] at hreq
  have hans : req.answers = buildPayload s.questions s.answers := by
    by_cases h25 : totalAnswered s.answers < 25
    · simp [h25] at hreq
    · simp only [h25, if_false, Option.some.injEq] at hreq
      rw [hreq]
  have hkeys := buildPayload_keys s.questions s.answers
  have hpresent : ∀ q ∈ s.questions, ∀ v,
      getProp s.answers (numToString q.form_question_id) = some v →
      numToString q.form_question_id ∈ req.answers.map AnswerEntry.key := by
    intro q hq v hv
    rw [hans, hkeys, List.mem_filter]
    constructor
    · exact mem_keys_of_lookup _ _ v hv
    · rw [Option.isSome_iff_exists]
      cases hf : s.questions.find?
          (fun x => decide (some x.form_question_id = parseInt (numToString q.form_question_id))) with
      | some q2 => exact ⟨q2, rfl⟩
      | none =>
        rw [List.find?_eq_none] at hf
        have := hf q hq
        simp [parseInt_numToString] at this
  refine ⟨hans, by rw [hans, hkeys], ?_, ?_, ?_, hpresent⟩
  · intro hu
    rw [hans, hkeys]
    exact (ownProps_keys_nodup s.answers hu).filter _
  · intro e he
    rw [hans] at he
    obtain ⟨hk, q, hf, heq⟩ := mem_buildPayload s.questions s.answers e he
    refine ⟨hk, q, List.mem_of_find?_eq_some hf, ?_, hf, ?_, ?_⟩
    · have := List.find?_some hf
      simpa using this
    · intro ht
      rw [if_pos ht] at heq
      exact heq
    · intro ht
      rw [if_neg ht] at heq
      exact heq
  · intro q hq ha
    cases hv : getProp s.answers (numToString q.form_question_id) with
    | none => rw [hv] at ha; exact absurd ha (by simp [answered_none])
    | some v => exact hpresent q hq v hv

/-- Witness of C24 (amended): the catalog of 25 choice questions, all answered, gives 25
entries, the first of them the choice entry of question 1. -/
theorem payload_entries_witness :
    (handleSubmit demoProps full25State).2 =
      some { employee_id := some "e1", form_id := 1,
             answers := buildPayload full25State.questions full25State.answers } ∧
    (buildPayload full25State.questions full25State.answers).map AnswerEntry.key
      = (List.range 25).map (fun i => natToString (i + 1)) ∧
    AnswerEntry.choice "1" (some (.str "3")) ∈
      buildPayload full25State.questions full25State.answers :=
  have h := payload_entries demoProps full25State
    { employee_id := some "e1", form_id := 1,
      answers := buildPayload full25State.questions full25State.answers } (by decide)
  ⟨by decide, h.2.1.trans (by decide), by decide⟩

/-- Counterexample to C24: in a catalog of 26 questions the answer of the first question
has been typed and erased and the other 25 are answered. The Submit button is enabled,
`handleSubmit` transmits, and the payload has 26 entries: the first one is the entry of
the unanswered question 1, with the empty text. -/
theorem payload_has_blank_entry :
    getProp blankFirstState.answers "1" = some (.str "") ∧
    answered (getProp blankFirstState.answers "1") = false ∧
    answeredCount blankFirstState = 25 ∧
    offered blankFirstState .submit = true ∧
    (handleSubmit demoProps blankFirstState).2.map (fun r => r.answers.length) = some 26 ∧
    (handleSubmit demoProps blankFirstState).2.map (fun r => r.answers.head?)
      = some (some (.text "1" (some (.str "")))) := by
  decide

end SurveyEngine
namespace SurveyEngine

/-! ## The first question of a fresh session -/

theorem loadSaved_empty (p : SFProps) : loadSaved p (SFState.init []) = SFState.init [] := by
  simp [loadSaved, loadAnswers, loadProgress, loadVisited, SFState.init, getItem, truthyStr]

theorem fresh_catalog_state (p : SFProps) (qs : List Question) (m : Option String) :
    catalogFetchResolved (mount p []) (.data true qs m) =
      { SFState.init [] with
        questions := qs
        msg := if qs.length = 0 then some "No questions found for this form" else none
        timeRemaining := 0 } := by
  unfold mount
  rw [loadSaved_empty]
  unfold catalogFetchStart
  split <;> simp [catalogFetchResolved, SFState.init]

/-- C28: on a fresh session (empty store) index 0 is a member of the initial
`visitedQuestions`, so the arrival effect of the first question starts no countdown and
sets `timeRemaining` to 0. After the mount and the arrival of the catalog the index is 0,
`timeRemaining` is 0 and stays 0 under every tick, the dwell test is clear, and the forward
button is disabled only by the answer: once a satisfying answer of the first question has
been recorded, Next is enabled at once (in a catalog of at least two questions) and
`goToNextQuestion` schedules the move to index 1. -/
theorem first_question_no_countdown (p : SFProps) (qs : List Question) (m : Option String) :
    JsPrim.num 0 ∈ (SFState.init []).visitedQuestions ∧
    hasVisited (SFState.init []) = true ∧
    (arrivalEffect p (SFState.init [])).timeRemaining = 0 ∧
    (arrivalEffect p (SFState.init [])).countdownRunning = false ∧
    (mount p []).currentQuestionIndex = 0 ∧
    (mount p []).visitedQuestions = [.num 0] ∧
    (mount p []).timeRemaining = 0 ∧
    (mount p []).countdownRunning = false ∧
    (catalogFetchResolved (mount p []) (.data true qs m)).timeRemaining = 0 ∧
    dwellGateActive (catalogFetchResolved (mount p []) (.data true qs m)) = false ∧
    (∀ k, (Nat.iterate tick k
      (catalogFetchResolved (mount p []) (.data true qs m))).timeRemaining = 0) ∧
    forwardDisabled (catalogFetchResolved (mount p []) (.data true qs m))
      = unanswered (getProp (.obj []) (answerKey qs[0]?)) ∧
    (∀ (q q2 : Question) (rest : List Question) (v : JsPrim), qs = q :: q2 :: rest →
      answered (some v) = true →
      offered (handleChange p (catalogFetchResolved (mount p []) (.data true qs m))
        q.form_question_id v) .next = true ∧
      goToNextQuestion (handleChange p (catalogFetchResolved (mount p []) (.data true qs m))
        q.form_question_id v) =
        { handleChange p (catalogFetchResolved (mount p []) (.data true qs m))
            q.form_question_id v with
          isAnimating := true, timeouts := [.setIndex 1] }) := by
  have hmount : mount p [] = catalogFetchStart p { SFState.init [] with timeRemaining := 0 } := by
    unfold mount
    rw [loadSaved_empty]
    have : (catalogFetchStart p { SFState.init [] with
        timeRemaining := 0, showTimeError := false, countdownRunning := false
        }).currentQuestionIndex = 0 := by
      unfold catalogFetchStart
      split <;> rfl
    simp only [this, if_true]
    rfl
  have hm4 : (mount p []).currentQuestionIndex = 0 ∧ (mount p []).visitedQuestions = [.num 0] ∧
      (mount p []).timeRemaining = 0 ∧ (mount p []).countdownRunning = false := by
    rw [hmount]
    unfold catalogFetchStart
    split <;> exact ⟨rfl, rfl, rfl, rfl⟩
  have hs := fresh_catalog_state p qs m
  refine ⟨by decide, by decide, rfl, rfl, hm4.1, hm4.2.1, hm4.2.2.1, hm4.2.2.2, ?_, ?_, ?_, ?_, ?_⟩
  · rw [hs]
  · rw [hs]; rfl
  · intro k
    rw [iterate_tick_stopped k _ (by rw [hs]; rfl), hs]
  · rw [hs]
    simp [forwardDisabled, SFState.init]
  · intro q q2 rest v hqs ha
    rw [hs]
    subst hqs
    have hun : unanswered (some v) = false := by
      rw [unanswered_eq_not_answered, ha]; rfl
    have hget : getProp (JsVal.obj (setProp (ownProps (JsVal.obj []))
        (numToString q.form_question_id) v)) (numToString q.form_question_id) = some v := by
      simp [getProp, ownProps, lookup_setProp]
    constructor
    · simp [offered, view, handleChange, SFState.init, forwardDisabled, answerKey, hget, hun]
      omega
    · simp [goToNextQuestion, dwellGateActive, hasVisited, currentQuestionBinding, handleChange,
        SFState.init, answerKey, hget, hun]

/-- Witness of C28: the fresh session of `demoProps` with three questions; after the
answer "a" of question 1 Next is enabled without any tick. -/
theorem first_question_no_countdown_witness :
    answered (some (.str "a")) = true ∧
    offered firstAnsweredState .next = true :=
  ⟨by decide,
    ((first_question_no_countdown demoProps threeQuestions none).2.2.2.2.2.2.2.2.2.2.2.2
      ⟨1, "text"⟩ ⟨2, "text"⟩ [⟨3, "text"⟩] (.str "a") rfl (by decide)).1⟩

/-! ## The guard of the buttons and the guard of the handlers -/

theorem offered_forward_fields (s : SFState) (c : Control)
    (hc : c = .next ∨ c = .submit) (h : offered s c = true) :
    view s = .form ∧ s.questions[s.currentQuestionIndex]? ≠ none ∧ forwardDisabled s = false := by
  unfold offered at h
  split at h
  · rename_i q hv hq
    refine ⟨hv, by rw [hq]; exact Option.noConfusion, ?_⟩
    rcases hc with hc | hc <;> subst hc <;> simp only [Bool.and_eq_true] at h <;> simpa using h.2
  · exact Bool.noConfusion h

theorem view_form_fields (s : SFState) (h : view s = .form) :
    s.loading = false ∧ s.hasSubmitted = false ∧ s.isCompleted = false := by
  unfold view at h
  split at h
  · exact SFView.noConfusion h
  · split at h
    · exact SFView.noConfusion h
    · split at h
      · exact SFView.noConfusion h
      · split at h
        · exact SFView.noConfusion h
        · rename_i h1 h2 _ h4
          exact ⟨by simpa using h1, by simpa using h2, by simpa using h4⟩

theorem forwardDisabled_false_iff (s : SFState) :
    forwardDisabled s = false ↔
      s.timeRemaining = 0 ∧
      unanswered (getProp s.answers (answerKey s.questions[s.currentQuestionIndex]?)) = false := by
  unfold forwardDisabled
  simp only [Bool.or_eq_false_iff, decide_eq_false_iff_not]
  constructor
  · rintro ⟨h1, h2⟩
    exact ⟨by omega, h1⟩
  · rintro ⟨h1, h2⟩
    exact ⟨h2, by omega⟩

theorem dwellGateActive_of_time_zero (s : SFState) (h : s.timeRemaining = 0) :
    dwellGateActive s = false := by
  simp [dwellGateActive, h]

/-- C29: the `disabled` expression of the Next and Submit buttons of SentimentForm is true
exactly when `timeRemaining > 0` or the answer of the current question is not satisfying.
In the question form, before the last question the Next button is enabled exactly when
`timeRemaining` is 0 and the current answer is satisfying, and at the last question the
same holds of the Submit button. In every state in which Next is enabled,
`goToNextQuestion` passes its dwell test and its answer test and schedules the move; in
every state in which Submit is enabled, `handleSubmit` passes its dwell test and its
answer test: it goes on to the count of 25 answers and transmits or rejects there. -/
theorem button_guard_implies_handler_guard (p : SFProps) (s : SFState) :
    (forwardDisabled s = true ↔
      s.timeRemaining > 0 ∨
      unanswered (getProp s.answers (answerKey s.questions[s.currentQuestionIndex]?)) = true) ∧
    (view s = .form → s.questions[s.currentQuestionIndex]? ≠ none →
      (offered s .next = true ↔
        (s.currentQuestionIndex : Int) ≠ (s.questions.length : Int) - 1 ∧
        forwardDisabled s = false) ∧
      (offered s .submit = true ↔
        (s.currentQuestionIndex : Int) = (s.questions.length : Int) - 1 ∧
        forwardDisabled s = false)) ∧
    (offered s .next = true →
      dwellGateActive s = false ∧
      unanswered (getProp s.answers (answerKey s.questions[s.currentQuestionIndex]?)) = false ∧
      goToNextQuestion s =
        { s with isAnimating := true
                 timeouts := s.timeouts ++ [.setIndex (s.currentQuestionIndex + 1)] }) ∧
    (offered s .submit = true →
      dwellGateActive s = false ∧
      unanswered (getProp s.answers (answerKey s.questions[s.currentQuestionIndex]?)) = false ∧
      handleSubmit p s =
        if totalAnswered s.answers < 25 then
          ({ s with showTimeError := true
                    msg := some ("Please answer all 25 questions before submitting. You have answered "
                      ++ natToString (totalAnswered s.answers) ++ "/25 questions.")
                    timeouts := s.timeouts ++ [.clearTimeError] }, none)
        else
          ({ s with loading := true },
            some { employee_id := p.employeeId
                   form_id := formId p.monthIndex
                   answers := buildPayload s.questions s.answers })) := by
  refine ⟨?_, ?_, ?_, ?_⟩
  · unfold forwardDisabled
    simp only [Bool.or_eq_true, decide_eq_true_eq]
    constructor
    · rintro (h | h)
      · exact Or.inr h
      · exact Or.inl h
    · rintro (h | h)
      · exact Or.inr h
      · exact Or.inl h
  · intro hv hq
    cases hq2 : s.questions[s.currentQuestionIndex]? with
    | none => exact absurd hq2 hq
    | some q =>
      constructor
      · simp [offered, hv, hq2]
      · simp [offered, hv, hq2]
  · intro h
    obtain ⟨hv, hq, hd⟩ := offered_forward_fields s .next (Or.inl rfl) h
    obtain ⟨hl, hs, _⟩ := view_form_fields s hv
    obtain ⟨ht, hun⟩ := (forwardDisabled_false_iff s).mp hd
    have hgate := dwellGateActive_of_time_zero s ht
    have hnull := answers_ne_null_of_answered s _ hun
    refine ⟨hgate, hun, ?_⟩
    have hlt : (s.currentQuestionIndex : Int) < (s.questions.length : Int) - 1 := by
      have hlen : s.currentQuestionIndex < s.questions.length := by
        by_contra hge
        exact hq (List.getElem?_eq_none (by omega))
      have hne : (s.currentQuestionIndex : Int) ≠ (s.questions.length : Int) - 1 := by
        cases hq2 : s.questions[s.currentQuestionIndex]? with
        | none => exact absurd hq2 hq
        | some q =>
          simp only [offered, hv, hq2, Bool.and_eq_true, Bool.not_eq_true',
            decide_eq_false_iff_not] at h
          exact h.1
      omega
    simp [goToNextQuestion, hgate, currentQuestionBinding, hl, hs, hnull, hun, hlt]
  · intro h
    obtain ⟨hv, hq, hd⟩ := offered_forward_fields s .submit (Or.inr rfl) h
    obtain ⟨hl, hs, _⟩ := view_form_fields s hv
    obtain ⟨ht, hun⟩ := (forwardDisabled_false_iff s).mp hd
    have hgate := dwellGateActive_of_time_zero s ht
    have hnull := answers_ne_null_of_answered s _ hun
    refine ⟨hgate, hun, ?_⟩
    by_cases h25 : totalAnswered s.answers < 25
    · simp [handleSubmit, hgate, currentQuestionBinding, hl, hs, hnull, hun, h25]
    · simp [handleSubmit, hgate, currentQuestionBinding, hl, hs, hnull, hun, h25]

/-- Witness of C29: Next is enabled on the second of three answered questions after the
countdown and schedules the move to index 2; Submit is enabled on the last of 25 answered
questions and `handleSubmit` transmits. -/
theorem button_guard_implies_handler_guard_witness :
    offered arrivingStateReady .next = true ∧
    (goToNextQuestion arrivingStateReady).timeouts = [.setIndex 2] ∧
    offered full25State .submit = true ∧
    (handleSubmit demoProps full25State).2.isSome = true :=
  have h1 := (button_guard_implies_handler_guard demoProps arrivingStateReady).2.2.1 (by decide)
  have h2 := (button_guard_implies_handler_guard demoProps full25State).2.2.2 (by decide)
  ⟨by decide, (congrArg SFState.timeouts h1.2.2).trans (by decide), by decide,
    (congrArg (fun r => r.2.isSome) h2.2.2).trans (by decide)⟩

end SurveyEngine
namespace SurveyEngine

/-! ## The completion screen -/

theorem goToNextQuestion_isCompleted (s : SFState) :
    (goToNextQuestion s).isCompleted = s.isCompleted := by
  unfold goToNextQuestion
  split
  · rfl
  · split
    · rfl
    · split
      · rfl
      · split
        · rfl
        · split <;> rfl

theorem goToPreviousQuestion_isCompleted (s : SFState) :
    (goToPreviousQuestion s).isCompleted = s.isCompleted := by
  unfold goToPreviousQuestion
  split <;> rfl

theorem goToQuestion_isCompleted (s : SFState) (i : Int) :
    (goToQuestion s i).isCompleted = s.isCompleted := by
  unfold goToQuestion
  split
  · rfl
  · split <;> rfl

theorem handleSubmit_isCompleted (p : SFProps) (s : SFState) :
    (handleSubmit p s).1.isCompleted = s.isCompleted := by
  unfold handleSubmit
  split
  · rfl
  · split
    · rfl
    · split
      · rfl
      · split
        · rfl
        · split <;> rfl

theorem fireTimeout_isCompleted (p : SFProps) (s : SFState) (i : Nat) :
    (fireTimeout p s i).isCompleted = s.isCompleted := by
  unfold fireTimeout
  split
  · rfl
  · rename_i t _
    cases t <;> rfl

theorem tick_isCompleted (s : SFState) : (tick s).isCompleted = s.isCompleted := by
  unfold tick
  split
  · split <;> rfl
  · rfl

theorem arrivalEffect_isCompleted (p : SFProps) (s : SFState) :
    (arrivalEffect p s).isCompleted = s.isCompleted := by
  unfold arrivalEffect
  split <;> rfl

theorem catalogFetchStart_isCompleted (p : SFProps) (s : SFState) :
    (catalogFetchStart p s).isCompleted = s.isCompleted := by
  unfold catalogFetchStart
  split <;> rfl

theorem catalogFetchResolved_isCompleted (s : SFState) (o : CatalogOutcome) :
    (catalogFetchResolved s o).isCompleted = s.isCompleted := by
  unfold catalogFetchResolved
  split <;> rfl

theorem localFallback_isCompleted (p : SFProps) (s : SFState) :
    (localFallback p s).isCompleted = s.isCompleted := by
  rw [localFallback_eq]

theorem statusCheck_isCompleted (p : SFProps) (s : SFState) (o : StatusOutcome) :
    (statusCheck p s o).isCompleted = s.isCompleted := by
  unfold statusCheck
  split
  · rfl
  · split
    · split
      · rfl
      · rw [localFallback_isCompleted]
    · rw [localFallback_isCompleted]
    · rw [localFallback_isCompleted]

theorem loadSaved_isCompleted (p : SFProps) (s : SFState) :
    (loadSaved p s).isCompleted = s.isCompleted := by
  simp only [loadSaved, loadVisited_eq, loadProgress_eq, loadAnswers_eq]

theorem mount_isCompleted (p : SFProps) (store : Store) :
    (mount p store).isCompleted = false := by
  unfold mount
  simp only
  split
  · rw [catalogFetchStart_isCompleted]
    exact loadSaved_isCompleted p (SFState.init store)
  · rw [arrivalEffect_isCompleted, catalogFetchStart_isCompleted]
    exact loadSaved_isCompleted p (SFState.init store)

theorem completed_step (p : SFProps) (s t : SFState) (hst : ActionStep p s t)
    (h : s.isCompleted = true → s.hasSubmitted = true) :
    t.isCompleted = true → t.hasSubmitted = true := by
  cases hst with
  | change qid value => exact h
  | next => rw [goToNextQuestion_isCompleted, goToNextQuestion_hasSubmitted]; exact h
  | previous =>
    rw [goToPreviousQuestion_isCompleted, goToPreviousQuestion_hasSubmitted]; exact h
  | jump index => rw [goToQuestion_isCompleted, goToQuestion_hasSubmitted]; exact h
  | timeout i => rw [fireTimeout_isCompleted, fireTimeout_hasSubmitted]; exact h
  | arrival => rw [arrivalEffect_isCompleted, arrivalEffect_hasSubmitted]; exact h
  | tick => rw [tick_isCompleted, tick_hasSubmitted]; exact h
  | catalogStart => rw [catalogFetchStart_isCompleted, catalogFetchStart_hasSubmitted]; exact h
  | catalog o => rw [catalogFetchResolved_isCompleted, catalogFetchResolved_hasSubmitted]; exact h
  | submit => rw [handleSubmit_isCompleted, handleSubmit_hasSubmitted]; exact h
  | submitted o =>
    cases o with
    | threw => exact h
    | data success message =>
      cases success with
      | true => intro _; rfl
      | false => exact h

theorem completed_of_reach (p : SFProps) (s0 s : SFState) (h : ActionReach p s0 s)
    (h0 : s0.isCompleted = true → s0.hasSubmitted = true) :
    s.isCompleted = true → s.hasSubmitted = true := by
  induction h with
  | start => exact h0
  | step s t _ hst ih => exact completed_step p s t hst ih

theorem view_ne_completionScreen (s : SFState)
    (h : s.isCompleted = true → s.hasSubmitted = true) : view s ≠ .completionScreen := by
  unfold view
  split
  · exact SFView.noConfusion
  · split
    · exact SFView.noConfusion
    · split
      · exact SFView.noConfusion
      · split
        · rename_i hs _ hc
          exact absurd (h hc) hs
        · exact SFView.noConfusion

/-- C30: let the status check of the bootstrap effect resolve in a state in which
`isCompleted` is false, as it is at the mount over any store. Then in every state reached
afterwards by the handlers, the timeouts, the arrival effect, the countdown, the catalog
request and submissions from start to end, `isCompleted` implies `hasSubmitted`; so the
render never takes the completion-screen branch (with its reference to `confetti`): when
`isCompleted` is true and the component is not loading, the render returns the
already-submitted view. -/
theorem completed_implies_submitted (p : SFProps) (s1 : SFState) (o : StatusOutcome)
    (s : SFState) (h1 : s1.isCompleted = false)
    (h : ActionReach p (statusCheck p s1 o) s) :
    (s.isCompleted = true → s.hasSubmitted = true) ∧
    view s ≠ .completionScreen ∧
    (s.isCompleted = true → s.loading = false → view s = .alreadySubmitted) ∧
    (∀ store, (mount p store).isCompleted = false) := by
  have h0 : (statusCheck p s1 o).isCompleted = true → (statusCheck p s1 o).hasSubmitted = true := by
    rw [statusCheck_isCompleted, h1]
    exact fun hf => Bool.noConfusion hf
  have hinv := completed_of_reach p _ s h h0
  refine ⟨hinv, view_ne_completionScreen s hinv, ?_, mount_isCompleted p⟩
  intro hc hl
  simp [view, hl, hinv hc]

/-- Witness of C30: the 25 answered questions are submitted with success after a status
check that reported the form as not filled: `isCompleted` and `hasSubmitted` are both
true and the render is the already-submitted view. -/
theorem completed_implies_submitted_witness :
    full25State.isCompleted = false ∧
    (handleSubmitResolved demoProps
      (handleSubmit demoProps (statusCheck demoProps full25State (.ok none))).1
      (.data true none)).isCompleted = true ∧
    view (handleSubmitResolved demoProps
      (handleSubmit demoProps (statusCheck demoProps full25State (.ok none))).1
      (.data true none)) = .alreadySubmitted :=
  have h := completed_implies_submitted demoProps full25State (.ok none)
    (handleSubmitResolved demoProps
      (handleSubmit demoProps (statusCheck demoProps full25State (.ok none))).1
      (.data true none)) (by decide)
    (.step _ _ (.step _ _ .start (.submit _)) (.submitted _ _))
  ⟨by decide, by decide, h.2.2.1 (by decide) (by decide)⟩

end SurveyEngine
